import Mathlib

/- Verification of the flow-grid engine (src/flow_grid.rs of flow-solver-rust):
   the grid data model, the public mutation API (source placement/removal,
   connect/disconnect, tail retraction), the colour-propagation walk
   `connect_core`, and the path-connectivity query `are_cells_connected`.

   Rust `usize` values are modelled as `Nat` (no arithmetic here can overflow:
   all quantities are bounded by the grid size).  Fallible code is modelled
   with `Option`: a `panic!`/`expect`/`unwrap` failure or an out-of-bounds
   `Vec` index is `none`; the unbounded Rust loops (`connect_core`, the
   recursive DFS of `are_cells_connected_core`, the `remove_tail` loop and the
   cursor-advance loop of `try_set_new_source`) take an explicit fuel
   parameter, instantiated generously at each call site; the theorem
   `connect_core_terminates` below proves the `connect_core` fuel can never
   run out at the chosen bound.  `println!` debug output is ignored. -/

inductive Direction
  | up
  | down
  | left
  | right
deriving DecidableEq, Repr

def Direction.opposite : Direction → Direction
  | .up => .down
  | .down => .up
  | .left => .right
  | .right => .left

inductive CellColor
  | empty (id : Nat)
  | colored (id : Nat)
deriving DecidableEq, Repr

def CellColor.canColorsConnect : CellColor → CellColor → Bool
  | .colored id1, .colored id2 => id1 == id2
  | _, _ => true

structure FlowCell where
  color : CellColor
  isSource : Bool
  isConnectedUp : Bool
  isConnectedDown : Bool
  isConnectedLeft : Bool
  isConnectedRight : Bool
deriving DecidableEq, Repr

def FlowCell.emptyWithId (emptyIndex : Nat) : FlowCell :=
  { color := .empty emptyIndex, isSource := false, isConnectedUp := false,
    isConnectedDown := false, isConnectedLeft := false, isConnectedRight := false }

def FlowCell.isDirectionConnected (c : FlowCell) : Direction → Bool
  | .up => c.isConnectedUp
  | .down => c.isConnectedDown
  | .left => c.isConnectedLeft
  | .right => c.isConnectedRight

def FlowCell.addConnection (c : FlowCell) : Direction → FlowCell
  | .up => { c with isConnectedUp := true }
  | .down => { c with isConnectedDown := true }
  | .left => { c with isConnectedLeft := true }
  | .right => { c with isConnectedRight := true }

def FlowCell.removeConnection (c : FlowCell) : Direction → FlowCell
  | .up => { c with isConnectedUp := false }
  | .down => { c with isConnectedDown := false }
  | .left => { c with isConnectedLeft := false }
  | .right => { c with isConnectedRight := false }

def FlowCell.setColor (c : FlowCell) (newColor : CellColor) : FlowCell :=
  { c with color := newColor }

def FlowCell.setSource (c : FlowCell) (b : Bool) : FlowCell :=
  { c with isSource := b }

def FlowCell.numConnections (c : FlowCell) : Nat :=
  (if c.isConnectedUp then 1 else 0) + (if c.isConnectedDown then 1 else 0) +
  (if c.isConnectedLeft then 1 else 0) + (if c.isConnectedRight then 1 else 0)

def FlowCell.hasOpenConnections (c : FlowCell) : Bool :=
  if c.numConnections ≥ 2 then false
  else if c.isSource ∧ c.numConnections ≥ 1 then false
  else true

structure FlowGrid where
  nextColorId : Nat
  cells : List FlowCell
  width : Nat
  height : Nat
  sourceIndex : List (Option Nat × Option Nat)
deriving DecidableEq, Repr

def FlowGrid.withSize (width height : Nat) : FlowGrid :=
  { nextColorId := 0,
    cells := (List.range (width * height)).map FlowCell.emptyWithId,
    width := width, height := height, sourceIndex := [] }

def FlowGrid.nextColor (g : FlowGrid) : Nat := g.nextColorId

def FlowGrid.getIndex (g : FlowGrid) (row col : Nat) : Option Nat :=
  if row < g.height ∧ col < g.width then some (row * g.width + col) else none

def FlowGrid.getOffsetIndex (g : FlowGrid) (row col : Nat) : Direction → Option Nat
  | .up => if row > 0 then g.getIndex (row - 1) col else none
  | .down => g.getIndex (row + 1) col
  | .left => if col > 0 then g.getIndex row (col - 1) else none
  | .right => g.getIndex row (col + 1)

def FlowGrid.offsetIndex (g : FlowGrid) (index : Nat) (direction : Direction) : Option Nat :=
  if index ≥ g.cells.length then none
  else
    match direction with
    | .up => if index ≥ g.width then some (index - g.width) else none
    | .down => if index + g.width < g.cells.length then some (index + g.width) else none
    | .left => if index % g.width > 0 then some (index - 1) else none
    | .right =>
      if index + 1 < g.cells.length ∧ (index + 1) % g.width ≠ 0 then some (index + 1) else none

def FlowGrid.get (g : FlowGrid) (row col : Nat) : Option FlowCell :=
  (g.getIndex row col).bind fun i => g.cells[i]?

def FlowGrid.offsetGet (g : FlowGrid) (row col : Nat) (direction : Direction) : Option FlowCell :=
  (g.getOffsetIndex row col direction).bind fun i => g.cells[i]?

def FlowGrid.getOffsetRowCol (g : FlowGrid) (row col : Nat) : Direction → Option (Nat × Nat)
  | .up => if row > 0 then some (row - 1, col) else none
  | .down => if row + 1 < g.height then some (row + 1, col) else none
  | .left => if col > 0 then some (row, col - 1) else none
  | .right => if col + 1 < g.width then some (row, col + 1) else none

/-- Outcome of the `connect_core` loop: normal completion, a Rust panic
(`unwrap`/index out of bounds), or fuel exhaustion of the model. -/
inductive CoreOut
  | ok (g : FlowGrid)
  | panicked
  | fuelOut
deriving DecidableEq, Repr

/-- One arm of the `else if` chain computing `next_params` inside
`connect_core`: outer `none` is a panicking `unwrap`, `some none` means
this direction does not continue the walk. -/
def FlowGrid.dirStep (g : FlowGrid) (index : Nat) (c : FlowCell) (newColor : CellColor)
    (d : Direction) : Option (Option (Nat × Direction)) :=
  if c.isDirectionConnected d then
    match g.offsetIndex index d with
    | none => none
    | some q =>
      match g.cells[q]? with
      | none => none
      | some qc => if newColor ≠ qc.color then some (some (q, d.opposite)) else some none
  else some none

/-- The full `next_params` computation of `connect_core` (the `else if`
chain over up, down, left, right). -/
def FlowGrid.nextStep (g : FlowGrid) (index : Nat) (c : FlowCell) (newColor : CellColor) :
    Option (Option (Nat × Direction)) :=
  match g.dirStep index c newColor .up with
  | none => none
  | some (some r) => some (some r)
  | some none =>
    match g.dirStep index c newColor .down with
    | none => none
    | some (some r) => some (some r)
    | some none =>
      match g.dirStep index c newColor .left with
      | none => none
      | some (some r) => some (some r)
      | some none => g.dirStep index c newColor .right

/-- The `connect_core` colour-propagation loop, with explicit fuel. -/
def FlowGrid.connectCoreF : Nat → FlowGrid → Nat → Direction → CoreOut
  | 0, _, _, _ => .fuelOut
  | fuel + 1, g, index, direction =>
    match g.offsetIndex index direction with
    | none => .panicked
    | some p =>
      match g.cells[p]?, g.cells[index]? with
      | some pc, some c =>
        let newColor := pc.color
        let c1 := c.addConnection direction
        if newColor = c1.color then .ok { g with cells := g.cells.set index c1 }
        else
          let c2 := c1.setColor newColor
          let g2 := { g with cells := g.cells.set index c2 }
          match g2.nextStep index c2 newColor with
          | none => .panicked
          | some none => .ok g2
          | some (some (ni, nd)) => FlowGrid.connectCoreF fuel g2 ni nd
      | _, _ => .panicked

/-- Lift a `connect_core` outcome to a public-operation result (all public
callers of `connect_core` return `true` after it finishes). -/
def coreToOp : CoreOut → Option (Bool × FlowGrid)
  | .ok g => some (true, g)
  | _ => none

/-- The conditional decolor applied by `try_disconnect` to an endpoint that
is left with no connections and is not a source. -/
def FlowCell.decolorIfIsolated (c : FlowCell) (idx : Nat) : FlowCell :=
  if c.numConnections = 0 ∧ c.isSource = false then c.setColor (CellColor.empty idx) else c

def FlowGrid.tryDisconnect (g : FlowGrid) (row col : Nat) (direction : Direction) :
    Option (Bool × FlowGrid) :=
  match g.getIndex row col, g.getOffsetIndex row col direction with
  | some index, some otherIndex =>
    match g.cells[index]?, g.cells[otherIndex]? with
    | some cell, some offsetCell =>
      if !cell.isDirectionConnected direction then some (false, g)
      else if !offsetCell.isDirectionConnected direction.opposite then some (false, g)
      else
        let cellA := cell.removeConnection direction
        let cellB := cellA.decolorIfIsolated index
        let g1 : FlowGrid := { g with cells := g.cells.set index cellB }
        match g1.cells[otherIndex]? with
        | some oc =>
          let ocA := oc.removeConnection direction.opposite
          let ocB := ocA.decolorIfIsolated otherIndex
          some (true, { g1 with cells := g1.cells.set otherIndex ocB })
        | none => none
    | _, _ => none
  | _, _ => some (false, g)

def FlowGrid.tryConnect (g : FlowGrid) (row col : Nat) (direction : Direction) :
    Option (Bool × FlowGrid) :=
  match g.get row col, g.offsetGet row col direction with
  | some cell1, some cell2 =>
    if !cell1.hasOpenConnections || !cell2.hasOpenConnections then some (false, g)
    else if cell1.isDirectionConnected direction ||
        cell2.isDirectionConnected direction.opposite then some (false, g)
    else if !CellColor.canColorsConnect cell1.color cell2.color then some (false, g)
    else
      match g.getIndex row col, g.getOffsetIndex row col direction with
      | some i1, some i2 =>
        let pair :=
          match cell1.color with
          | .colored _ => ((i2, direction.opposite), (i1, direction))
          | _ => ((i1, direction), (i2, direction.opposite))
        match FlowGrid.connectCoreF (g.cells.length + 1) g pair.1.1 pair.1.2 with
        | .ok gA =>
          match FlowGrid.connectCoreF (gA.cells.length + 1) gA pair.2.1 pair.2.2 with
          | .ok gB => some (true, gB)
          | _ => none
        | _ => none
      | _, _ => none
  | _, _ => some (false, g)

/-- The colour-flood dispatch at the end of `try_set_missing_source`
(checked in the order up, down, left, right). -/
def FlowGrid.setMissingFlood (g2 : FlowGrid) (index : Nat) (cellS : FlowCell) :
    Option (Bool × FlowGrid) :=
  if cellS.isConnectedUp then
    match g2.offsetIndex index .up with
    | none => none
    | some n => coreToOp (FlowGrid.connectCoreF (g2.cells.length + 1) g2 n .down)
  else if cellS.isConnectedDown then
    match g2.offsetIndex index .down with
    | none => none
    | some n => coreToOp (FlowGrid.connectCoreF (g2.cells.length + 1) g2 n .up)
  else if cellS.isConnectedLeft then
    match g2.offsetIndex index .left with
    | none => none
    | some n => coreToOp (FlowGrid.connectCoreF (g2.cells.length + 1) g2 n .right)
  else if cellS.isConnectedRight then
    match g2.offsetIndex index .right with
    | none => none
    | some n => coreToOp (FlowGrid.connectCoreF (g2.cells.length + 1) g2 n .left)
  else some (true, g2)

def FlowGrid.trySetMissingSource (g : FlowGrid) (row col colorId : Nat) :
    Option (Bool × FlowGrid) :=
  match g.getIndex row col with
  | none => some (false, g)
  | some index =>
    match g.cells[index]? with
    | none => none
    | some cell =>
      if cell.isSource then some (false, g)
      else if cell.numConnections > 1 then some (false, g)
      else if !CellColor.canColorsConnect cell.color (.colored colorId) then some (false, g)
      else
        let si := g.sourceIndex
        let si' :=
          match si[colorId]? with
          | some (prev1, prev2) =>
            if prev1 = none then si.set colorId (some index, prev2)
            else if prev2 = none then si.set colorId (prev1, some index)
            else si.set colorId (prev2, some index)
          | none =>
            si ++ List.replicate (colorId - si.length) ((none : Option Nat), (none : Option Nat))
              ++ [(some index, (none : Option Nat))]
        let g1 : FlowGrid := { g with sourceIndex := si' }
        match g1.cells[index]? with
        | none => none
        | some cellR =>
          let cellS := (cellR.setSource true).setColor (CellColor.colored colorId)
          let g2 : FlowGrid := { g1 with cells := g1.cells.set index cellS }
          FlowGrid.setMissingFlood g2 index cellS

/-- The `while let Some((Some(_), Some(_)))` cursor-advance loop of
`try_set_new_source`, with fuel (the loop advances at most
`sourceIndex.length` times, so the fuel used at the call site is ample). -/
def advanceFromF : Nat → List (Option Nat × Option Nat) → Nat → Nat
  | 0, _, n => n
  | fuel + 1, si, n =>
    match si[n]? with
    | some (some _, some _) => advanceFromF fuel si (n + 1)
    | _ => n

def FlowGrid.trySetNewSource (g : FlowGrid) (row col : Nat) : Option (Bool × FlowGrid) :=
  match g.trySetMissingSource row col g.nextColorId with
  | some (true, g1) =>
    some (true,
      { g1 with nextColorId := advanceFromF (g1.sourceIndex.length + 1) g1.sourceIndex g1.nextColorId })
  | some (false, g1) => some (false, g1)
  | none => none

/-- The recursive depth-first walk `are_cells_connected_core`, with fuel
(`none` = fuel ran out or a Rust index panic). -/
def FlowGrid.areCellsConnectedCoreF :
    Nat → FlowGrid → Option Nat → Nat → Option Direction → Nat → Option Bool
  | 0, _, _, _, _, _ => none
  | fuel + 1, g, originalIndex, fromIndex, fromDirection, toIndex =>
    if some fromIndex = originalIndex then some false
    else if fromIndex = toIndex then some true
    else
      match g.cells[fromIndex]? with
      | none => none
      | some cell =>
        let orig := originalIndex.getD fromIndex
        let r1 : Option Bool :=
          if cell.isDirectionConnected .up ∧ fromDirection ≠ some Direction.up then
            match g.offsetIndex fromIndex .up with
            | some nextIndex =>
              FlowGrid.areCellsConnectedCoreF fuel g (some orig) nextIndex (some .down) toIndex
            | none => some false
          else some false
        match r1 with
        | none => none
        | some true => some true
        | some false =>
          let r2 : Option Bool :=
            if cell.isDirectionConnected .down ∧ fromDirection ≠ some Direction.down then
              match g.offsetIndex fromIndex .down with
              | some nextIndex =>
                FlowGrid.areCellsConnectedCoreF fuel g (some orig) nextIndex (some .up) toIndex
              | none => some false
            else some false
          match r2 with
          | none => none
          | some true => some true
          | some false =>
            let r3 : Option Bool :=
              if cell.isDirectionConnected .left ∧ fromDirection ≠ some Direction.left then
                match g.offsetIndex fromIndex .left with
                | some nextIndex =>
                  FlowGrid.areCellsConnectedCoreF fuel g (some orig) nextIndex (some .right) toIndex
                | none => some false
              else some false
            match r3 with
            | none => none
            | some true => some true
            | some false =>
              if cell.isDirectionConnected .right ∧ fromDirection ≠ some Direction.right then
                match g.offsetIndex fromIndex .right with
                | some nextIndex =>
                  FlowGrid.areCellsConnectedCoreF fuel g (some orig) nextIndex (some .left) toIndex
                | none => some false
              else some false

def FlowGrid.areCellsConnected (g : FlowGrid) (row1 col1 row2 col2 : Nat) : Option Bool :=
  if row1 = row2 ∧ col1 = col2 then some true
  else
    match g.getIndex row1 col1 with
    | none => some false
    | some index1 =>
      match g.cells[index1]? with
      | none => none
      | some cell1 =>
        match g.getIndex row2 col2 with
        | none => some false
        | some index2 =>
          match g.cells[index2]? with
          | none => none
          | some cell2 =>
            if cell1.color ≠ cell2.color then some false
            else g.areCellsConnectedCoreF (g.cells.length + 1) none index1 none index2

/-- The decolor-flood dispatch at the end of `try_remove_source`
(checked in the order down, left, right, up). -/
def FlowGrid.decolorFlood (g4 : FlowGrid) (index : Nat) (cellD1 : FlowCell) :
    Option (Bool × FlowGrid) :=
  if cellD1.isConnectedDown then
    match g4.offsetIndex index .down with
    | none => none
    | some n => coreToOp (FlowGrid.connectCoreF (g4.cells.length + 1) g4 n .up)
  else if cellD1.isConnectedLeft then
    match g4.offsetIndex index .left with
    | none => none
    | some n => coreToOp (FlowGrid.connectCoreF (g4.cells.length + 1) g4 n .right)
  else if cellD1.isConnectedRight then
    match g4.offsetIndex index .right with
    | none => none
    | some n => coreToOp (FlowGrid.connectCoreF (g4.cells.length + 1) g4 n .left)
  else if cellD1.isConnectedUp then
    match g4.offsetIndex index .up with
    | none => none
    | some n => coreToOp (FlowGrid.connectCoreF (g4.cells.length + 1) g4 n .down)
  else some (true, g4)

def FlowGrid.tryRemoveSource (g : FlowGrid) (row col : Nat) : Option (Bool × FlowGrid) :=
  match g.getIndex row col with
  | none => some (false, g)
  | some index =>
    match g.cells[index]? with
    | none => none
    | some cell =>
      if !cell.isSource then some (false, g)
      else
        match cell.color with
        | .empty _ => none
        | .colored colorId =>
          let cell1 := cell.setSource false
          let g1 : FlowGrid := { g with cells := g.cells.set index cell1 }
          match g1.sourceIndex[colorId]? with
          | none => none
          | some entry =>
            let eb := if entry.1 = some index then (entry.2, (none : Option Nat)) else entry
            let ec := if eb.2 = some index then (eb.1, (none : Option Nat)) else eb
            let g2 : FlowGrid := { g1 with sourceIndex := g1.sourceIndex.set colorId ec }
            let g3 : FlowGrid :=
              { g2 with nextColorId :=
                  if colorId < g2.nextColorId then colorId else g2.nextColorId }
            let shouldDecolor : Option Bool :=
              if cell1.numConnections = 0 then some true
              else
                match ec.1 with
                | some otherIndex =>
                  (g3.areCellsConnected row col (otherIndex / g3.width)
                    (otherIndex % g3.width)).map (!·)
                | none => some true
            match shouldDecolor with
            | none => none
            | some false => some (true, g3)
            | some true =>
              match g3.cells[index]? with
              | none => none
              | some cellD =>
                let cellD1 := cellD.setColor (CellColor.empty index)
                let g4 : FlowGrid := { g3 with cells := g3.cells.set index cellD1 }
                FlowGrid.decolorFlood g4 index cellD1

/-- The `remove_tail` walking loop, with fuel (each iteration removes two
connection flags, so `4 * cells.length + 4` is ample). -/
def FlowGrid.removeTailLoop : Nat → FlowGrid → Nat → Nat → Nat → Nat → Option (Bool × FlowGrid)
  | 0, _, _, _, _, _ => none
  | fuel + 1, g, baseRow, baseCol, tailRow, tailCol =>
    if tailRow = baseRow ∧ tailCol = baseCol then some (true, g)
    else
      match g.get tailRow tailCol with
      | none => none
      | some tail =>
        let dirOpt : Option Direction :=
          if tail.isConnectedDown then some .down
          else if tail.isConnectedUp then some .up
          else if tail.isConnectedLeft then some .left
          else if tail.isConnectedRight then some .right
          else none
        match dirOpt with
        | none => some (false, g)
        | some direction =>
          match g.tryDisconnect tailRow tailCol direction with
          | none => none
          | some (false, gU) => some (false, gU)
          | some (true, g1) =>
            match g1.getOffsetRowCol tailRow tailCol direction with
            | none => none
            | some (tr, tc) => FlowGrid.removeTailLoop fuel g1 baseRow baseCol tr tc

def FlowGrid.removeTail (g : FlowGrid) (baseRow baseCol tailRow tailCol : Nat) :
    Option (Bool × FlowGrid) :=
  match g.get tailRow tailCol with
  | none => some (false, g)
  | some tail =>
    if tail.numConnections ≠ 1 then some (false, g)
    else
      match g.get baseRow baseCol with
      | none => some (false, g)
      | some base =>
        if base.color ≠ tail.color then some (false, g)
        else FlowGrid.removeTailLoop (4 * g.cells.length + 4) g baseRow baseCol tailRow tailCol

/-- One step of chain-connectivity: cell `i` has a connection flag set toward
a direction whose in-grid neighbor is `j`. -/
def FlowGrid.ConnStep (g : FlowGrid) (i j : Nat) : Prop :=
  ∃ d c, g.cells[i]? = some c ∧ c.isDirectionConnected d = true ∧ g.offsetIndex i d = some j

/-- An unbroken chain of connection flags from cell `i` to cell `j`. -/
def FlowGrid.Chain (g : FlowGrid) : Nat → Nat → Prop :=
  Relation.ReflTransGen g.ConnStep

/-- One public mutation of the grid that returned (it did not panic and the
model fuel did not run out); the mutation may have returned `false`. -/
inductive FlowGrid.Step : FlowGrid → FlowGrid → Prop
  | setNewSource (g : FlowGrid) (row col : Nat) (b : Bool) (g' : FlowGrid) :
      g.trySetNewSource row col = some (b, g') → FlowGrid.Step g g'
  | setMissingSource (g : FlowGrid) (row col colorId : Nat) (b : Bool) (g' : FlowGrid) :
      g.trySetMissingSource row col colorId = some (b, g') → FlowGrid.Step g g'
  | removeSource (g : FlowGrid) (row col : Nat) (b : Bool) (g' : FlowGrid) :
      g.tryRemoveSource row col = some (b, g') → FlowGrid.Step g g'
  | connect (g : FlowGrid) (row col : Nat) (direction : Direction) (b : Bool) (g' : FlowGrid) :
      g.tryConnect row col direction = some (b, g') → FlowGrid.Step g g'
  | disconnect (g : FlowGrid) (row col : Nat) (direction : Direction) (b : Bool) (g' : FlowGrid) :
      g.tryDisconnect row col direction = some (b, g') → FlowGrid.Step g g'
  | removeTail (g : FlowGrid) (baseRow baseCol tailRow tailCol : Nat) (b : Bool) (g' : FlowGrid) :
      g.removeTail baseRow baseCol tailRow tailCol = some (b, g') → FlowGrid.Step g g'

/-- Grid states reachable from a new grid by any sequence of public
operations. -/
inductive FlowGrid.Reachable : FlowGrid → Prop
  | init (width height : Nat) : FlowGrid.Reachable (FlowGrid.withSize width height)
  | step {g g' : FlowGrid} : FlowGrid.Reachable g → FlowGrid.Step g g' → FlowGrid.Reachable g'

/-- The cell vector has exactly width × height entries. -/
def FlowGrid.InvLen (g : FlowGrid) : Prop := g.cells.length = g.width * g.height

/-- Degree invariant I1: every cell has at most 2 connection flags set, and
a source cell has at most 1. -/
def FlowGrid.InvDeg (g : FlowGrid) : Prop :=
  ∀ (i : Nat) (c : FlowCell), g.cells[i]? = some c →
    c.numConnections ≤ 2 ∧ (c.isSource = true → c.numConnections ≤ 1)

/-- Symmetry + local colour-coherence invariant (I2 and the edge-local form
of I3): a set connection flag always points into the grid, the neighbor's
opposite flag is also set, and the two cells carry the same colour. -/
def FlowGrid.InvSym (g : FlowGrid) : Prop :=
  ∀ (i : Nat) (c : FlowCell) (d : Direction), g.cells[i]? = some c →
    c.isDirectionConnected d = true →
    ∃ j c', g.offsetIndex i d = some j ∧ g.cells[j]? = some c' ∧
      c'.isDirectionConnected d.opposite = true ∧ c'.color = c.color

/-- The inductive invariant maintained by every public operation. -/
def FlowGrid.Inv (g : FlowGrid) : Prop := g.InvLen ∧ g.InvDeg ∧ g.InvSym

/-- A colour id with two registered sources in the source index. -/
def FlowGrid.idFull (g : FlowGrid) (id : Nat) : Prop :=
  ∃ a b, g.sourceIndex[id]? = some (some a, some b)

/-- Helper to chain concrete operation results into concrete grids. -/
def stepGrid (o : Option (Bool × FlowGrid)) (dflt : FlowGrid) : FlowGrid :=
  (o.map Prod.snd).getD dflt

/-- Concrete run for the connect/disconnect round-trip analysis: a 3×1 grid
whose first two cells are already connected. -/
def rtG0 : FlowGrid := stepGrid ((FlowGrid.withSize 3 1).tryConnect 0 0 .right) (FlowGrid.withSize 3 1)

def rtG1 : FlowGrid := stepGrid (rtG0.tryConnect 0 1 .right) rtG0

def rtG2 : FlowGrid := stepGrid (rtG1.tryDisconnect 0 1 .right) rtG1

/-- Concrete grid for the `remove_tail` atomicity analysis: a 3×1 grid,
cells 0–1 connected, all three cells coloured 0, cell 2 isolated. -/
def tailGrid : FlowGrid :=
  { nextColorId := 0,
    cells := [
      { color := .colored 0, isSource := false, isConnectedUp := false,
        isConnectedDown := false, isConnectedLeft := false, isConnectedRight := true },
      { color := .colored 0, isSource := false, isConnectedUp := false,
        isConnectedDown := false, isConnectedLeft := true, isConnectedRight := false },
      { color := .colored 0, isSource := false, isConnectedUp := false,
        isConnectedDown := false, isConnectedLeft := false, isConnectedRight := false }],
    width := 3, height := 1, sourceIndex := [] }

/-- Concrete run reaching a source cell whose colour is not `Colored`:
place sources of colour 0 at (0,0) and (0,1), connect them, register a third
source of colour 0 at (0,2) (which silently evicts (0,0) from the source
index), then remove the source at (0,1); the decolor flood overwrites the
evicted source (0,0) with an `Empty` colour while its source flag stays. -/
def evG0 : FlowGrid := FlowGrid.withSize 3 1

def evG1 : FlowGrid := stepGrid (evG0.trySetMissingSource 0 0 0) evG0

def evG2 : FlowGrid := stepGrid (evG1.trySetMissingSource 0 1 0) evG1

def evG3 : FlowGrid := stepGrid (evG2.tryConnect 0 0 .right) evG2

def evG4 : FlowGrid := stepGrid (evG3.trySetMissingSource 0 2 0) evG3

def evG5 : FlowGrid := stepGrid (evG4.tryRemoveSource 0 1) evG4

/-- Concrete run for the colour-cursor analysis: two sources of colour 0
placed through `try_set_missing_source`, which never advances the cursor. -/
def curG0 : FlowGrid := FlowGrid.withSize 2 1

def curG1 : FlowGrid := stepGrid (curG0.trySetMissingSource 0 0 0) curG0

def curG2 : FlowGrid := stepGrid (curG1.trySetMissingSource 0 1 0) curG1

/-- Concrete run used by the colour-cursor witness: two sources placed
through `try_set_new_source` on a 1×2 grid, filling colour 0's pair and
advancing the cursor to 1. -/
def curW0 : FlowGrid := FlowGrid.withSize 1 2

def curW1 : FlowGrid := stepGrid (curW0.trySetNewSource 0 0) curW0

def curW2 : FlowGrid := stepGrid (curW1.trySetNewSource 1 0) curW1

/-- Concrete run used by the propagation witness: a 2×1 grid with a colour-0
source at (0,0), then `try_connect (0,0) right`. -/
def prG0 : FlowGrid := FlowGrid.withSize 2 1

def prG1 : FlowGrid := stepGrid (prG0.trySetNewSource 0 0) prG0

def prG2 : FlowGrid := stepGrid (prG1.tryConnect 0 0 .right) prG1

/-- Specification of a completed `connect_core` walk started at cell `s`
with back direction `bd`, propagating colour `F`: the auxiliary grid fields
are untouched; the start cell gains (at most) the `bd` flag and the colour
`F`; every other cell either is unchanged or keeps its flags and source bit
while its colour is overwritten by `F` (only when it previously disagreed);
and in the resulting grid every directed connection edge is
colour-coherent. -/
structure CoreSpec (g g' : FlowGrid) (s : Nat) (bd : Direction) (F : CellColor) : Prop where
  width_eq : g'.width = g.width
  height_eq : g'.height = g.height
  next_eq : g'.nextColorId = g.nextColorId
  si_eq : g'.sourceIndex = g.sourceIndex
  len_eq : g'.cells.length = g.cells.length
  start : ∀ sc, g.cells[s]? = some sc →
    g'.cells[s]? = some ((sc.addConnection bd).setColor F)
  others : ∀ j : Nat, j ≠ s → g'.cells[j]? = g.cells[j]? ∨
    ∃ c, g.cells[j]? = some c ∧ c.color ≠ F ∧ g'.cells[j]? = some (c.setColor F)
  coh : ∀ (j : Nat) (c : FlowCell) (d : Direction) (k : Nat) (kc : FlowCell),
    g'.cells[j]? = some c → c.isDirectionConnected d = true →
    g'.offsetIndex j d = some k → g'.cells[k]? = some kc → kc.color = c.color

/-- Whether an endpoint cell's colour is provably restored by the
connect-then-disconnect round trip: it is a source carrying an explicit
colour, or a connection-free non-source cell carrying its own fresh
`Empty` disambiguator. -/
def FlowCell.restorable (c : FlowCell) (index : Nat) : Prop :=
  (c.isSource = true ∧ ∃ n, c.color = CellColor.colored n) ∨
  (c.isSource = false ∧ c.numConnections = 0 ∧ c.color = CellColor.empty index)

theorem FlowCell.addConnection_color (c : FlowCell) (d : Direction) :
    (c.addConnection d).color = c.color := by
  cases d <;> rfl

theorem FlowCell.addConnection_isSource (c : FlowCell) (d : Direction) :
    (c.addConnection d).isSource = c.isSource := by
  cases d <;> rfl

/-- Setting a connection flag that is already set leaves the cell unchanged. -/
theorem FlowCell.addConnection_of_connected {c : FlowCell} {d : Direction}
    (h : c.isDirectionConnected d = true) : c.addConnection d = c := by
  cases c; cases d <;>
    simp_all [FlowCell.isDirectionConnected, FlowCell.addConnection]

theorem FlowGrid.offsetIndex_lt {g : FlowGrid} {i j : Nat} {d : Direction}
    (h : g.offsetIndex i d = some j) : i < g.cells.length ∧ j < g.cells.length := by
  unfold FlowGrid.offsetIndex at h
  split at h
  · exact absurd h (by simp)
  rename_i hin
  cases d <;> simp only at h <;> split at h <;> rename_i hcond <;>
    first
      | exact Option.noConfusion h
      | (injection h with h2; omega)

theorem FlowGrid.offsetIndex_up_def (g : FlowGrid) (i : Nat) :
    g.offsetIndex i .up =
      if i ≥ g.cells.length then none
      else if i ≥ g.width then some (i - g.width) else none := rfl

theorem FlowGrid.offsetIndex_down_def (g : FlowGrid) (i : Nat) :
    g.offsetIndex i .down =
      if i ≥ g.cells.length then none
      else if i + g.width < g.cells.length then some (i + g.width) else none := rfl

theorem FlowGrid.offsetIndex_left_def (g : FlowGrid) (i : Nat) :
    g.offsetIndex i .left =
      if i ≥ g.cells.length then none
      else if i % g.width > 0 then some (i - 1) else none := rfl

theorem FlowGrid.offsetIndex_right_def (g : FlowGrid) (i : Nat) :
    g.offsetIndex i .right =
      if i ≥ g.cells.length then none
      else if i + 1 < g.cells.length ∧ (i + 1) % g.width ≠ 0 then some (i + 1) else none := rfl

/-- The neighbor relation is symmetric: if `j` is `i`'s neighbor toward `d`,
then `i` is `j`'s neighbor toward `d.opposite`. -/
theorem FlowGrid.offsetIndex_symm {g : FlowGrid} {i j : Nat} {d : Direction}
    (h : g.offsetIndex i d = some j) : g.offsetIndex j d.opposite = some i := by
  cases d
  case up =>
    rw [FlowGrid.offsetIndex_up_def] at h
    rw [show Direction.up.opposite = Direction.down from rfl, FlowGrid.offsetIndex_down_def]
    split at h
    · exact Option.noConfusion h
    split at h
    · injection h with h2
      rename_i hin hcond
      subst h2
      rw [if_neg (show ¬(i - g.width ≥ g.cells.length) by omega),
        if_pos (show i - g.width + g.width < g.cells.length by omega),
        Nat.sub_add_cancel hcond]
    · exact Option.noConfusion h
  case down =>
    rw [FlowGrid.offsetIndex_down_def] at h
    rw [show Direction.down.opposite = Direction.up from rfl, FlowGrid.offsetIndex_up_def]
    split at h
    · exact Option.noConfusion h
    split at h
    · injection h with h2
      rename_i hin hcond
      subst h2
      rw [if_neg (show ¬(i + g.width ≥ g.cells.length) by omega),
        if_pos (show i + g.width ≥ g.width by omega), Nat.add_sub_cancel]
    · exact Option.noConfusion h
  case left =>
    rw [FlowGrid.offsetIndex_left_def] at h
    rw [show Direction.left.opposite = Direction.right from rfl, FlowGrid.offsetIndex_right_def]
    split at h
    · exact Option.noConfusion h
    split at h
    · injection h with h2
      rename_i hin hcond
      subst h2
      have hi1 : 0 < i := by
        rcases Nat.eq_zero_or_pos i with h0 | h0
        · subst h0; simp at hcond
        · exact h0
      have hsub : i - 1 + 1 = i := Nat.succ_pred_eq_of_pos hi1
      rw [if_neg (show ¬(i - 1 ≥ g.cells.length) by omega),
        if_pos (show i - 1 + 1 < g.cells.length ∧ (i - 1 + 1) % g.width ≠ 0 by
          constructor
          · omega
          · rw [hsub]; omega), hsub]
    · exact Option.noConfusion h
  case right =>
    rw [FlowGrid.offsetIndex_right_def] at h
    rw [show Direction.right.opposite = Direction.left from rfl, FlowGrid.offsetIndex_left_def]
    split at h
    · exact Option.noConfusion h
    split at h
    · injection h with h2
      rename_i hin hcond
      subst h2
      rw [if_neg (show ¬(i + 1 ≥ g.cells.length) by omega),
        if_pos (show (i + 1) % g.width > 0 from Nat.pos_of_ne_zero hcond.2),
        Nat.add_sub_cancel]
    · exact Option.noConfusion h

theorem FlowGrid.dirStep_continue {g : FlowGrid} {i : Nat} {c : FlowCell} {F : CellColor}
    {d : Direction} {q : Nat} {nd : Direction} (h : g.dirStep i c F d = some (some (q, nd))) :
    c.isDirectionConnected d = true ∧ g.offsetIndex i d = some q ∧ nd = d.opposite ∧
      ∃ qc, g.cells[q]? = some qc ∧ F ≠ qc.color := by
  unfold FlowGrid.dirStep at h
  split at h
  case isFalse => exact Option.noConfusion (Option.some.inj h)
  case isTrue hconn =>
    split at h
    case h_1 => exact Option.noConfusion h
    case h_2 q0 hoff =>
      split at h
      case h_1 => exact Option.noConfusion h
      case h_2 qc hq =>
        split at h
        · rename_i hne
          simp only [Option.some.injEq, Prod.mk.injEq] at h
          obtain ⟨hq0, hnd⟩ := h
          subst hq0
          subst hnd
          exact ⟨hconn, hoff, rfl, qc, hq, hne⟩
        · exact Option.noConfusion (Option.some.inj h)

theorem FlowGrid.dirStep_stop {g : FlowGrid} {i : Nat} {c : FlowCell} {F : CellColor}
    {d : Direction} (h : g.dirStep i c F d = some none)
    (hconn : c.isDirectionConnected d = true) :
    ∃ q qc, g.offsetIndex i d = some q ∧ g.cells[q]? = some qc ∧ qc.color = F := by
  unfold FlowGrid.dirStep at h
  rw [if_pos hconn] at h
  split at h
  case h_1 => exact Option.noConfusion h
  case h_2 q hoff =>
    split at h
    case h_1 => exact Option.noConfusion h
    case h_2 qc hq =>
      split at h
      · exact Option.noConfusion (Option.some.inj h)
      · rename_i hne
        push_neg at hne
        exact ⟨q, qc, hoff, hq, hne.symm⟩

/-- If `next_params` found a continuation, it came from one of the four
`dirStep` arms. -/
theorem FlowGrid.nextStep_continue {g : FlowGrid} {i : Nat} {c : FlowCell} {F : CellColor}
    {q : Nat} {nd : Direction} (h : g.nextStep i c F = some (some (q, nd))) :
    ∃ d, c.isDirectionConnected d = true ∧ g.offsetIndex i d = some q ∧ nd = d.opposite ∧
      ∃ qc, g.cells[q]? = some qc ∧ F ≠ qc.color := by
  unfold FlowGrid.nextStep at h
  split at h
  case h_1 => exact Option.noConfusion h
  case h_2 r1 h1 =>
    simp only [Option.some.injEq] at h
    subst h
    exact ⟨.up, FlowGrid.dirStep_continue h1⟩
  case h_3 h1 =>
    split at h
    case h_1 => exact Option.noConfusion h
    case h_2 r2 h2 =>
      simp only [Option.some.injEq] at h
      subst h
      exact ⟨.down, FlowGrid.dirStep_continue h2⟩
    case h_3 h2 =>
      split at h
      case h_1 => exact Option.noConfusion h
      case h_2 r3 h3 =>
        simp only [Option.some.injEq] at h
        subst h
        exact ⟨.left, FlowGrid.dirStep_continue h3⟩
      case h_3 h3 => exact ⟨.right, FlowGrid.dirStep_continue h⟩

/-- If `next_params` found no continuation, every connected neighbor of the
cell already carries the propagated colour. -/
theorem FlowGrid.nextStep_stop {g : FlowGrid} {i : Nat} {c : FlowCell} {F : CellColor}
    (h : g.nextStep i c F = some none) :
    ∀ d : Direction, c.isDirectionConnected d = true →
      ∃ q qc, g.offsetIndex i d = some q ∧ g.cells[q]? = some qc ∧ qc.color = F := by
  unfold FlowGrid.nextStep at h
  split at h
  case h_1 => exact Option.noConfusion h
  case h_2 r1 h1 => simp at h
  case h_3 h1 =>
    split at h
    case h_1 => exact Option.noConfusion h
    case h_2 r2 h2 => simp at h
    case h_3 h2 =>
      split at h
      case h_1 => exact Option.noConfusion h
      case h_2 r3 h3 => simp at h
      case h_3 h3 =>
        intro d hconn
        cases d with
        | up => exact FlowGrid.dirStep_stop h1 hconn
        | down => exact FlowGrid.dirStep_stop h2 hconn
        | left => exact FlowGrid.dirStep_stop h3 hconn
        | right => exact FlowGrid.dirStep_stop h hconn

theorem countP_set_lt {p : FlowCell → Bool} {l : List FlowCell} {i : Nat} {c0 c : FlowCell}
    (hget : l[i]? = some c0) (hc0 : p c0 = true) (hc : p c = false) :
    (l.set i c).countP p < l.countP p := by
  induction l generalizing i with
  | nil => exact Option.noConfusion hget
  | cons hd tl ih =>
    cases i with
    | zero =>
      simp only [List.getElem?_cons_zero, Option.some.injEq] at hget
      subst hget
      simp [List.set, List.countP_cons, hc0, hc]
    | succ n =>
      simp only [List.getElem?_cons_succ] at hget
      have := ih hget
      simp only [List.set, List.countP_cons]
      omega

theorem getElem?_some_lt {α : Type} {l : List α} {i : Nat} {a : α} (h : l[i]? = some a) :
    i < l.length := by
  by_contra hn
  rw [List.getElem?_eq_none_iff.mpr (Nat.le_of_not_lt hn)] at h
  exact Option.noConfusion h

theorem connectCoreF_no_fuelOut_aux :
    ∀ (fuel : Nat) (g : FlowGrid) (index : Nat) (direction : Direction) (p : Nat) (pc : FlowCell),
      g.offsetIndex index direction = some p → g.cells[p]? = some pc →
      g.cells.countP (fun c => !(c.color == pc.color)) < fuel →
      FlowGrid.connectCoreF fuel g index direction ≠ CoreOut.fuelOut := by
  intro fuel
  induction fuel with
  | zero => intro g i d p pc _ _ hcount; omega
  | succ fuel ih =>
    intro g i d p pc hoff hp hcount
    unfold FlowGrid.connectCoreF
    simp only [hoff]
    cases hc : g.cells[i]? with
    | none => simp [hp]
    | some c =>
      simp only [hp, hc]
      split
      · simp
      · rename_i hne
        split
        · simp
        · simp
        · rename_i ni nd hns
          have hcont := FlowGrid.nextStep_continue hns
          obtain ⟨X, hX, hoff2, hnd, qc, hqc, hqne⟩ := hcont
          have hsymm := FlowGrid.offsetIndex_symm hoff2
          rw [← hnd] at hsymm
          have hilt : i < g.cells.length := getElem?_some_lt hc
          have hg2i : (g.cells.set i { c.addConnection d with color := pc.color })[i]? =
              some { c.addConnection d with color := pc.color } := by
            exact List.getElem?_set_self hilt
          have hdec : (g.cells.set i { c.addConnection d with color := pc.color }).countP
              (fun x => !(x.color == pc.color)) < g.cells.countP (fun x => !(x.color == pc.color)) := by
            apply countP_set_lt hc
            · simp only [Bool.not_eq_true']
              rw [FlowCell.addConnection_color] at hne
              simp [Ne.symm hne]
            · simp
          refine ih _ ni nd i { c.addConnection d with color := pc.color } hsymm hg2i ?_
          show (g.cells.set i { c.addConnection d with color := pc.color }).countP
              (fun x => !(x.color == pc.color)) < fuel
          omega

/-- C9: the `connect_core` flood walk terminates on every finite grid and
every starting index and direction: with fuel exceeding the number of grid
cells the loop can never exhaust its fuel, because each iteration either
stops (the cell already carries the propagated colour, no disagreeing
connected neighbor remains, or a neighbor lookup fails) or overwrites one
more cell with the propagated colour. -/
theorem connect_core_terminates (g : FlowGrid) (index : Nat) (direction : Direction)
    (fuel : Nat) (hfuel : g.cells.length < fuel) :
    FlowGrid.connectCoreF fuel g index direction ≠ CoreOut.fuelOut := by
  cases fuel with
  | zero => omega
  | succ fuel =>
    cases hoff : g.offsetIndex index direction with
    | none =>
      unfold FlowGrid.connectCoreF
      simp [hoff]
    | some p =>
      cases hp : g.cells[p]? with
      | none =>
        unfold FlowGrid.connectCoreF
        simp [hoff, hp]
      | some pc =>
        apply connectCoreF_no_fuelOut_aux _ g index direction p pc hoff hp
        calc g.cells.countP (fun c => !(c.color == pc.color)) ≤ g.cells.length :=
              List.countP_le_length _
          _ < fuel + 1 := hfuel

/-- Witness for `connect_core_terminates` at a concrete grid and fuel. -/
theorem connect_core_terminates_witness :
    (FlowGrid.withSize 2 1).cells.length < 3 ∧
      FlowGrid.connectCoreF 3 (FlowGrid.withSize 2 1) 0 .right ≠ CoreOut.fuelOut :=
  ⟨by decide, connect_core_terminates (FlowGrid.withSize 2 1) 0 .right 3 (by decide)⟩

/-- C10: `are_cells_connected` reports a cell as connected to itself whenever
the two coordinate pairs are equal, including out-of-bounds coordinates,
because the equality check precedes the bounds check. -/
theorem same_cell_connected (g : FlowGrid) (row col : Nat) :
    g.areCellsConnected row col row col = some true := by
  unfold FlowGrid.areCellsConnected
  simp

theorem rtG0_reachable : FlowGrid.Reachable rtG0 :=
  FlowGrid.Reachable.step (FlowGrid.Reachable.init 3 1)
    (FlowGrid.Step.connect (FlowGrid.withSize 3 1) 0 0 .right true rtG0 (by decide))

/-- C5 counterexample: on the reachable 3×1 grid `rtG0` (cells 0 and 1
connected and sharing colour `Empty 1`), `try_connect (0,1) right` succeeds
and then `try_disconnect (0,1) right` succeeds, but cell (0,1) ends with
colour `Empty 2` instead of its pre-connect `Empty 1`: the round trip does
not restore the endpoint's colour, because the endpoint keeps one other
connection, so `try_disconnect` does not reset its flooded colour. -/
theorem connect_disconnect_roundtrip_cex :
    FlowGrid.Reachable rtG0 ∧
      rtG0.tryConnect 0 1 .right = some (true, rtG1) ∧
      rtG1.tryDisconnect 0 1 .right = some (true, rtG2) ∧
      rtG2.cells[1]? ≠ rtG0.cells[1]? :=
  ⟨rtG0_reachable, by decide, by decide, by decide⟩

/-- C6 counterexample: on `tailGrid` (a 3×1 grid with cells 0–1 connected and
all three cells coloured 0), `remove_tail (base=(0,2), tail=(0,0))` returns
`false` — the walk disconnects the 0–1 edge and then reaches cell 1, which
has no outgoing connection before reaching the base — yet the returned grid
differs from the initial one: the failed call has mutated the grid. -/
theorem remove_tail_nonatomic_cex :
    (tailGrid.removeTail 0 2 0 0).map Prod.fst = some false ∧
      (tailGrid.removeTail 0 2 0 0).map Prod.snd ≠ some tailGrid := by
  decide

theorem curG2_reachable : FlowGrid.Reachable curG2 :=
  FlowGrid.Reachable.step
    (FlowGrid.Reachable.step (FlowGrid.Reachable.init 2 1)
      (FlowGrid.Step.setMissingSource curG0 0 0 0 true curG1 (by decide)))
    (FlowGrid.Step.setMissingSource curG1 0 1 0 true curG2 (by decide))

/-- C8 counterexample: after two `try_set_missing_source` calls with colour 0
on a fresh 2×1 grid — a reachable state — `next_color_id` is still 0 even
though colour 0 already has two registered sources, so `next_color_id` is
not the smallest colour id with fewer than 2 registered sources (that would
be 1): `try_set_missing_source` never advances the cursor. -/
theorem color_cursor_cex :
    FlowGrid.Reachable curG2 ∧ curG2.nextColorId = 0 ∧ curG2.idFull curG2.nextColorId :=
  ⟨curG2_reachable, by decide, ⟨0, 1, by decide⟩⟩

theorem evG5_reachable : FlowGrid.Reachable evG5 :=
  FlowGrid.Reachable.step
    (FlowGrid.Reachable.step
      (FlowGrid.Reachable.step
        (FlowGrid.Reachable.step
          (FlowGrid.Reachable.step (FlowGrid.Reachable.init 3 1)
            (FlowGrid.Step.setMissingSource evG0 0 0 0 true evG1 (by decide)))
          (FlowGrid.Step.setMissingSource evG1 0 1 0 true evG2 (by decide)))
        (FlowGrid.Step.connect evG2 0 0 .right true evG3 (by decide)))
      (FlowGrid.Step.setMissingSource evG3 0 2 0 true evG4 (by decide)))
    (FlowGrid.Step.removeSource evG4 0 1 true evG5 (by decide))

/-- C7: the panic branch of `try_remove_source` is reachable from a new grid
by public operations.  In the reachable state `evG5`, cell (0,0) has
`is_source = true` but colour `Empty 1` (the third-source registry eviction
left it flagged as a source while the decolor flood of a later
`try_remove_source` overwrote its colour), and calling
`try_remove_source (0,0)` there hits `panic!("sources should always have an
explicit color")` — modelled as `none`. -/
theorem source_uncolored_panic_reachable :
    FlowGrid.Reachable evG5 ∧
      (evG5.cells[0]?.map fun c => (c.isSource, c.color)) = some (true, CellColor.empty 1) ∧
      evG5.tryRemoveSource 0 0 = none :=
  ⟨evG5_reachable, by decide, by decide⟩

theorem coreToOp_some {co : CoreOut} {b : Bool} {g' : FlowGrid}
    (h : coreToOp co = some (b, g')) : b = true ∧ co = CoreOut.ok g' := by
  cases co with
  | ok g2 =>
    simp only [coreToOp, Option.some.injEq, Prod.mk.injEq] at h
    exact ⟨h.1.symm, by rw [h.2]⟩
  | panicked => exact Option.noConfusion h
  | fuelOut => exact Option.noConfusion h

/-- A failed `try_disconnect` leaves the grid unchanged. -/
theorem tryDisconnect_false {g g' : FlowGrid} {row col : Nat} {d : Direction}
    (h : g.tryDisconnect row col d = some (false, g')) : g' = g := by
  unfold FlowGrid.tryDisconnect at h
  split at h
  case h_2 =>
    simp only [Option.some.injEq, Prod.mk.injEq] at h
    exact h.2.symm
  case h_1 index otherIndex hidx hoidx =>
    split at h
    case h_2 => exact Option.noConfusion h
    case h_1 cell offsetCell hcell hocell =>
      split at h
      · simp only [Option.some.injEq, Prod.mk.injEq] at h
        exact h.2.symm
      split at h
      · simp only [Option.some.injEq, Prod.mk.injEq] at h
        exact h.2.symm
      simp only [] at h
      iterate 4 (all_goals try split at h)
      all_goals
        first
          | exact Option.noConfusion h
          | simp at h

/-- A failed `try_connect` leaves the grid unchanged. -/
theorem tryConnect_false {g g' : FlowGrid} {row col : Nat} {d : Direction}
    (h : g.tryConnect row col d = some (false, g')) : g' = g := by
  unfold FlowGrid.tryConnect at h
  split at h
  case h_2 =>
    simp only [Option.some.injEq, Prod.mk.injEq] at h
    exact h.2.symm
  case h_1 cell1 cell2 hc1 hc2 =>
    split at h
    · simp only [Option.some.injEq, Prod.mk.injEq] at h
      exact h.2.symm
    split at h
    · simp only [Option.some.injEq, Prod.mk.injEq] at h
      exact h.2.symm
    split at h
    · simp only [Option.some.injEq, Prod.mk.injEq] at h
      exact h.2.symm
    split at h
    case h_2 => exact Option.noConfusion h
    case h_1 i1 i2 hi1 hi2 =>
      simp only [] at h
      iterate 4 (all_goals try split at h)
      all_goals
        first
          | exact Option.noConfusion h
          | simp at h

/-- A failed `try_set_missing_source` leaves the grid unchanged. -/
theorem trySetMissingSource_false {g g' : FlowGrid} {row col colorId : Nat}
    (h : g.trySetMissingSource row col colorId = some (false, g')) : g' = g := by
  unfold FlowGrid.trySetMissingSource at h
  split at h
  case h_1 =>
    simp only [Option.some.injEq, Prod.mk.injEq] at h
    exact h.2.symm
  case h_2 index hidx =>
    split at h
    case h_1 => exact Option.noConfusion h
    case h_2 cell hcell =>
      split at h
      · simp only [Option.some.injEq, Prod.mk.injEq] at h
        exact h.2.symm
      split at h
      · simp only [Option.some.injEq, Prod.mk.injEq] at h
        exact h.2.symm
      split at h
      · simp only [Option.some.injEq, Prod.mk.injEq] at h
        exact h.2.symm
      simp only [] at h
      unfold FlowGrid.setMissingFlood at h
      iterate 12 (all_goals try split at h)
      all_goals
        first
          | exact Option.noConfusion h
          | exact absurd (coreToOp_some h).1 (by simp)
          | simp at h

/-- A failed `try_set_new_source` leaves the grid unchanged. -/
theorem trySetNewSource_false {g g' : FlowGrid} {row col : Nat}
    (h : g.trySetNewSource row col = some (false, g')) : g' = g := by
  unfold FlowGrid.trySetNewSource at h
  split at h
  · simp at h
  case h_2 g1 hinner =>
    simp only [Option.some.injEq, Prod.mk.injEq] at h
    rw [← h.2]
    exact trySetMissingSource_false hinner
  · exact Option.noConfusion h

set_option maxHeartbeats 1600000 in
/-- A failed `try_remove_source` leaves the grid unchanged. -/
theorem tryRemoveSource_false {g g' : FlowGrid} {row col : Nat}
    (h : g.tryRemoveSource row col = some (false, g')) : g' = g := by
  unfold FlowGrid.tryRemoveSource at h
  split at h
  case h_1 =>
    simp only [Option.some.injEq, Prod.mk.injEq] at h
    exact h.2.symm
  case h_2 index hidx =>
    split at h
    case h_1 => exact Option.noConfusion h
    case h_2 cell hcell =>
      split at h
      · simp only [Option.some.injEq, Prod.mk.injEq] at h
        exact h.2.symm
      split at h
      · exact Option.noConfusion h
      case h_2 colorId hcol =>
        simp only [] at h
        unfold FlowGrid.decolorFlood at h
        iterate 14 (all_goals try split at h)
        all_goals
          first
            | exact Option.noConfusion h
            | exact absurd (coreToOp_some h).1 (by simp)
            | simp at h

theorem FlowCell.addConnection_flag (c : FlowCell) (d d' : Direction) :
    (c.addConnection d).isDirectionConnected d' =
      (decide (d' = d) || c.isDirectionConnected d') := by
  cases d <;> cases d' <;>
    simp [FlowCell.addConnection, FlowCell.isDirectionConnected]

theorem FlowCell.removeConnection_flag (c : FlowCell) (d d' : Direction) :
    (c.removeConnection d).isDirectionConnected d' =
      (!decide (d' = d) && c.isDirectionConnected d') := by
  cases d <;> cases d' <;>
    simp [FlowCell.removeConnection, FlowCell.isDirectionConnected]

theorem FlowCell.removeConnection_color (c : FlowCell) (d : Direction) :
    (c.removeConnection d).color = c.color := by
  cases d <;> rfl

theorem FlowCell.removeConnection_isSource (c : FlowCell) (d : Direction) :
    (c.removeConnection d).isSource = c.isSource := by
  cases d <;> rfl

theorem FlowCell.setColor_flag (c : FlowCell) (F : CellColor) (d : Direction) :
    (c.setColor F).isDirectionConnected d = c.isDirectionConnected d := by
  cases d <;> rfl

theorem FlowCell.setColor_color (c : FlowCell) (F : CellColor) : (c.setColor F).color = F := rfl

theorem FlowCell.setColor_num (c : FlowCell) (F : CellColor) :
    (c.setColor F).numConnections = c.numConnections := rfl

theorem FlowCell.setColor_isSource (c : FlowCell) (F : CellColor) :
    (c.setColor F).isSource = c.isSource := rfl

theorem FlowCell.setColor_self (c : FlowCell) : c.setColor c.color = c := rfl

theorem FlowCell.setSource_color (c : FlowCell) (b : Bool) : (c.setSource b).color = c.color := rfl

theorem FlowCell.setSource_flag (c : FlowCell) (b : Bool) (d : Direction) :
    (c.setSource b).isDirectionConnected d = c.isDirectionConnected d := by
  cases d <;> rfl

theorem FlowCell.setSource_num (c : FlowCell) (b : Bool) :
    (c.setSource b).numConnections = c.numConnections := rfl

/-- Two distinct set connection flags force at least two connections. -/
theorem FlowCell.two_flags_le_num {c : FlowCell} {d1 d2 : Direction}
    (h1 : c.isDirectionConnected d1 = true) (h2 : c.isDirectionConnected d2 = true)
    (hne : d1 ≠ d2) : 2 ≤ c.numConnections := by
  cases d1 <;> cases d2 <;>
    first
      | exact absurd rfl hne
      | (simp [FlowCell.isDirectionConnected] at h1 h2
         simp [FlowCell.numConnections, h1, h2]
         try omega)

theorem FlowCell.numConnections_remove_of_connected {c : FlowCell} {d : Direction}
    (h : c.isDirectionConnected d = true) :
    c.numConnections = (c.removeConnection d).numConnections + 1 := by
  cases d <;>
    (simp [FlowCell.isDirectionConnected] at h
     simp [FlowCell.numConnections, FlowCell.removeConnection, h]
     try omega)

theorem FlowCell.numConnections_add_of_not_connected {c : FlowCell} {d : Direction}
    (h : c.isDirectionConnected d = false) :
    (c.addConnection d).numConnections = c.numConnections + 1 := by
  cases d <;>
    (simp [FlowCell.isDirectionConnected] at h
     simp [FlowCell.numConnections, FlowCell.addConnection, h]
     try omega)

/-- `offsetIndex` depends only on the cell count and the width. -/
theorem FlowGrid.offsetIndex_congr {g g' : FlowGrid} (hlen : g'.cells.length = g.cells.length)
    (hw : g'.width = g.width) (i : Nat) (d : Direction) :
    g'.offsetIndex i d = g.offsetIndex i d := by
  unfold FlowGrid.offsetIndex
  rw [hlen, hw]

/-- On a grid of positive width a cell is never its own neighbor. -/
theorem FlowGrid.offsetIndex_ne {g : FlowGrid} (hw : 0 < g.width) {i j : Nat} {d : Direction}
    (h : g.offsetIndex i d = some j) : j ≠ i := by
  cases d
  case up =>
    rw [FlowGrid.offsetIndex_up_def] at h
    split at h
    · exact Option.noConfusion h
    split at h
    · injection h with h2; omega
    · exact Option.noConfusion h
  case down =>
    rw [FlowGrid.offsetIndex_down_def] at h
    split at h
    · exact Option.noConfusion h
    split at h
    · injection h with h2; omega
    · exact Option.noConfusion h
  case left =>
    rw [FlowGrid.offsetIndex_left_def] at h
    split at h
    · exact Option.noConfusion h
    split at h
    · rename_i hcond
      have : 0 < i := by
        rcases Nat.eq_zero_or_pos i with h0 | h0
        · subst h0; simp at hcond
        · exact h0
      injection h with h2; omega
    · exact Option.noConfusion h
  case right =>
    rw [FlowGrid.offsetIndex_right_def] at h
    split at h
    · exact Option.noConfusion h
    split at h
    · injection h with h2; omega
    · exact Option.noConfusion h

/-- When the anchor cell already has the start cell's colour, `connect_core`
only sets the start cell's connection flag and stops. -/
theorem connectCore_equal {g : FlowGrid} {i p : Nat} {d : Direction} {c pc : FlowCell}
    (fuel : Nat) (hoff : g.offsetIndex i d = some p) (hp : g.cells[p]? = some pc)
    (hc : g.cells[i]? = some c) (hcol : pc.color = c.color) :
    FlowGrid.connectCoreF (fuel + 1) g i d =
      CoreOut.ok { g with cells := g.cells.set i (c.addConnection d) } := by
  unfold FlowGrid.connectCoreF
  simp only [hoff, hp, hc]
  rw [if_pos (show pc.color = (c.addConnection d).color by
    rw [FlowCell.addConnection_color]; exact hcol)]


/-- Master characterisation of a completed `connect_core` walk: under the
local invariants available at its call sites (symmetric flags on cells that
do not yet carry the propagated colour, colour-coherence of every directed
edge except the two between the start cell `s` and the anchor `p`, degree
at most 2 away from the propagated colour, and at most one connection of
`s` besides the back direction `bd`), the walk satisfies `CoreSpec`. -/
theorem connectCore_master :
    ∀ (fuel : Nat) (g : FlowGrid) (s : Nat) (bd : Direction) (p : Nat) (pc : FlowCell)
      (g' : FlowGrid),
      FlowGrid.connectCoreF fuel g s bd = CoreOut.ok g' →
      g.offsetIndex s bd = some p →
      g.cells[p]? = some pc →
      p ≠ s →
      0 < g.width →
      (∀ (j : Nat) (c : FlowCell) (d : Direction), g.cells[j]? = some c →
        c.color ≠ pc.color → c.isDirectionConnected d = true →
        ∃ (k : Nat) (kc : FlowCell), g.offsetIndex j d = some k ∧ g.cells[k]? = some kc ∧
          kc.isDirectionConnected d.opposite = true) →
      (∀ (j : Nat) (c : FlowCell) (d : Direction) (k : Nat) (kc : FlowCell),
        g.cells[j]? = some c → c.isDirectionConnected d = true →
        g.offsetIndex j d = some k → g.cells[k]? = some kc →
        (j = s ∧ k = p) ∨ (j = p ∧ k = s) ∨ kc.color = c.color) →
      (∀ (j : Nat) (c : FlowCell), g.cells[j]? = some c → c.color ≠ pc.color →
        c.numConnections ≤ 2) →
      (∀ sc : FlowCell, g.cells[s]? = some sc →
        (sc.removeConnection bd).numConnections ≤ 1) →
      CoreSpec g g' s bd pc.color := by
  intro fuel
  induction fuel with
  | zero =>
    intro g s bd p pc g' h
    exact absurd h (by simp [FlowGrid.connectCoreF])
  | succ fuel ih =>
    intro g s bd p pc g' h hoff hp hps hw hsym hcoh hdeg hscap
    have hplen : p < g.cells.length := getElem?_some_lt hp
    unfold FlowGrid.connectCoreF at h
    cases hs : g.cells[s]? with
    | none =>
      simp only [hoff, hp, hs] at h
      exact CoreOut.noConfusion h
    | some sc =>
      have hslen : s < g.cells.length := getElem?_some_lt hs
      simp only [hoff, hp, hs] at h
      split at h
      case isTrue heq =>
        rw [FlowCell.addConnection_color] at heq
        have hproj : ∀ i : Nat, ({ g with cells := g.cells.set s (sc.addConnection bd) } : FlowGrid).cells[i]? = (g.cells.set s (sc.addConnection bd))[i]? := fun _ => rfl
        have hoffeq1 : ∀ (i : Nat) (d : Direction), FlowGrid.offsetIndex { g with cells := g.cells.set s (sc.addConnection bd) } i d = g.offsetIndex i d :=
          FlowGrid.offsetIndex_congr (by simp) rfl
        injection h with hgeq
        subst hgeq
        refine ⟨rfl, rfl, rfl, rfl, by simp, ?_, ?_, ?_⟩
        · intro sc' hsc'
          rw [hs] at hsc'
          injection hsc' with hsc'
          subst hsc'
          rw [hproj, List.getElem?_set_self hslen]
          rw [show pc.color = (sc.addConnection bd).color by
            rw [FlowCell.addConnection_color]; exact heq]
          rw [FlowCell.setColor_self]
        · intro j hj
          left
          exact List.getElem?_set_ne (fun he => hj he.symm)
        · intro j c d k kc hcj hflag hoffk hkc
          rw [hoffeq1] at hoffk
          rw [hproj] at hcj hkc
          by_cases hjs : j = s
          · subst hjs
            rw [List.getElem?_set_self hslen] at hcj
            injection hcj with hcj
            subst hcj
            by_cases hdbd : d = bd
            · subst hdbd
              rw [hoff] at hoffk
              injection hoffk with hk
              subst hk
              rw [List.getElem?_set_ne (Ne.symm hps), hp] at hkc
              injection hkc with hkc
              subst hkc
              rw [FlowCell.addConnection_color]
              exact heq
            · have hkj : k ≠ j := FlowGrid.offsetIndex_ne hw hoffk
              rw [List.getElem?_set_ne (fun he => hkj he.symm)] at hkc
              have hflag' : sc.isDirectionConnected d = true := by
                rw [FlowCell.addConnection_flag] at hflag
                simpa [hdbd] using hflag
              rcases hcoh j sc d k kc hs hflag' hoffk hkc with ⟨_, hkp⟩ | ⟨hjp, _⟩ | hcol
              · subst hkp
                rw [hp] at hkc
                injection hkc with hkc
                subst hkc
                rw [FlowCell.addConnection_color]
                exact heq
              · exact absurd hjp.symm hps
              · rw [hcol, FlowCell.addConnection_color]
          · rw [List.getElem?_set_ne (fun he => hjs he.symm)] at hcj
            by_cases hks : k = s
            · subst hks
              rw [List.getElem?_set_self hslen] at hkc
              injection hkc with hkc
              subst hkc
              rcases hcoh j c d k sc hcj hflag hoffk hs with ⟨hjs', _⟩ | ⟨hjp, _⟩ | hcol
              · exact absurd hjs' hjs
              · subst hjp
                rw [hp] at hcj
                injection hcj with hcj
                subst hcj
                rw [FlowCell.addConnection_color]
                exact heq.symm
              · rw [FlowCell.addConnection_color]
                exact hcol
            · rw [List.getElem?_set_ne (fun he => hks he.symm)] at hkc
              rcases hcoh j c d k kc hcj hflag hoffk hkc with ⟨hjs', _⟩ | ⟨_, hks'⟩ | hcol
              · exact absurd hjs' hjs
              · exact absurd hks' hks
              · exact hcol
      case isFalse hne =>
        rw [FlowCell.addConnection_color] at hne
        have hg2s : (g.cells.set s ((sc.addConnection bd).setColor pc.color))[s]? = some ((sc.addConnection bd).setColor pc.color) :=
          List.getElem?_set_self hslen
        have hproj : ∀ i : Nat, ({ g with cells := g.cells.set s ((sc.addConnection bd).setColor pc.color) } : FlowGrid).cells[i]? = (g.cells.set s ((sc.addConnection bd).setColor pc.color))[i]? := fun _ => rfl
        have hoffeq2 : ∀ (i : Nat) (d : Direction), FlowGrid.offsetIndex { g with cells := g.cells.set s ((sc.addConnection bd).setColor pc.color) } i d = g.offsetIndex i d :=
          FlowGrid.offsetIndex_congr (by simp) rfl
        split at h
        case h_1 => exact CoreOut.noConfusion h
        case h_2 hns =>
          injection h with hgeq
          subst hgeq
          have hstop := FlowGrid.nextStep_stop hns
          refine ⟨rfl, rfl, rfl, rfl, by simp, ?_, ?_, ?_⟩
          · intro sc' hsc'
            rw [hs] at hsc'
            injection hsc' with hsc'
            subst hsc'
            rw [hproj]
            exact hg2s
          · intro j hj
            left
            exact List.getElem?_set_ne (fun he => hj he.symm)
          · intro j c d k kc hcj hflag hoffk hkc
            rw [hoffeq2] at hoffk
            rw [hproj] at hcj hkc
            by_cases hjs : j = s
            · subst hjs
              rw [hg2s] at hcj
              injection hcj with hcj
              subst hcj
              rcases hstop d hflag with ⟨q, qc, hq, hqc, hqcol⟩
              rw [hoffeq2, hoffk] at hq
              injection hq with hq
              subst hq
              rw [hproj, hqc] at hkc
              injection hkc with hkc
              subst hkc
              exact hqcol
            · rw [List.getElem?_set_ne (fun he => hjs he.symm)] at hcj
              by_cases hks : k = s
              · subst hks
                rw [hg2s] at hkc
                injection hkc with hkc
                subst hkc
                by_cases hcF : c.color = pc.color
                · rw [FlowCell.setColor_color, hcF]
                · exfalso
                  rcases hsym j c d hcj hcF hflag with ⟨k', kc', hoffk', hkc', hback⟩
                  rw [hoffk] at hoffk'
                  injection hoffk' with hk'
                  subst hk'
                  rw [hs] at hkc'
                  injection hkc' with hkc'
                  subst hkc'
                  by_cases hob : d.opposite = bd
                  · have hsymj := FlowGrid.offsetIndex_symm hoffk
                    rw [hob, hoff] at hsymj
                    injection hsymj with hjp
                    subst hjp
                    rw [hp] at hcj
                    injection hcj with hcj
                    subst hcj
                    exact hcF rfl
                  · have hc2flag : ((sc.addConnection bd).setColor pc.color).isDirectionConnected d.opposite = true := by
                      rw [FlowCell.setColor_flag, FlowCell.addConnection_flag]
                      simp [hback]
                    rcases hstop d.opposite hc2flag with ⟨q, qc, hq, hqc, hqcol⟩
                    have hsymj := FlowGrid.offsetIndex_symm hoffk
                    rw [hoffeq2, hsymj] at hq
                    injection hq with hq
                    subst hq
                    rw [hproj, List.getElem?_set_ne (fun he => hjs he.symm), hcj] at hqc
                    injection hqc with hqc
                    subst hqc
                    exact hcF hqcol
              · rw [List.getElem?_set_ne (fun he => hks he.symm)] at hkc
                rcases hcoh j c d k kc hcj hflag hoffk hkc with ⟨hjs', _⟩ | ⟨_, hks'⟩ | hcol
                · exact absurd hjs' hjs
                · exact absurd hks' hks
                · exact hcol
        case h_3 ni nd hns =>
          obtain ⟨X, hXflag, hXoff, hndX, qc, hqc, hqne⟩ := FlowGrid.nextStep_continue hns
          rw [hproj] at hqc
          have hXoffg : g.offsetIndex s X = some ni := by
            rw [← hoffeq2]
            exact hXoff
          have hXbd : X ≠ bd := by
            intro hxe
            subst hxe
            rw [hoff] at hXoffg
            injection hXoffg with hnip
            subst hnip
            rw [List.getElem?_set_ne (Ne.symm hps), hp] at hqc
            injection hqc with hqc
            subst hqc
            exact hqne rfl
          have hscX : sc.isDirectionConnected X = true := by
            have hXf := hXflag
            rw [FlowCell.setColor_flag, FlowCell.addConnection_flag] at hXf
            simpa [hXbd] using hXf
          have hnis : ni ≠ s := by
            intro hne2
            subst hne2
            rw [hg2s] at hqc
            injection hqc with hqc
            subst hqc
            exact hqne rfl
          have hqcg : g.cells[ni]? = some qc := by
            rw [List.getElem?_set_ne (fun he => hnis he.symm)] at hqc
            exact hqc
          have hscne : sc.color ≠ pc.color := fun he => hne he.symm
          have hqflag : qc.isDirectionConnected nd = true := by
            rcases hsym s sc X hs hscne hscX with ⟨k, kc, hoffX', hkcX, hbX⟩
            rw [hXoffg] at hoffX'
            injection hoffX' with hk
            subst hk
            rw [hqcg] at hkcX
            injection hkcX with hkcX
            subst hkcX
            rw [hndX]
            exact hbX
          have hsym2 : FlowGrid.offsetIndex { g with cells := g.cells.set s ((sc.addConnection bd).setColor pc.color) } ni nd = some s := by
            rw [hoffeq2, hndX]
            exact FlowGrid.offsetIndex_symm hXoffg
          have hscflags : ∀ d' : Direction, sc.isDirectionConnected d' = true →
              d' = bd ∨ d' = X := by
            intro d' hd'
            by_cases h1 : d' = bd
            · exact Or.inl h1
            by_cases h2 : d' = X
            · exact Or.inr h2
            exfalso
            have hf1 : (sc.removeConnection bd).isDirectionConnected d' = true := by
              rw [FlowCell.removeConnection_flag]
              simp [h1, hd']
            have hf2 : (sc.removeConnection bd).isDirectionConnected X = true := by
              rw [FlowCell.removeConnection_flag]
              simp [hXbd, hscX]
            have hcnt := FlowCell.two_flags_le_num hf1 hf2 h2
            have hcap := hscap sc hs
            omega
          have hsymG2 : ∀ (j : Nat) (c : FlowCell) (d : Direction),
              ({ g with cells := g.cells.set s ((sc.addConnection bd).setColor pc.color) } : FlowGrid).cells[j]? = some c →
              c.color ≠ pc.color → c.isDirectionConnected d = true →
              ∃ (k : Nat) (kc : FlowCell),
                FlowGrid.offsetIndex { g with cells := g.cells.set s ((sc.addConnection bd).setColor pc.color) } j d = some k ∧
                ({ g with cells := g.cells.set s ((sc.addConnection bd).setColor pc.color) } : FlowGrid).cells[k]? = some kc ∧
                kc.isDirectionConnected d.opposite = true := by
            intro j c d hcj hcne hflagj
            rw [hproj] at hcj
            have hjs : j ≠ s := by
              intro he
              subst he
              rw [hg2s] at hcj
              injection hcj with hcj
              subst hcj
              exact hcne rfl
            rw [List.getElem?_set_ne (fun he => hjs he.symm)] at hcj
            rcases hsym j c d hcj hcne hflagj with ⟨k, kc, hoffk, hkc, hback⟩
            by_cases hks : k = s
            · subst hks
              rw [hs] at hkc
              injection hkc with hkc
              subst hkc
              refine ⟨k, (sc.addConnection bd).setColor pc.color, ?_, ?_, ?_⟩
              · rw [hoffeq2]
                exact hoffk
              · rw [hproj]
                exact hg2s
              · rw [FlowCell.setColor_flag, FlowCell.addConnection_flag]
                simp [hback]
            · refine ⟨k, kc, ?_, ?_, hback⟩
              · rw [hoffeq2]
                exact hoffk
              · rw [hproj, List.getElem?_set_ne (fun he => hks he.symm)]
                exact hkc
          have hcohG2 : ∀ (j : Nat) (c : FlowCell) (d : Direction) (k : Nat) (kc : FlowCell),
              ({ g with cells := g.cells.set s ((sc.addConnection bd).setColor pc.color) } : FlowGrid).cells[j]? = some c →
              c.isDirectionConnected d = true →
              FlowGrid.offsetIndex { g with cells := g.cells.set s ((sc.addConnection bd).setColor pc.color) } j d = some k →
              ({ g with cells := g.cells.set s ((sc.addConnection bd).setColor pc.color) } : FlowGrid).cells[k]? = some kc →
              (j = ni ∧ k = s) ∨ (j = s ∧ k = ni) ∨ kc.color = c.color := by
            intro j c d k kc hcj hflagj hoffk hkc
            rw [hoffeq2] at hoffk
            rw [hproj] at hcj hkc
            by_cases hjs : j = s
            · subst hjs
              rw [hg2s] at hcj
              injection hcj with hcj
              subst hcj
              by_cases hdbd : d = bd
              · subst hdbd
                rw [hoff] at hoffk
                injection hoffk with hk
                subst hk
                rw [List.getElem?_set_ne (Ne.symm hps), hp] at hkc
                injection hkc with hkc
                subst hkc
                right; right
                rfl
              · by_cases hdX : d = X
                · subst hdX
                  rw [hXoffg] at hoffk
                  injection hoffk with hk
                  subst hk
                  right; left
                  exact ⟨rfl, rfl⟩
                · exfalso
                  have hscd : sc.isDirectionConnected d = true := by
                    have hfd := hflagj
                    rw [FlowCell.setColor_flag, FlowCell.addConnection_flag] at hfd
                    simpa [hdbd] using hfd
                  rcases hscflags d hscd with h1 | h2
                  · exact hdbd h1
                  · exact hdX h2
            · rw [List.getElem?_set_ne (fun he => hjs he.symm)] at hcj
              by_cases hks : k = s
              · subst hks
                rw [hg2s] at hkc
                injection hkc with hkc
                subst hkc
                by_cases hcF : c.color = pc.color
                · right; right
                  rw [FlowCell.setColor_color, hcF]
                · rcases hsym j c d hcj hcF hflagj with ⟨k', kc', hoffk', hkc', hback⟩
                  rw [hoffk] at hoffk'
                  injection hoffk' with hk'
                  subst hk'
                  rw [hs] at hkc'
                  injection hkc' with hkc'
                  subst hkc'
                  have hsymj := FlowGrid.offsetIndex_symm hoffk
                  rcases hscflags d.opposite hback with hob | hoX
                  · exfalso
                    rw [hob, hoff] at hsymj
                    injection hsymj with hjp
                    subst hjp
                    rw [hp] at hcj
                    injection hcj with hcj
                    subst hcj
                    exact hcF rfl
                  · rw [hoX, hXoffg] at hsymj
                    injection hsymj with hjni
                    left
                    exact ⟨hjni.symm, rfl⟩
              · rw [List.getElem?_set_ne (fun he => hks he.symm)] at hkc
                rcases hcoh j c d k kc hcj hflagj hoffk hkc with ⟨hjs', _⟩ | ⟨hjp, hks'⟩ | hcol
                · exact absurd hjs' hjs
                · exact absurd hks' hks
                · right; right
                  exact hcol
          have hdegG2 : ∀ (j : Nat) (c : FlowCell),
              ({ g with cells := g.cells.set s ((sc.addConnection bd).setColor pc.color) } : FlowGrid).cells[j]? = some c →
              c.color ≠ pc.color → c.numConnections ≤ 2 := by
            intro j c hcj hcne
            rw [hproj] at hcj
            have hjs : j ≠ s := by
              intro he
              subst he
              rw [hg2s] at hcj
              injection hcj with hcj
              subst hcj
              exact hcne rfl
            rw [List.getElem?_set_ne (fun he => hjs he.symm)] at hcj
            exact hdeg j c hcj hcne
          have hscapG2 : ∀ nc : FlowCell,
              ({ g with cells := g.cells.set s ((sc.addConnection bd).setColor pc.color) } : FlowGrid).cells[ni]? = some nc →
              (nc.removeConnection nd).numConnections ≤ 1 := by
            intro nc hnc
            rw [hproj, List.getElem?_set_ne (fun he => hnis he.symm), hqcg] at hnc
            injection hnc with hnc
            subst hnc
            have h2 := hdeg ni qc hqcg (fun he => hqne he.symm)
            have h3 := FlowCell.numConnections_remove_of_connected hqflag
            omega
          have hg2sfull : ({ g with cells := g.cells.set s ((sc.addConnection bd).setColor pc.color) } : FlowGrid).cells[s]? = some ((sc.addConnection bd).setColor pc.color) := hg2s
          have spec2 : CoreSpec { g with cells := g.cells.set s ((sc.addConnection bd).setColor pc.color) } g' ni nd pc.color :=
            ih { g with cells := g.cells.set s ((sc.addConnection bd).setColor pc.color) }
              ni nd s ((sc.addConnection bd).setColor pc.color) g' h hsym2 hg2sfull
              (fun he => hnis he.symm) hw hsymG2 hcohG2 hdegG2 hscapG2
          refine ⟨spec2.width_eq, spec2.height_eq, spec2.next_eq, spec2.si_eq,
            spec2.len_eq.trans (by simp), ?_, ?_, spec2.coh⟩
          · intro sc' hsc'
            rw [hs] at hsc'
            injection hsc' with hsc'
            subst hsc'
            rcases spec2.others s (fun he => hnis he.symm) with hunch | ⟨c, hc, hcne, _⟩
            · rw [hunch, hproj]
              exact hg2s
            · exfalso
              rw [hg2sfull] at hc
              injection hc with hc
              subst hc
              exact hcne rfl
          · intro j hj
            by_cases hjni : j = ni
            · subst hjni
              right
              refine ⟨qc, hqcg, fun he => hqne he.symm, ?_⟩
              have hst := spec2.start qc (by rw [hproj, List.getElem?_set_ne (fun he => hnis he.symm)]; exact hqcg)
              rw [FlowCell.addConnection_of_connected hqflag] at hst
              exact hst
            · rcases spec2.others j hjni with hunch | ⟨c, hc, hcne, hover⟩
              · left
                rw [hunch, hproj]
                exact List.getElem?_set_ne (fun he => hj he.symm)
              · right
                refine ⟨c, ?_, hcne, hover⟩
                rw [hproj, List.getElem?_set_ne (fun he => hj he.symm)] at hc
                exact hc

theorem FlowCell.one_flag_le_num {c : FlowCell} {d : Direction}
    (h : c.isDirectionConnected d = true) : 1 ≤ c.numConnections := by
  cases d <;>
    (simp [FlowCell.isDirectionConnected] at h
     simp [FlowCell.numConnections, h]
     try omega)

theorem FlowCell.num_zero_no_flag {c : FlowCell} (h : c.numConnections = 0) (d : Direction) :
    c.isDirectionConnected d = false := by
  by_contra hc
  have h1 := FlowCell.one_flag_le_num (c := c) (d := d) (by
    cases hf : c.isDirectionConnected d
    · exact absurd hf hc
    · rfl)
  omega

theorem FlowGrid.getIndex_some {g : FlowGrid} {r c i : Nat} (h : g.getIndex r c = some i) :
    r < g.height ∧ c < g.width ∧ i = r * g.width + c := by
  unfold FlowGrid.getIndex at h
  split at h
  · rename_i hrc
    injection h with h2
    exact ⟨hrc.1, hrc.2, h2.symm⟩
  · exact Option.noConfusion h

/-- Under the length invariant, a `getIndex` success is in bounds. -/
theorem FlowGrid.getIndex_lt_len {g : FlowGrid} {r c i : Nat} (hlen : g.InvLen)
    (h : g.getIndex r c = some i) : i < g.cells.length := by
  obtain ⟨hr, hc, hi⟩ := FlowGrid.getIndex_some h
  subst hi
  rw [hlen]
  calc r * g.width + c < r * g.width + g.width := by omega
    _ = (r + 1) * g.width := by ring
    _ ≤ g.height * g.width := Nat.mul_le_mul_right g.width hr
    _ = g.width * g.height := Nat.mul_comm g.height g.width

/-- Under the length invariant, the coordinate-based neighbor lookup agrees
with the index-based one. -/
theorem FlowGrid.getOffsetIndex_eq_offsetIndex {g : FlowGrid} {r c i : Nat}
    (hlen : g.InvLen) (h : g.getIndex r c = some i) (d : Direction) :
    g.getOffsetIndex r c d = g.offsetIndex i d := by
  obtain ⟨hr, hc, hi⟩ := FlowGrid.getIndex_some h
  subst hi
  have hilt : r * g.width + c < g.cells.length := FlowGrid.getIndex_lt_len hlen h
  have hwpos : 0 < g.width := by omega
  cases d
  case up =>
    rw [FlowGrid.offsetIndex_up_def]
    rw [if_neg (by omega)]
    show (if r > 0 then g.getIndex (r - 1) c else none) = _
    by_cases hr0 : r > 0
    · rw [if_pos hr0, if_pos (show r * g.width + c ≥ g.width by
        calc g.width = 1 * g.width := (Nat.one_mul _).symm
          _ ≤ r * g.width := Nat.mul_le_mul_right _ hr0
          _ ≤ r * g.width + c := Nat.le_add_right _ _)]
      unfold FlowGrid.getIndex
      rw [if_pos ⟨by omega, hc⟩]
      congr 1
      have : r * g.width = (r - 1) * g.width + g.width := by
        have : r = (r - 1) + 1 := by omega
        calc r * g.width = ((r - 1) + 1) * g.width := by rw [← this]
          _ = (r - 1) * g.width + g.width := by ring
      omega
    · rw [if_neg hr0, if_neg (by
        have : r = 0 := by omega
        subst this
        simp
        omega)]
  case down =>
    rw [FlowGrid.offsetIndex_down_def]
    rw [if_neg (by omega)]
    show g.getIndex (r + 1) c = _
    unfold FlowGrid.getIndex
    by_cases hr1 : r + 1 < g.height
    · rw [if_pos ⟨hr1, hc⟩, if_pos (by
        rw [hlen]
        calc r * g.width + c + g.width < r * g.width + g.width + g.width := by omega
          _ = (r + 2) * g.width := by ring
          _ ≤ g.height * g.width := Nat.mul_le_mul_right _ (by omega)
          _ = g.width * g.height := Nat.mul_comm _ _)]
      congr 1
      ring
    · rw [if_neg (by intro hcon; exact hr1 hcon.1), if_neg (by
        rw [hlen]
        intro hcon
        have h1 : r * g.width + c + g.width ≥ (r + 1) * g.width := by
          have : (r + 1) * g.width = r * g.width + g.width := by ring
          omega
        have h2 : (r + 1) * g.width ≥ g.height * g.width :=
          Nat.mul_le_mul_right _ (by omega)
        have h3 : g.width * g.height = g.height * g.width := Nat.mul_comm _ _
        omega)]
  case left =>
    rw [FlowGrid.offsetIndex_left_def]
    rw [if_neg (by omega)]
    have hmod : (r * g.width + c) % g.width = c := by
      rw [Nat.mul_comm, Nat.mul_add_mod]
      exact Nat.mod_eq_of_lt hc
    show (if c > 0 then g.getIndex r (c - 1) else none) = _
    by_cases hc0 : c > 0
    · rw [if_pos hc0, if_pos (by rw [hmod]; exact hc0)]
      unfold FlowGrid.getIndex
      rw [if_pos ⟨hr, by omega⟩]
      congr 1
      omega
    · rw [if_neg hc0, if_neg (by rw [hmod]; omega)]
  case right =>
    rw [FlowGrid.offsetIndex_right_def]
    rw [if_neg (by omega)]
    show g.getIndex r (c + 1) = _
    unfold FlowGrid.getIndex
    have hmod : (r * g.width + c + 1) % g.width = (c + 1) % g.width := by
      rw [show r * g.width + c + 1 = c + 1 + r * g.width by ring, Nat.add_mul_mod_self_right]
    by_cases hc1 : c + 1 < g.width
    · rw [if_pos ⟨hr, hc1⟩, if_pos (by
        constructor
        · rw [hlen]
          calc r * g.width + c + 1 < r * g.width + g.width := by omega
            _ = (r + 1) * g.width := by ring
            _ ≤ g.height * g.width := Nat.mul_le_mul_right _ hr
            _ = g.width * g.height := Nat.mul_comm _ _
        · rw [hmod, Nat.mod_eq_of_lt hc1]
          omega)]
      congr 1
    · rw [if_neg (by intro hcon; exact hc1 hcon.2), if_neg (by
        intro hcon
        have hcw : c + 1 = g.width := by omega
        rw [hmod, hcw, Nat.mod_self] at hcon
        exact hcon.2 rfl)]

theorem FlowCell.removeConnection_of_not_connected {c : FlowCell} {d : Direction}
    (h : c.isDirectionConnected d = false) : c.removeConnection d = c := by
  cases c
  cases d <;> simp_all [FlowCell.isDirectionConnected, FlowCell.removeConnection]

theorem FlowCell.numConnections_remove_le (c : FlowCell) (d : Direction) :
    (c.removeConnection d).numConnections ≤ c.numConnections := by
  cases hf : c.isDirectionConnected d
  · rw [FlowCell.removeConnection_of_not_connected hf]
  · have := FlowCell.numConnections_remove_of_connected hf
    omega

theorem FlowCell.decolor_ite_flag (P : Prop) [inst : Decidable P] (x : FlowCell) (F : CellColor)
    (d : Direction) :
    (if P then x.setColor F else x).isDirectionConnected d = x.isDirectionConnected d := by
  split
  · rw [FlowCell.setColor_flag]
  · rfl

theorem FlowCell.decolor_ite_num (P : Prop) [inst : Decidable P] (x : FlowCell) (F : CellColor) :
    (if P then x.setColor F else x).numConnections = x.numConnections := by
  split
  · rw [FlowCell.setColor_num]
  · rfl

theorem FlowCell.decolor_ite_isSource (P : Prop) [inst : Decidable P] (x : FlowCell)
    (F : CellColor) :
    (if P then x.setColor F else x).isSource = x.isSource := by
  split
  · rw [FlowCell.setColor_isSource]
  · rfl

/-- Two different directions out of the same cell never reach the same
neighbor (on a grid of positive width). -/
theorem FlowGrid.offsetIndex_dir_inj {g : FlowGrid} (hw : 0 < g.width) {i j : Nat}
    {d1 d2 : Direction} (h1 : g.offsetIndex i d1 = some j) (h2 : g.offsetIndex i d2 = some j) :
    d1 = d2 := by
  have hmod1 : g.width = 1 → i % g.width = 0 := fun hwe => by rw [hwe, Nat.mod_one]
  have hmod1' : g.width = 1 → (i + 1) % g.width = 0 := fun hwe => by rw [hwe, Nat.mod_one]
  cases d1 <;> cases d2 <;> (try rfl) <;>
    (first
      | (rw [FlowGrid.offsetIndex_up_def] at h1 h2
         exact absurd h2 (by simp))
      | skip) <;>
    (exfalso
     simp only [FlowGrid.offsetIndex_up_def, FlowGrid.offsetIndex_down_def,
       FlowGrid.offsetIndex_left_def, FlowGrid.offsetIndex_right_def] at h1 h2
     split at h1 <;> try exact Option.noConfusion h1
     split at h1 <;> try exact Option.noConfusion h1
     split at h2 <;> try exact Option.noConfusion h2
     split at h2 <;> try exact Option.noConfusion h2
     rename_i ha hb hc hd
     injection h1 with e1
     injection h2 with e2
     first
       | omega
       | (have hw1 : g.width = 1 := by omega
          first
            | exact absurd (hmod1 hw1) (by omega)
            | exact absurd (hmod1' hw1) (by omega)))

/-- Reduce the grid invariant for a cells-only update to conditions on the
new cell list (offsets taken in the original grid). -/
theorem FlowGrid.inv_update_cells {g : FlowGrid} {cs : List FlowCell}
    (hlen : cs.length = g.cells.length) (hLen : g.InvLen)
    (hdeg : ∀ (i : Nat) (c : FlowCell), cs[i]? = some c →
      c.numConnections ≤ 2 ∧ (c.isSource = true → c.numConnections ≤ 1))
    (hsym : ∀ (i : Nat) (c : FlowCell) (d : Direction), cs[i]? = some c →
      c.isDirectionConnected d = true →
      ∃ (j : Nat) (c' : FlowCell), g.offsetIndex i d = some j ∧ cs[j]? = some c' ∧
        c'.isDirectionConnected d.opposite = true ∧ c'.color = c.color) :
    FlowGrid.Inv { g with cells := cs } := by
  refine ⟨?_, ?_, ?_⟩
  · show cs.length = g.width * g.height
    rw [hlen]
    exact hLen
  · exact hdeg
  · intro i c d hc hf
    obtain ⟨j, c', hoff, hc', hf', hcol⟩ := hsym i c d hc hf
    refine ⟨j, c', ?_, hc', hf', hcol⟩
    calc ({ g with cells := cs } : FlowGrid).offsetIndex i d
        = g.offsetIndex i d :=
          @FlowGrid.offsetIndex_congr g { g with cells := cs } (by simp [hlen]) rfl i d
      _ = some j := hoff

/-- `try_disconnect` preserves the grid invariant. -/
theorem tryDisconnect_preserves_inv {g g' : FlowGrid} {row col : Nat} {dir : Direction} {b : Bool}
    (hInv : g.Inv) (h : g.tryDisconnect row col dir = some (b, g')) : g'.Inv := by
  cases b with
  | false =>
    rw [tryDisconnect_false h]
    exact hInv
  | true =>
    obtain ⟨hLen, hDeg, hSym⟩ := hInv
    unfold FlowGrid.tryDisconnect at h
    simp only [FlowCell.decolorIfIsolated] at h
    split at h
    case h_2 => simp at h
    case h_1 index otherIndex hidx hoidx =>
      split at h
      case h_2 => exact Option.noConfusion h
      case h_1 cell offsetCell hcell hocell =>
        split at h
        · simp at h
        rename_i hf1
        split at h
        · simp at h
        rename_i hf2
        simp only [Bool.not_eq_true', Bool.not_eq_false] at hf1 hf2
        try simp only [] at h
        split at h
        case h_2 => exact Option.noConfusion h
        case h_1 oc hoc =>
          simp only [Option.some.injEq, Prod.mk.injEq, true_and] at h
          subst h
          have hwpos : 0 < g.width := by
            obtain ⟨hr, hc, _⟩ := FlowGrid.getIndex_some hidx
            omega
          have hoi : g.offsetIndex index dir = some otherIndex := by
            rw [← FlowGrid.getOffsetIndex_eq_offsetIndex hLen hidx]
            exact hoidx
          have hneio : otherIndex ≠ index := FlowGrid.offsetIndex_ne hwpos hoi
          have hsymoi : g.offsetIndex otherIndex dir.opposite = some index :=
            FlowGrid.offsetIndex_symm hoi
          have hidxlt : index < g.cells.length := getElem?_some_lt hcell
          have hoilt : otherIndex < g.cells.length := getElem?_some_lt hocell
          have hocv : oc = offsetCell := by
            rw [show ({ g with cells := g.cells.set index (if (cell.removeConnection dir).numConnections = 0 ∧ (cell.removeConnection dir).isSource = false then (cell.removeConnection dir).setColor (CellColor.empty index) else cell.removeConnection dir) } : FlowGrid).cells[otherIndex]? = (g.cells.set index (if (cell.removeConnection dir).numConnections = 0 ∧ (cell.removeConnection dir).isSource = false then (cell.removeConnection dir).setColor (CellColor.empty index) else cell.removeConnection dir))[otherIndex]? from rfl,
              List.getElem?_set_ne hneio.symm, hocell] at hoc
            injection hoc with hoc
            exact hoc.symm
          subst hocv
          set cellB : FlowCell := if (cell.removeConnection dir).numConnections = 0 ∧ (cell.removeConnection dir).isSource = false then (cell.removeConnection dir).setColor (CellColor.empty index) else cell.removeConnection dir with hcellBdef
          set ocB : FlowCell := if (oc.removeConnection dir.opposite).numConnections = 0 ∧ (oc.removeConnection dir.opposite).isSource = false then (oc.removeConnection dir.opposite).setColor (CellColor.empty otherIndex) else oc.removeConnection dir.opposite with hocBdef
          have hcellB_flag : ∀ d', cellB.isDirectionConnected d' =
              (!decide (d' = dir) && cell.isDirectionConnected d') := by
            intro d'
            rw [hcellBdef, FlowCell.decolor_ite_flag, FlowCell.removeConnection_flag]
          have hocB_flag : ∀ d', ocB.isDirectionConnected d' =
              (!decide (d' = dir.opposite) && oc.isDirectionConnected d') := by
            intro d'
            rw [hocBdef, FlowCell.decolor_ite_flag, FlowCell.removeConnection_flag]
          have hcellB_num : cellB.numConnections = (cell.removeConnection dir).numConnections := by
            rw [hcellBdef, FlowCell.decolor_ite_num]
          have hocB_num : ocB.numConnections = (oc.removeConnection dir.opposite).numConnections := by
            rw [hocBdef, FlowCell.decolor_ite_num]
          have hcellB_src : cellB.isSource = cell.isSource := by
            rw [hcellBdef, FlowCell.decolor_ite_isSource, FlowCell.removeConnection_isSource]
          have hocB_src : ocB.isSource = oc.isSource := by
            rw [hocBdef, FlowCell.decolor_ite_isSource, FlowCell.removeConnection_isSource]
          have hcellB_color : ∀ d', d' ≠ dir → cell.isDirectionConnected d' = true →
              cellB.color = cell.color := by
            intro d' hd' hf
            rw [hcellBdef, if_neg (by
              intro hcon
              have hfA : (cell.removeConnection dir).isDirectionConnected d' = true := by
                rw [FlowCell.removeConnection_flag]
                simp [hd', hf]
              have := FlowCell.one_flag_le_num hfA
              omega), FlowCell.removeConnection_color]
          have hocB_color : ∀ d', d' ≠ dir.opposite → oc.isDirectionConnected d' = true →
              ocB.color = oc.color := by
            intro d' hd' hf
            rw [hocBdef, if_neg (by
              intro hcon
              have hfA : (oc.removeConnection dir.opposite).isDirectionConnected d' = true := by
                rw [FlowCell.removeConnection_flag]
                simp [hd', hf]
              have := FlowCell.one_flag_le_num hfA
              omega), FlowCell.removeConnection_color]
          have hlookO : ((g.cells.set index cellB).set otherIndex ocB)[otherIndex]? = some ocB :=
            List.getElem?_set_self (by simpa using hoilt)
          have hlookI : ((g.cells.set index cellB).set otherIndex ocB)[index]? = some cellB := by
            rw [List.getElem?_set_ne hneio, List.getElem?_set_self hidxlt]
          have hlookE : ∀ i : Nat, i ≠ index → i ≠ otherIndex →
              ((g.cells.set index cellB).set otherIndex ocB)[i]? = g.cells[i]? := by
            intro i hi ho
            rw [List.getElem?_set_ne (fun he => ho he.symm),
              List.getElem?_set_ne (fun he => hi he.symm)]
          apply FlowGrid.inv_update_cells (by simp) hLen
          · intro i ci hci
            by_cases hio : i = otherIndex
            · rw [hio, hlookO] at hci
              injection hci with hci
              subst hci
              obtain ⟨hd2, hd1⟩ := hDeg otherIndex oc hocell
              constructor
              · rw [hocB_num]
                have := FlowCell.numConnections_remove_le oc dir.opposite
                omega
              · intro hsrc
                rw [hocB_src] at hsrc
                have := hd1 hsrc
                rw [hocB_num]
                have := FlowCell.numConnections_remove_le oc dir.opposite
                omega
            · by_cases hii : i = index
              · rw [hii, hlookI] at hci
                injection hci with hci
                subst hci
                obtain ⟨hd2, hd1⟩ := hDeg index cell hcell
                constructor
                · rw [hcellB_num]
                  have := FlowCell.numConnections_remove_le cell dir
                  omega
                · intro hsrc
                  rw [hcellB_src] at hsrc
                  have := hd1 hsrc
                  rw [hcellB_num]
                  have := FlowCell.numConnections_remove_le cell dir
                  omega
              · rw [hlookE i hii hio] at hci
                exact hDeg i ci hci
          · intro i ci d' hci hflag
            by_cases hio : i = otherIndex
            · subst hio
              rw [hlookO] at hci
              injection hci with hci
              subst hci
              rw [hocB_flag] at hflag
              simp only [Bool.and_eq_true, Bool.not_eq_true', decide_eq_false_iff_not] at hflag
              obtain ⟨hfoc2, hfoc1⟩ := hflag
              obtain ⟨k, kc, hoffk, hkc, hbk, hcolk⟩ := hSym i oc d' hocell hfoc1
              have hki : k ≠ index := by
                intro he
                subst he
                exact hfoc2 (FlowGrid.offsetIndex_dir_inj hwpos hoffk hsymoi)
              have hko : k ≠ i := FlowGrid.offsetIndex_ne hwpos hoffk
              refine ⟨k, kc, hoffk, ?_, hbk, ?_⟩
              · rw [hlookE k hki hko]
                exact hkc
              · rw [hcolk, hocB_color d' hfoc2 hfoc1]
            · by_cases hii : i = index
              · subst hii
                rw [hlookI] at hci
                injection hci with hci
                subst hci
                rw [hcellB_flag] at hflag
                simp only [Bool.and_eq_true, Bool.not_eq_true', decide_eq_false_iff_not] at hflag
                obtain ⟨hfc2, hfc1⟩ := hflag
                obtain ⟨k, kc, hoffk, hkc, hbk, hcolk⟩ := hSym i cell d' hcell hfc1
                have hko : k ≠ otherIndex := by
                  intro he
                  subst he
                  exact hfc2 (FlowGrid.offsetIndex_dir_inj hwpos hoffk hoi)
                have hki : k ≠ i := FlowGrid.offsetIndex_ne hwpos hoffk
                refine ⟨k, kc, hoffk, ?_, hbk, ?_⟩
                · rw [hlookE k hki hko]
                  exact hkc
                · rw [hcolk, hcellB_color d' hfc2 hfc1]
              · rw [hlookE i hii hio] at hci
                obtain ⟨k, kc, hoffk, hkc, hbk, hcolk⟩ := hSym i ci d' hci hflag
                by_cases hki : k = index
                · subst hki
                  rw [hcell] at hkc
                  injection hkc with hkc
                  subst hkc
                  have hdop : d'.opposite ≠ dir := by
                    intro he
                    have hsymk := FlowGrid.offsetIndex_symm hoffk
                    rw [he, hoi] at hsymk
                    injection hsymk with hsymk
                    exact hio hsymk.symm
                  refine ⟨k, cellB, hoffk, hlookI, ?_, ?_⟩
                  · rw [hcellB_flag]
                    simp [hdop, hbk]
                  · rw [hcellB_color d'.opposite hdop hbk]
                    exact hcolk
                · by_cases hko : k = otherIndex
                  · subst hko
                    rw [hocell] at hkc
                    injection hkc with hkc
                    subst hkc
                    have hdop : d'.opposite ≠ dir.opposite := by
                      intro he
                      have hsymk := FlowGrid.offsetIndex_symm hoffk
                      rw [he, hsymoi] at hsymk
                      injection hsymk with hsymk
                      exact hii hsymk.symm
                    refine ⟨k, ocB, hoffk, hlookO, ?_, ?_⟩
                    · rw [hocB_flag]
                      simp [hdop, hbk]
                    · rw [hocB_color d'.opposite hdop hbk]
                      exact hcolk
                  · refine ⟨k, kc, hoffk, ?_, hbk, hcolk⟩
                    rw [hlookE k hki hko]
                    exact hkc

theorem Direction.opposite_opposite (d : Direction) : d.opposite.opposite = d := by
  cases d <;> rfl

/-- A cell reported open for connection has at most one flag, and none if it
is a source. -/
theorem FlowCell.hasOpenConnections_spec {c : FlowCell} (h : c.hasOpenConnections = true) :
    c.numConnections ≤ 1 ∧ (c.isSource = true → c.numConnections = 0) := by
  unfold FlowCell.hasOpenConnections at h
  split at h
  · exact Bool.noConfusion h
  split at h
  · exact Bool.noConfusion h
  rename_i h1 h2
  refine ⟨by omega, ?_⟩
  intro hs
  by_contra hn
  exact h2 ⟨hs, by omega⟩

/-- Invariant preservation for the connect pattern used by `try_connect`:
a flood from one endpoint of the fresh edge followed by the trivial
second flood from the other endpoint. -/
theorem connect_pair_inv {g gA gB : FlowGrid} {s p : Nat} {bd : Direction} {sc pc : FlowCell}
    (hInv : g.Inv)
    (hoi : g.offsetIndex s bd = some p)
    (hsc : g.cells[s]? = some sc) (hpc : g.cells[p]? = some pc)
    (hscf : sc.isDirectionConnected bd = false)
    (hpcf : pc.isDirectionConnected bd.opposite = false)
    (hsco : sc.hasOpenConnections = true) (hpco : pc.hasOpenConnections = true)
    (h1 : FlowGrid.connectCoreF (g.cells.length + 1) g s bd = CoreOut.ok gA)
    (h2 : FlowGrid.connectCoreF (gA.cells.length + 1) gA p bd.opposite = CoreOut.ok gB) :
    gB.Inv := by
  obtain ⟨hLen, hDeg, hSym⟩ := hInv
  have hslt : s < g.cells.length := (FlowGrid.offsetIndex_lt hoi).1
  have hw : 0 < g.width := by
    by_contra hw0
    rw [hLen] at hslt
    have : g.width = 0 := by omega
    rw [this] at hslt
    simp at hslt
  have hps : p ≠ s := FlowGrid.offsetIndex_ne hw hoi
  obtain ⟨hso1, hso2⟩ := FlowCell.hasOpenConnections_spec hsco
  obtain ⟨hpo1, hpo2⟩ := FlowCell.hasOpenConnections_spec hpco
  have spec1 : CoreSpec g gA s bd pc.color := by
    refine connectCore_master (g.cells.length + 1) g s bd p pc gA h1 hoi hpc hps hw ?_ ?_ ?_ ?_
    · intro j c d hc _ hf
      obtain ⟨k, kc, hk, hkc, hbk, _⟩ := hSym j c d hc hf
      exact ⟨k, kc, hk, hkc, hbk⟩
    · intro j c d k kc hc hf hk hkc
      right; right
      obtain ⟨k', kc', hk', hkc', _, hcol'⟩ := hSym j c d hc hf
      rw [hk] at hk'
      injection hk' with hk'
      subst hk'
      rw [hkc] at hkc'
      injection hkc' with hkc'
      subst hkc'
      exact hcol'
    · intro j c hc _
      exact (hDeg j c hc).1
    · intro sc' hsc'
      rw [hsc] at hsc'
      injection hsc' with hsc'
      subst hsc'
      rw [FlowCell.removeConnection_of_not_connected hscf]
      exact hso1
  have hgAs : gA.cells[s]? = some ((sc.addConnection bd).setColor pc.color) :=
    spec1.start sc hsc
  have hgAp : gA.cells[p]? = some pc := by
    rcases spec1.others p hps with heq | ⟨c, hc, hne, _⟩
    · rw [heq]
      exact hpc
    · rw [hpc] at hc
      injection hc with hc
      subst hc
      exact absurd rfl hne
  have hoffA : gA.offsetIndex p bd.opposite = some s := by
    rw [FlowGrid.offsetIndex_congr spec1.len_eq spec1.width_eq]
    exact FlowGrid.offsetIndex_symm hoi
  have h2' := connectCore_equal gA.cells.length hoffA hgAs hgAp rfl
  rw [h2'] at h2
  injection h2 with h2
  subst h2
  have hpltA : p < gA.cells.length := by
    rw [spec1.len_eq]
    exact getElem?_some_lt hpc
  have hcsP : (gA.cells.set p (pc.addConnection bd.opposite))[p]? =
      some (pc.addConnection bd.opposite) := List.getElem?_set_self hpltA
  have hcsE : ∀ i : Nat, i ≠ p → (gA.cells.set p (pc.addConnection bd.opposite))[i]? =
      gA.cells[i]? := fun i hi => List.getElem?_set_ne (Ne.symm hi)
  have hcsColor : ∀ (k : Nat) (ck ak : FlowCell),
      (gA.cells.set p (pc.addConnection bd.opposite))[k]? = some ck →
      gA.cells[k]? = some ak → ck.color = ak.color := by
    intro k ck ak hck hak
    by_cases hkp : k = p
    · subst hkp
      rw [hcsP] at hck
      injection hck with hck
      subst hck
      rw [hgAp] at hak
      injection hak with hak
      subst hak
      rw [FlowCell.addConnection_color]
    · rw [hcsE k hkp, hak] at hck
      injection hck with hck
      subst hck
      rfl
  have hcsFlagGe : ∀ (k : Nat) (ck ak : FlowCell) (d' : Direction),
      (gA.cells.set p (pc.addConnection bd.opposite))[k]? = some ck →
      gA.cells[k]? = some ak → ak.isDirectionConnected d' = true →
      ck.isDirectionConnected d' = true := by
    intro k ck ak d' hck hak hfd
    by_cases hkp : k = p
    · subst hkp
      rw [hcsP] at hck
      injection hck with hck
      subst hck
      rw [hgAp] at hak
      injection hak with hak
      subst hak
      rw [FlowCell.addConnection_flag]
      simp [hfd]
    · rw [hcsE k hkp, hak] at hck
      injection hck with hck
      subst hck
      exact hfd
  have hgAFlagGe : ∀ (k : Nat) (ak gk : FlowCell) (d' : Direction),
      gA.cells[k]? = some ak → g.cells[k]? = some gk →
      gk.isDirectionConnected d' = true → ak.isDirectionConnected d' = true := by
    intro k ak gk d' hak hgk hfd
    by_cases hks : k = s
    · subst hks
      rw [hgAs] at hak
      injection hak with hak
      subst hak
      rw [hsc] at hgk
      injection hgk with hgk
      subst hgk
      rw [FlowCell.setColor_flag, FlowCell.addConnection_flag]
      simp [hfd]
    · rcases spec1.others k hks with heq | ⟨c, hc, _, heq⟩
      · rw [heq, hgk] at hak
        injection hak with hak
        subst hak
        exact hfd
      · rw [hc] at hgk
        injection hgk with hgk
        subst hgk
        rw [heq] at hak
        injection hak with hak
        subst hak
        rw [FlowCell.setColor_flag]
        exact hfd
  have hgoal : FlowGrid.Inv { gA with cells := gA.cells.set p (pc.addConnection bd.opposite) } := by
    apply FlowGrid.inv_update_cells (by simp)
    · show gA.cells.length = gA.width * gA.height
      rw [spec1.len_eq, spec1.width_eq, spec1.height_eq]
      exact hLen
    · intro i ci hci
      by_cases hip : i = p
      · subst hip
        rw [hcsP] at hci
        injection hci with hci
        subst hci
        rw [FlowCell.numConnections_add_of_not_connected hpcf]
        refine ⟨by omega, ?_⟩
        intro hsrc
        rw [FlowCell.addConnection_isSource] at hsrc
        have := hpo2 hsrc
        omega
      · rw [hcsE i hip] at hci
        by_cases his : i = s
        · subst his
          rw [hgAs] at hci
          injection hci with hci
          subst hci
          rw [FlowCell.setColor_num, FlowCell.numConnections_add_of_not_connected hscf]
          refine ⟨by omega, ?_⟩
          intro hsrc
          rw [FlowCell.setColor_isSource, FlowCell.addConnection_isSource] at hsrc
          have := hso2 hsrc
          omega
        · rcases spec1.others i his with heq | ⟨c, hc, _, heq⟩
          · rw [heq] at hci
            exact hDeg i ci hci
          · rw [heq] at hci
            injection hci with hci
            subst hci
            obtain ⟨ha, hb⟩ := hDeg i c hc
            refine ⟨by rw [FlowCell.setColor_num]; exact ha, ?_⟩
            intro hsrc
            rw [FlowCell.setColor_isSource] at hsrc
            rw [FlowCell.setColor_num]
            exact hb hsrc
    · intro i ci d hci hfl
      by_cases hnew1 : i = p ∧ d = bd.opposite
      · obtain ⟨hip, hd⟩ := hnew1
        subst hip
        subst hd
        rw [hcsP] at hci
        injection hci with hci
        subst hci
        refine ⟨s, (sc.addConnection bd).setColor pc.color, hoffA, ?_, ?_, ?_⟩
        · rw [hcsE s (Ne.symm hps)]
          exact hgAs
        · rw [FlowCell.setColor_flag, Direction.opposite_opposite, FlowCell.addConnection_flag]
          simp
        · rw [FlowCell.setColor_color, FlowCell.addConnection_color]
      · by_cases hnew2 : i = s ∧ d = bd
        · obtain ⟨his, hd⟩ := hnew2
          subst his
          subst hd
          rw [hcsE i (Ne.symm hps), hgAs] at hci
          injection hci with hci
          subst hci
          refine ⟨p, pc.addConnection d.opposite, ?_, hcsP, ?_, ?_⟩
          · rw [FlowGrid.offsetIndex_congr spec1.len_eq spec1.width_eq]
            exact hoi
          · rw [FlowCell.addConnection_flag]
            simp
          · rw [FlowCell.addConnection_color, FlowCell.setColor_color]
        · have hilt : i < gA.cells.length := by
            have := getElem?_some_lt hci
            simpa using this
          obtain ⟨ak, hak⟩ : ∃ ak, gA.cells[i]? = some ak :=
            ⟨gA.cells[i], List.getElem?_eq_getElem hilt⟩
          have hakf : ak.isDirectionConnected d = true := by
            by_cases hip : i = p
            · subst hip
              rw [hgAp] at hak
              injection hak with hak
              subst hak
              rw [hcsP] at hci
              injection hci with hci
              subst hci
              by_cases hd : d = bd.opposite
              · exact absurd ⟨rfl, hd⟩ hnew1
              · rw [FlowCell.addConnection_flag] at hfl
                simpa [hd] using hfl
            · rw [hcsE i hip, hak] at hci
              injection hci with hci
              subst hci
              exact hfl
          have hglt : i < g.cells.length := by
            rw [← spec1.len_eq]
            exact hilt
          obtain ⟨gk, hgk⟩ : ∃ gk, g.cells[i]? = some gk :=
            ⟨g.cells[i], List.getElem?_eq_getElem hglt⟩
          have hgkf : gk.isDirectionConnected d = true := by
            by_cases his : i = s
            · subst his
              rw [hgAs] at hak
              injection hak with hak
              subst hak
              rw [hsc] at hgk
              injection hgk with hgk
              subst hgk
              by_cases hd : d = bd
              · exact absurd ⟨rfl, hd⟩ hnew2
              · rw [FlowCell.setColor_flag, FlowCell.addConnection_flag] at hakf
                simpa [hd] using hakf
            · rcases spec1.others i his with heq | ⟨c, hc, _, heq⟩
              · rw [heq, hgk] at hak
                injection hak with hak
                subst hak
                exact hakf
              · rw [hc] at hgk
                injection hgk with hgk
                subst hgk
                rw [heq] at hak
                injection hak with hak
                subst hak
                rw [FlowCell.setColor_flag] at hakf
                exact hakf
          obtain ⟨k, kc, hoffk, hkc, hkflag, _⟩ := hSym i gk d hgk hgkf
          have hoffkA : gA.offsetIndex i d = some k := by
            rw [FlowGrid.offsetIndex_congr spec1.len_eq spec1.width_eq]
            exact hoffk
          have hkltA : k < gA.cells.length := by
            rw [spec1.len_eq]
            exact getElem?_some_lt hkc
          obtain ⟨akk, hakk⟩ : ∃ akk, gA.cells[k]? = some akk :=
            ⟨gA.cells[k], List.getElem?_eq_getElem hkltA⟩
          have hcoh := spec1.coh i ak d k akk hak hakf hoffkA hakk
          obtain ⟨ckk, hckk⟩ :
              ∃ ckk, (gA.cells.set p (pc.addConnection bd.opposite))[k]? = some ckk :=
            ⟨(gA.cells.set p (pc.addConnection bd.opposite)).get ⟨k, by simpa using hkltA⟩,
              List.getElem?_eq_getElem (by simpa using hkltA)⟩
          refine ⟨k, ckk, hoffkA, hckk, ?_, ?_⟩
          · exact hcsFlagGe k ckk akk d.opposite hckk hakk
              (hgAFlagGe k akk kc d.opposite hakk hkc hkflag)
          · rw [hcsColor k ckk akk hckk hakk, hcoh, hcsColor i ci ak hci hak]
  exact hgoal

/-- `try_connect` preserves the grid invariant. -/
theorem tryConnect_preserves_inv {g g' : FlowGrid} {row col : Nat} {dir : Direction} {b : Bool}
    (hInv : g.Inv) (h : g.tryConnect row col dir = some (b, g')) : g'.Inv := by
  cases b with
  | false =>
    rw [tryConnect_false h]
    exact hInv
  | true =>
    have hLen := hInv.1
    unfold FlowGrid.tryConnect at h
    split at h
    case h_2 => simp at h
    case h_1 cell1 cell2 hc1 hc2 =>
      split at h
      · simp at h
      rename_i hopen
      split at h
      · simp at h
      rename_i hflags
      split at h
      · simp at h
      rename_i hcolors
      split at h
      case h_2 => exact Option.noConfusion h
      case h_1 i1 i2 hi1 hi2 =>
        simp only [Bool.or_eq_true, Bool.not_eq_true', not_or, Bool.not_eq_false] at hopen
        simp only [Bool.or_eq_true, not_or, Bool.not_eq_true] at hflags
        have hcell1 : g.cells[i1]? = some cell1 := by
          unfold FlowGrid.get at hc1
          rw [hi1] at hc1
          exact hc1
        have hcell2 : g.cells[i2]? = some cell2 := by
          unfold FlowGrid.offsetGet at hc2
          rw [hi2] at hc2
          exact hc2
        have hoi12 : g.offsetIndex i1 dir = some i2 := by
          rw [← FlowGrid.getOffsetIndex_eq_offsetIndex hLen hi1]
          exact hi2
        simp only [] at h
        rcases hcc : cell1.color with cid | cid
        all_goals rw [hcc] at h
        all_goals simp only [] at h
        · split at h
          case h_2 => exact Option.noConfusion h
          case h_1 gA hfl1 =>
            split at h
            case h_2 => exact Option.noConfusion h
            case h_1 gB hfl2 =>
              simp only [Option.some.injEq, Prod.mk.injEq, true_and] at h
              subst h
              exact connect_pair_inv hInv hoi12 hcell1 hcell2 hflags.1 hflags.2
                hopen.1 hopen.2 hfl1 hfl2
        · split at h
          case h_2 => exact Option.noConfusion h
          case h_1 gA hfl1 =>
            split at h
            case h_2 => exact Option.noConfusion h
            case h_1 gB hfl2 =>
              simp only [Option.some.injEq, Prod.mk.injEq, true_and] at h
              subst h
              exact connect_pair_inv hInv (FlowGrid.offsetIndex_symm hoi12) hcell2 hcell1
                hflags.2 (by rw [Direction.opposite_opposite]; exact hflags.1)
                hopen.2 hopen.1 hfl1
                (by rw [Direction.opposite_opposite]; exact hfl2)

/-- Cells with the same connection flags have the same connection count. -/
theorem FlowCell.num_eq_of_flags {c1 c2 : FlowCell}
    (h : ∀ d, c1.isDirectionConnected d = c2.isDirectionConnected d) :
    c1.numConnections = c2.numConnections := by
  have hu := h .up
  have hd := h .down
  have hl := h .left
  have hr := h .right
  simp only [FlowCell.isDirectionConnected] at hu hd hl hr
  unfold FlowCell.numConnections
  rw [hu, hd, hl, hr]

/-- The grid invariant only depends on the cells, the width and the height. -/
theorem FlowGrid.inv_aux_irrelevant {g g' : FlowGrid} (hInv : g.Inv)
    (hc : g'.cells = g.cells) (hw : g'.width = g.width) (hh : g'.height = g.height) :
    g'.Inv := by
  obtain ⟨hLen, hDeg, hSym⟩ := hInv
  refine ⟨?_, ?_, ?_⟩
  · show g'.cells.length = g'.width * g'.height
    rw [hc, hw, hh]
    exact hLen
  · intro i c hic
    rw [hc] at hic
    exact hDeg i c hic
  · intro i c d hic hf
    rw [hc] at hic
    obtain ⟨j, c', hoff, hc', hf', hcol⟩ := hSym i c d hic hf
    refine ⟨j, c', ?_, ?_, hf', hcol⟩
    · rw [FlowGrid.offsetIndex_congr (by rw [hc]) hw]
      exact hoff
    · rw [hc]
      exact hc'

/-- Replacing a connection-free cell (keeping its flags clear) preserves the
grid invariant, whatever the new colour and source bit. -/
theorem source_noflood_inv {g g2 : FlowGrid} {index : Nat} {cell cellN : FlowCell}
    (hInv : g.Inv) (hcell : g.cells[index]? = some cell)
    (hflagsN : ∀ d, cellN.isDirectionConnected d = cell.isDirectionConnected d)
    (hnoflags : ∀ d, cell.isDirectionConnected d = false)
    (hg2w : g2.width = g.width) (hg2h : g2.height = g.height)
    (hg2cells : g2.cells = g.cells.set index cellN) : g2.Inv := by
  obtain ⟨hLen, hDeg, hSym⟩ := hInv
  have hidxlt : index < g.cells.length := getElem?_some_lt hcell
  have hg2len : g2.cells.length = g.cells.length := by rw [hg2cells]; simp
  have hg2idx : g2.cells[index]? = some cellN := by
    rw [hg2cells]
    exact List.getElem?_set_self hidxlt
  have hg2other : ∀ j : Nat, j ≠ index → g2.cells[j]? = g.cells[j]? := by
    intro j hj
    rw [hg2cells]
    exact List.getElem?_set_ne (Ne.symm hj)
  have hnumN : cellN.numConnections = cell.numConnections := FlowCell.num_eq_of_flags hflagsN
  have hnum0 : cell.numConnections = 0 := by
    have hu := hnoflags .up
    have hd := hnoflags .down
    have hl := hnoflags .left
    have hr := hnoflags .right
    simp only [FlowCell.isDirectionConnected] at hu hd hl hr
    simp [FlowCell.numConnections, hu, hd, hl, hr]
  refine ⟨?_, ?_, ?_⟩
  · show g2.cells.length = g2.width * g2.height
    rw [hg2len, hg2w, hg2h]
    exact hLen
  · intro i c hic
    by_cases hii : i = index
    · subst hii
      rw [hg2idx] at hic
      injection hic with hic
      subst hic
      exact ⟨by omega, fun _ => by omega⟩
    · rw [hg2other i hii] at hic
      exact hDeg i c hic
  · intro i c d hic hf
    by_cases hii : i = index
    · subst hii
      rw [hg2idx] at hic
      injection hic with hic
      subst hic
      rw [hflagsN d, hnoflags d] at hf
      exact Bool.noConfusion hf
    · rw [hg2other i hii] at hic
      obtain ⟨k, kc, hoff, hkc, hf', hcol⟩ := hSym i c d hic hf
      have hki : k ≠ index := by
        intro he
        subst he
        rw [hcell] at hkc
        injection hkc with hkc
        subst hkc
        rw [hnoflags d.opposite] at hf'
        exact Bool.noConfusion hf'
      refine ⟨k, kc, ?_, ?_, hf', hcol⟩
      · rw [FlowGrid.offsetIndex_congr hg2len hg2w]
        exact hoff
      · rw [hg2other k hki]
        exact hkc

/-- Replacing a degree-one cell (keeping its flags) and flooding from its
unique neighbour, as done by `try_set_missing_source` and the decolor pass
of `try_remove_source`, preserves the grid invariant. -/
theorem source_flood_inv {g g2 gA : FlowGrid} {index n : Nat} {cell cellN : FlowCell}
    {D : Direction}
    (hInv : g.Inv)
    (hcell : g.cells[index]? = some cell)
    (hnum : cell.numConnections ≤ 1)
    (hflagD : cell.isDirectionConnected D = true)
    (hflagsN : ∀ d, cellN.isDirectionConnected d = cell.isDirectionConnected d)
    (hg2w : g2.width = g.width) (hg2h : g2.height = g.height)
    (hg2cells : g2.cells = g.cells.set index cellN)
    (hoffn : g2.offsetIndex index D = some n)
    (hA : FlowGrid.connectCoreF (g2.cells.length + 1) g2 n D.opposite = CoreOut.ok gA) :
    gA.Inv := by
  obtain ⟨hLen, hDeg, hSym⟩ := hInv
  have hidxlt : index < g.cells.length := getElem?_some_lt hcell
  have hw : 0 < g.width := by
    rw [hLen] at hidxlt
    by_contra h0
    have : g.width = 0 := by omega
    rw [this] at hidxlt
    simp at hidxlt
  have hg2len : g2.cells.length = g.cells.length := by rw [hg2cells]; simp
  have hoffg : ∀ (i : Nat) (d : Direction), g2.offsetIndex i d = g.offsetIndex i d :=
    fun i d => FlowGrid.offsetIndex_congr hg2len hg2w i d
  have hoffnG : g.offsetIndex index D = some n := by rw [← hoffg]; exact hoffn
  have hnein : n ≠ index := FlowGrid.offsetIndex_ne hw hoffnG
  have hg2idx : g2.cells[index]? = some cellN := by
    rw [hg2cells]
    exact List.getElem?_set_self hidxlt
  have hg2other : ∀ j : Nat, j ≠ index → g2.cells[j]? = g.cells[j]? := by
    intro j hj
    rw [hg2cells]
    exact List.getElem?_set_ne (Ne.symm hj)
  obtain ⟨k0, nc0, hoffk0, hnc0, hbflag, hcol0⟩ := hSym index cell D hcell hflagD
  rw [hoffnG] at hoffk0
  injection hoffk0 with hk0
  subst hk0
  have hg2n : g2.cells[n]? = some nc0 := by
    rw [hg2other n hnein]
    exact hnc0
  have hoffsymm : g2.offsetIndex n D.opposite = some index := by
    rw [hoffg]
    exact FlowGrid.offsetIndex_symm hoffnG
  have huniq : ∀ d : Direction, cell.isDirectionConnected d = true → d = D := by
    intro d hd
    by_contra hne
    have := FlowCell.two_flags_le_num hd hflagD hne
    omega
  have spec : CoreSpec g2 gA n D.opposite cellN.color := by
    refine connectCore_master (g2.cells.length + 1) g2 n D.opposite index cellN gA hA hoffsymm
      hg2idx (Ne.symm hnein) (by rw [hg2w]; exact hw) ?_ ?_ ?_ ?_
    · intro j c d hc hcne hf
      by_cases hj : j = index
      · subst hj
        rw [hg2idx] at hc
        injection hc with hc
        subst hc
        exact absurd rfl hcne
      · rw [hg2other j hj] at hc
        obtain ⟨k, kc, hk, hkc, hbk, _⟩ := hSym j c d hc hf
        by_cases hki : k = index
        · subst hki
          rw [hcell] at hkc
          injection hkc with hkc
          subst hkc
          refine ⟨k, cellN, by rw [hoffg]; exact hk, hg2idx, ?_⟩
          rw [hflagsN]
          exact hbk
        · refine ⟨k, kc, by rw [hoffg]; exact hk, ?_, hbk⟩
          rw [hg2other k hki]
          exact hkc
    · intro j c d k kc hc hf hk hkc
      by_cases hj : j = index
      · subst hj
        rw [hg2idx] at hc
        injection hc with hc
        subst hc
        have hcf : cell.isDirectionConnected d = true := by
          rw [← hflagsN]
          exact hf
        have hdD : d = D := huniq d hcf
        subst hdD
        rw [hoffn] at hk
        injection hk with hk
        exact Or.inr (Or.inl ⟨rfl, hk.symm⟩)
      · by_cases hki : k = index
        · subst hki
          rw [hg2other j hj] at hc
          have hkG : g.offsetIndex j d = some k := by
            rw [← hoffg]
            exact hk
          obtain ⟨k', c', hk', hkc', hbk', _⟩ := hSym j c d hc hf
          rw [hkG] at hk'
          injection hk' with hk'
          subst hk'
          rw [hcell] at hkc'
          injection hkc' with hkc'
          subst hkc'
          have hdD : d.opposite = D := huniq d.opposite hbk'
          have hsj := FlowGrid.offsetIndex_symm hkG
          rw [hdD, hoffnG] at hsj
          injection hsj with hsj
          exact Or.inl ⟨hsj.symm, rfl⟩
        · rw [hg2other j hj] at hc
          rw [hg2other k hki] at hkc
          obtain ⟨k', c', hk', hkc', _, hcol'⟩ := hSym j c d hc hf
          have hkG : g.offsetIndex j d = some k := by
            rw [← hoffg]
            exact hk
          rw [hkG] at hk'
          injection hk' with hk'
          subst hk'
          rw [hkc] at hkc'
          injection hkc' with hkc'
          subst hkc'
          exact Or.inr (Or.inr hcol')
    · intro j c hc hcne
      by_cases hj : j = index
      · subst hj
        rw [hg2idx] at hc
        injection hc with hc
        subst hc
        exact absurd rfl hcne
      · rw [hg2other j hj] at hc
        exact (hDeg j c hc).1
    · intro sc' hsc'
      rw [hg2n] at hsc'
      injection hsc' with hsc'
      subst hsc'
      have h1 := FlowCell.numConnections_remove_of_connected hbflag
      have h2 := (hDeg n nc0 hnc0).1
      omega
  have hgAidx : gA.cells[index]? = some cellN := by
    rcases spec.others index (Ne.symm hnein) with heq | ⟨c, hc, hne, _⟩
    · rw [heq]
      exact hg2idx
    · rw [hg2idx] at hc
      injection hc with hc
      subst hc
      exact absurd rfl hne
  have hgAn : gA.cells[n]? = some (nc0.setColor cellN.color) := by
    have := spec.start nc0 hg2n
    rwa [FlowCell.addConnection_of_connected hbflag] at this
  have hFlags : ∀ (j : Nat) (cj aj : FlowCell) (d' : Direction), g.cells[j]? = some cj →
      gA.cells[j]? = some aj → aj.isDirectionConnected d' = cj.isDirectionConnected d' := by
    intro j cj aj d' hcj haj
    by_cases hjn : j = n
    · subst hjn
      rw [hgAn] at haj
      injection haj with haj
      subst haj
      rw [hnc0] at hcj
      injection hcj with hcj
      subst hcj
      rw [FlowCell.setColor_flag]
    · by_cases hji : j = index
      · subst hji
        rw [hgAidx] at haj
        injection haj with haj
        subst haj
        rw [hcell] at hcj
        injection hcj with hcj
        subst hcj
        exact hflagsN d'
      · rcases spec.others j hjn with heq | ⟨c, hc, _, heq⟩
        · rw [heq, hg2other j hji, hcj] at haj
          injection haj with haj
          subst haj
          rfl
        · rw [hg2other j hji, hcj] at hc
          injection hc with hc
          subst hc
          rw [heq] at haj
          injection haj with haj
          subst haj
          rw [FlowCell.setColor_flag]
  have hlenA : gA.cells.length = g.cells.length := by rw [spec.len_eq, hg2len]
  have hwA : gA.width = g.width := by rw [spec.width_eq, hg2w]
  refine ⟨?_, ?_, ?_⟩
  · show gA.cells.length = gA.width * gA.height
    rw [hlenA, hwA, spec.height_eq, hg2h]
    exact hLen
  · intro j c hc
    by_cases hji : j = index
    · subst hji
      rw [hgAidx] at hc
      injection hc with hc
      subst hc
      have hnn : cellN.numConnections = cell.numConnections := FlowCell.num_eq_of_flags hflagsN
      exact ⟨by omega, fun _ => by omega⟩
    · by_cases hjn : j = n
      · subst hjn
        rw [hgAn] at hc
        injection hc with hc
        subst hc
        obtain ⟨h2, h1⟩ := hDeg j nc0 hnc0
        refine ⟨by rw [FlowCell.setColor_num]; exact h2, ?_⟩
        intro hs
        rw [FlowCell.setColor_isSource] at hs
        rw [FlowCell.setColor_num]
        exact h1 hs
      · rcases spec.others j hjn with heq | ⟨c2, hc2, _, heq⟩
        · rw [heq, hg2other j hji] at hc
          exact hDeg j c hc
        · rw [hg2other j hji] at hc2
          rw [heq] at hc
          injection hc with hc
          subst hc
          obtain ⟨h2, h1⟩ := hDeg j c2 hc2
          refine ⟨by rw [FlowCell.setColor_num]; exact h2, ?_⟩
          intro hs
          rw [FlowCell.setColor_isSource] at hs
          rw [FlowCell.setColor_num]
          exact h1 hs
  · intro i c d hc hf
    have hilt : i < g.cells.length := by
      have := getElem?_some_lt hc
      rw [hlenA] at this
      exact this
    obtain ⟨gi, hgi⟩ : ∃ gi, g.cells[i]? = some gi := ⟨g.cells[i], List.getElem?_eq_getElem hilt⟩
    have hgif : gi.isDirectionConnected d = true := by
      rw [← hFlags i gi c d hgi hc]
      exact hf
    obtain ⟨k, kc, hoffk, hkc, hbk, _⟩ := hSym i gi d hgi hgif
    have hoffkA : gA.offsetIndex i d = some k := by
      rw [FlowGrid.offsetIndex_congr hlenA hwA]
      exact hoffk
    have hkltA : k < gA.cells.length := by
      rw [hlenA]
      exact getElem?_some_lt hkc
    obtain ⟨ak, hak⟩ : ∃ ak, gA.cells[k]? = some ak := ⟨gA.cells[k], List.getElem?_eq_getElem hkltA⟩
    refine ⟨k, ak, hoffkA, hak, ?_, ?_⟩
    · rw [hFlags k kc ak d.opposite hkc hak]
      exact hbk
    · exact spec.coh i c d k ak hc hf hoffkA hak

/-- Replacing one cell by a cell with the same connection flags and colour
preserves the invariant, provided the new cell still satisfies the source
degree bound. -/
theorem set_cell_same_flags_color_inv {g g2 : FlowGrid} {index : Nat} {cell cellN : FlowCell}
    (hInv : g.Inv) (hcell : g.cells[index]? = some cell)
    (hflags : ∀ d, cellN.isDirectionConnected d = cell.isDirectionConnected d)
    (hcolor : cellN.color = cell.color)
    (hsrc : cellN.isSource = true → cellN.numConnections ≤ 1)
    (hg2w : g2.width = g.width) (hg2h : g2.height = g.height)
    (hg2cells : g2.cells = g.cells.set index cellN) : g2.Inv := by
  obtain ⟨hLen, hDeg, hSym⟩ := hInv
  have hidxlt : index < g.cells.length := getElem?_some_lt hcell
  have hw : 0 < g.width := by
    rw [hLen] at hidxlt
    by_contra h0
    have : g.width = 0 := by omega
    rw [this] at hidxlt
    simp at hidxlt
  have hidxlt2 : index < g.cells.length := getElem?_some_lt hcell
  have hg2len : g2.cells.length = g.cells.length := by rw [hg2cells]; simp
  have hg2idx : g2.cells[index]? = some cellN := by
    rw [hg2cells]
    exact List.getElem?_set_self hidxlt2
  have hg2other : ∀ j : Nat, j ≠ index → g2.cells[j]? = g.cells[j]? := by
    intro j hj
    rw [hg2cells]
    exact List.getElem?_set_ne (Ne.symm hj)
  have hnumN : cellN.numConnections = cell.numConnections := FlowCell.num_eq_of_flags hflags
  refine ⟨?_, ?_, ?_⟩
  · show g2.cells.length = g2.width * g2.height
    rw [hg2len, hg2w, hg2h]
    exact hLen
  · intro i c hic
    by_cases hii : i = index
    · subst hii
      rw [hg2idx] at hic
      injection hic with hic
      subst hic
      have := (hDeg i cell hcell).1
      exact ⟨by omega, hsrc⟩
    · rw [hg2other i hii] at hic
      exact hDeg i c hic
  · intro i c d hic hf
    by_cases hii : i = index
    · subst hii
      rw [hg2idx] at hic
      injection hic with hic
      subst hic
      rw [hflags d] at hf
      obtain ⟨k, kc, hoff, hkc, hf', hcol⟩ := hSym i cell d hcell hf
      have hki : k ≠ i := FlowGrid.offsetIndex_ne hw hoff
      refine ⟨k, kc, ?_, ?_, hf', ?_⟩
      · rw [FlowGrid.offsetIndex_congr hg2len hg2w]
        exact hoff
      · rw [hg2other k hki]
        exact hkc
      · rw [hcol, hcolor]
    · rw [hg2other i hii] at hic
      obtain ⟨k, kc, hoff, hkc, hf', hcol⟩ := hSym i c d hic hf
      by_cases hki : k = index
      · subst hki
        rw [hcell] at hkc
        injection hkc with hkc
        subst hkc
        refine ⟨k, cellN, ?_, hg2idx, ?_, ?_⟩
        · rw [FlowGrid.offsetIndex_congr hg2len hg2w]
          exact hoff
        · rw [hflags]
          exact hf'
        · rw [hcolor]
          exact hcol
      · refine ⟨k, kc, ?_, ?_, hf', hcol⟩
        · rw [FlowGrid.offsetIndex_congr hg2len hg2w]
          exact hoff
        · rw [hg2other k hki]
          exact hkc

/-- `setMissingFlood` preserves the invariant when the replaced cell keeps
its at most one connection flag. -/
theorem setMissingFlood_inv {g g2 g' : FlowGrid} {index : Nat} {cell cellS : FlowCell}
    (hInv : g.Inv) (hcell : g.cells[index]? = some cell)
    (hflagsS : ∀ d, cellS.isDirectionConnected d = cell.isDirectionConnected d)
    (hnum : cell.numConnections ≤ 1)
    (hg2w : g2.width = g.width) (hg2h : g2.height = g.height)
    (hg2cells : g2.cells = g.cells.set index cellS)
    (h : FlowGrid.setMissingFlood g2 index cellS = some (true, g')) : g'.Inv := by
  unfold FlowGrid.setMissingFlood at h
  split at h
  · rename_i hU
    split at h
    case h_1 => exact Option.noConfusion h
    case h_2 n hn =>
      obtain ⟨_, hok⟩ := coreToOp_some h
      have hDf : cell.isDirectionConnected Direction.up = true := by
        rw [← hflagsS]
        exact hU
      exact source_flood_inv hInv hcell hnum hDf hflagsS hg2w hg2h hg2cells hn hok
  rename_i hU
  split at h
  · rename_i hD
    split at h
    case h_1 => exact Option.noConfusion h
    case h_2 n hn =>
      obtain ⟨_, hok⟩ := coreToOp_some h
      have hDf : cell.isDirectionConnected Direction.down = true := by
        rw [← hflagsS]
        exact hD
      exact source_flood_inv hInv hcell hnum hDf hflagsS hg2w hg2h hg2cells hn hok
  rename_i hD
  split at h
  · rename_i hL
    split at h
    case h_1 => exact Option.noConfusion h
    case h_2 n hn =>
      obtain ⟨_, hok⟩ := coreToOp_some h
      have hDf : cell.isDirectionConnected Direction.left = true := by
        rw [← hflagsS]
        exact hL
      exact source_flood_inv hInv hcell hnum hDf hflagsS hg2w hg2h hg2cells hn hok
  rename_i hL
  split at h
  · rename_i hR
    split at h
    case h_1 => exact Option.noConfusion h
    case h_2 n hn =>
      obtain ⟨_, hok⟩ := coreToOp_some h
      have hDf : cell.isDirectionConnected Direction.right = true := by
        rw [← hflagsS]
        exact hR
      exact source_flood_inv hInv hcell hnum hDf hflagsS hg2w hg2h hg2cells hn hok
  rename_i hR
  simp only [Option.some.injEq, Prod.mk.injEq, true_and] at h
  subst h
  simp only [Bool.not_eq_true] at hU hD hL hR
  have hnofC : ∀ d : Direction, cell.isDirectionConnected d = false := by
    intro d
    rw [← hflagsS]
    cases d
    · exact hU
    · exact hD
    · exact hL
    · exact hR
  exact source_noflood_inv hInv hcell hflagsS hnofC hg2w hg2h hg2cells

/-- `decolorFlood` preserves the invariant when the replaced cell keeps
its at most one connection flag. -/
theorem decolorFlood_inv {g g4 g' : FlowGrid} {index : Nat} {cell cellD1 : FlowCell}
    (hInv : g.Inv) (hcell : g.cells[index]? = some cell)
    (hflagsD : ∀ d, cellD1.isDirectionConnected d = cell.isDirectionConnected d)
    (hnum : cell.numConnections ≤ 1)
    (hg4w : g4.width = g.width) (hg4h : g4.height = g.height)
    (hg4cells : g4.cells = g.cells.set index cellD1)
    (h : FlowGrid.decolorFlood g4 index cellD1 = some (true, g')) : g'.Inv := by
  unfold FlowGrid.decolorFlood at h
  split at h
  · rename_i hD
    split at h
    case h_1 => exact Option.noConfusion h
    case h_2 n hn =>
      obtain ⟨_, hok⟩ := coreToOp_some h
      have hDf : cell.isDirectionConnected Direction.down = true := by
        rw [← hflagsD]
        exact hD
      exact source_flood_inv hInv hcell hnum hDf hflagsD hg4w hg4h hg4cells hn hok
  rename_i hD
  split at h
  · rename_i hL
    split at h
    case h_1 => exact Option.noConfusion h
    case h_2 n hn =>
      obtain ⟨_, hok⟩ := coreToOp_some h
      have hDf : cell.isDirectionConnected Direction.left = true := by
        rw [← hflagsD]
        exact hL
      exact source_flood_inv hInv hcell hnum hDf hflagsD hg4w hg4h hg4cells hn hok
  rename_i hL
  split at h
  · rename_i hR
    split at h
    case h_1 => exact Option.noConfusion h
    case h_2 n hn =>
      obtain ⟨_, hok⟩ := coreToOp_some h
      have hDf : cell.isDirectionConnected Direction.right = true := by
        rw [← hflagsD]
        exact hR
      exact source_flood_inv hInv hcell hnum hDf hflagsD hg4w hg4h hg4cells hn hok
  rename_i hR
  split at h
  · rename_i hU
    split at h
    case h_1 => exact Option.noConfusion h
    case h_2 n hn =>
      obtain ⟨_, hok⟩ := coreToOp_some h
      have hDf : cell.isDirectionConnected Direction.up = true := by
        rw [← hflagsD]
        exact hU
      exact source_flood_inv hInv hcell hnum hDf hflagsD hg4w hg4h hg4cells hn hok
  rename_i hU
  simp only [Option.some.injEq, Prod.mk.injEq, true_and] at h
  subst h
  simp only [Bool.not_eq_true] at hD hL hR hU
  have hnofC : ∀ d : Direction, cell.isDirectionConnected d = false := by
    intro d
    rw [← hflagsD]
    cases d
    · exact hU
    · exact hD
    · exact hL
    · exact hR
  exact source_noflood_inv hInv hcell hflagsD hnofC hg4w hg4h hg4cells

/-- `try_set_missing_source` preserves the grid invariant. -/
theorem trySetMissingSource_preserves_inv {g g' : FlowGrid} {row col colorId : Nat} {b : Bool}
    (hInv : g.Inv) (h : g.trySetMissingSource row col colorId = some (b, g')) : g'.Inv := by
  cases b with
  | false =>
    rw [trySetMissingSource_false h]
    exact hInv
  | true =>
    unfold FlowGrid.trySetMissingSource at h
    split at h
    case h_1 => simp at h
    case h_2 index hidx =>
      split at h
      case h_1 => exact Option.noConfusion h
      case h_2 cell hcell =>
        split at h
        · simp at h
        rename_i hsrc
        split at h
        · simp at h
        rename_i hnum
        split at h
        · simp at h
        rename_i hcan
        have hlook : ∀ si2 : List (Option Nat × Option Nat),
            ({ g with sourceIndex := si2 } : FlowGrid).cells[index]? = some cell :=
          fun _ => hcell
        simp only [] at h
        rw [hlook] at h
        simp only [] at h
        refine setMissingFlood_inv hInv hcell ?_ ?_ ?_ ?_ ?_ h
        · intro d
          rw [FlowCell.setColor_flag, FlowCell.setSource_flag]
        · omega
        · rfl
        · rfl
        · rfl

/-- `try_set_new_source` preserves the grid invariant. -/
theorem trySetNewSource_preserves_inv {g g' : FlowGrid} {row col : Nat} {b : Bool}
    (hInv : g.Inv) (h : g.trySetNewSource row col = some (b, g')) : g'.Inv := by
  unfold FlowGrid.trySetNewSource at h
  split at h
  case h_1 g1 hinner =>
    simp only [Option.some.injEq, Prod.mk.injEq] at h
    rw [← h.2]
    exact FlowGrid.inv_aux_irrelevant (trySetMissingSource_preserves_inv hInv hinner) rfl rfl rfl
  case h_2 g1 hinner =>
    simp only [Option.some.injEq, Prod.mk.injEq] at h
    rw [← h.2]
    exact trySetMissingSource_preserves_inv hInv hinner
  case h_3 => exact Option.noConfusion h

/-- `try_remove_source` preserves the grid invariant. -/
theorem tryRemoveSource_preserves_inv {g g' : FlowGrid} {row col : Nat} {b : Bool}
    (hInv : g.Inv) (h : g.tryRemoveSource row col = some (b, g')) : g'.Inv := by
  cases b with
  | false =>
    rw [tryRemoveSource_false h]
    exact hInv
  | true =>
    unfold FlowGrid.tryRemoveSource at h
    split at h
    case h_1 => simp at h
    case h_2 index hidx =>
      split at h
      case h_1 => exact Option.noConfusion h
      case h_2 cell hcell =>
        split at h
        · simp at h
        rename_i hsrc
        split at h
        case h_1 => exact Option.noConfusion h
        case h_2 colorId hcol =>
          have hsrcT : cell.isSource = true := by
            cases hs : cell.isSource
            · rw [hs] at hsrc
              simp at hsrc
            · rfl
          have hnum1 : cell.numConnections ≤ 1 := (hInv.2.1 index cell hcell).2 hsrcT
          simp only [] at h
          split at h
          case h_1 => exact Option.noConfusion h
          case h_2 entry hentry =>
            have hclose : ∀ (q : FlowGrid) (cD : FlowCell),
                (g.cells.set index (cell.setSource false))[index]? = some cD →
                FlowGrid.decolorFlood q index (cD.setColor (CellColor.empty index)) =
                  some (true, g') →
                q.width = g.width → q.height = g.height →
                q.cells = g.cells.set index (cD.setColor (CellColor.empty index)) →
                g'.Inv := by
              intro q cD hD hDF hwq hhq hcq
              rw [List.getElem?_set_self (getElem?_some_lt hcell)] at hD
              injection hD with hD
              subst hD
              exact decolorFlood_inv hInv hcell
                (fun d => by rw [FlowCell.setColor_flag, FlowCell.setSource_flag]) hnum1
                hwq hhq hcq hDF
            try simp only [] at h
            iterate 8
              (all_goals try split at h
               all_goals try simp only [] at h)
            all_goals
              first
                | exact Option.noConfusion h
                | (simp only [Option.some.injEq, Prod.mk.injEq, true_and] at h
                   rw [← h]
                   apply set_cell_same_flags_color_inv hInv hcell
                     (fun d => FlowCell.setSource_flag cell false d)
                     (FlowCell.setSource_color cell false)
                     (fun hs => Bool.noConfusion hs) <;> rfl)
                | (rename_i cD hcD
                   exact hclose _ cD hcD h rfl rfl (by simp))
                | (rename_i cD hcD a1
                   exact hclose _ cD hcD h rfl rfl (by simp))
                | (rename_i cD hcD a1 a2
                   exact hclose _ cD hcD h rfl rfl (by simp))
                | (rename_i cD hcD a1 a2 a3
                   exact hclose _ cD hcD h rfl rfl (by simp))
                | (rename_i cD hcD a1 a2 a3 a4
                   exact hclose _ cD hcD h rfl rfl (by simp))
                | (rename_i cD hcD a1 a2 a3 a4 a5
                   exact hclose _ cD hcD h rfl rfl (by simp))

/-- The `remove_tail` walking loop preserves the grid invariant. -/
theorem removeTailLoop_preserves_inv :
    ∀ (fuel : Nat) (g : FlowGrid) (baseRow baseCol tailRow tailCol : Nat) (b : Bool)
      (g' : FlowGrid), g.Inv →
      FlowGrid.removeTailLoop fuel g baseRow baseCol tailRow tailCol = some (b, g') → g'.Inv := by
  intro fuel
  induction fuel with
  | zero =>
    intro g _ _ _ _ b g' _ h
    exact Option.noConfusion h
  | succ fuel ih =>
    intro g baseRow baseCol tailRow tailCol b g' hInv h
    unfold FlowGrid.removeTailLoop at h
    split at h
    · simp only [Option.some.injEq, Prod.mk.injEq] at h
      rw [← h.2]
      exact hInv
    split at h
    case h_1 => exact Option.noConfusion h
    case h_2 tail htail =>
      simp only [] at h
      split at h
      case h_1 =>
        simp only [Option.some.injEq, Prod.mk.injEq] at h
        rw [← h.2]
        exact hInv
      case h_2 direction hdir =>
        split at h
        case h_1 => exact Option.noConfusion h
        case h_2 gU hdis =>
          simp only [Option.some.injEq, Prod.mk.injEq] at h
          rw [← h.2]
          exact tryDisconnect_preserves_inv hInv hdis
        case h_3 g1 hdis =>
          split at h
          case h_1 => exact Option.noConfusion h
          case h_2 tr tc hoff =>
            exact ih g1 baseRow baseCol tr tc b g' (tryDisconnect_preserves_inv hInv hdis) h

/-- `remove_tail` preserves the grid invariant. -/
theorem removeTail_preserves_inv {g g' : FlowGrid} {baseRow baseCol tailRow tailCol : Nat}
    {b : Bool} (hInv : g.Inv)
    (h : g.removeTail baseRow baseCol tailRow tailCol = some (b, g')) : g'.Inv := by
  unfold FlowGrid.removeTail at h
  split at h
  case h_1 =>
    simp only [Option.some.injEq, Prod.mk.injEq] at h
    rw [← h.2]
    exact hInv
  case h_2 tail htail =>
    split at h
    · simp only [Option.some.injEq, Prod.mk.injEq] at h
      rw [← h.2]
      exact hInv
    split at h
    case h_1 =>
      simp only [Option.some.injEq, Prod.mk.injEq] at h
      rw [← h.2]
      exact hInv
    case h_2 base hbase =>
      split at h
      · simp only [Option.some.injEq, Prod.mk.injEq] at h
        rw [← h.2]
        exact hInv
      exact removeTailLoop_preserves_inv _ g baseRow baseCol tailRow tailCol b g' hInv h

/-- A freshly constructed grid satisfies the invariant: every cell is
connection-free and not a source. -/
theorem withSize_inv (width height : Nat) : (FlowGrid.withSize width height).Inv := by
  refine ⟨?_, ?_, ?_⟩
  · show ((List.range (width * height)).map FlowCell.emptyWithId).length = width * height
    simp
  · intro i c hic
    rw [show (FlowGrid.withSize width height).cells =
      (List.range (width * height)).map FlowCell.emptyWithId from rfl, List.getElem?_map] at hic
    rcases hr : (List.range (width * height))[i]? with _ | j
    · rw [hr] at hic
      simp at hic
    · rw [hr] at hic
      simp only [Option.map_some'] at hic
      injection hic with hic
      rw [← hic]
      refine ⟨?_, fun _ => ?_⟩ <;> simp [FlowCell.emptyWithId, FlowCell.numConnections]
  · intro i c d hic hf
    rw [show (FlowGrid.withSize width height).cells =
      (List.range (width * height)).map FlowCell.emptyWithId from rfl, List.getElem?_map] at hic
    rcases hr : (List.range (width * height))[i]? with _ | j
    · rw [hr] at hic
      simp at hic
    · rw [hr] at hic
      simp only [Option.map_some'] at hic
      injection hic with hic
      rw [← hic] at hf
      cases d <;> exact Bool.noConfusion hf

/-- Every grid state reachable by public operations satisfies the inductive
invariant. -/
theorem reachable_inv {g : FlowGrid} (h : FlowGrid.Reachable g) : g.Inv := by
  induction h with
  | init width height => exact withSize_inv width height
  | step hr hs ih =>
    cases hs with
    | setNewSource a1 a2 a3 a4 hop => exact trySetNewSource_preserves_inv ih hop
    | setMissingSource a1 a2 a3 a4 a5 hop =>
      exact trySetMissingSource_preserves_inv ih hop
    | removeSource a1 a2 a3 a4 hop => exact tryRemoveSource_preserves_inv ih hop
    | connect a1 a2 a3 a4 a5 hop => exact tryConnect_preserves_inv ih hop
    | disconnect a1 a2 a3 a4 a5 hop => exact tryDisconnect_preserves_inv ih hop
    | removeTail a1 a2 a3 a4 a5 a6 hop =>
      exact removeTail_preserves_inv ih hop

/-- Two cells joined by an unbroken chain of connection flags in a grid
satisfying the invariant carry the same colour. -/
theorem chain_color_eq {g : FlowGrid} (hInv : g.Inv) :
    ∀ (i j : Nat) (ci cj : FlowCell), g.Chain i j →
      g.cells[i]? = some ci → g.cells[j]? = some cj → cj.color = ci.color := by
  intro i j ci cj hchain hci
  revert cj
  induction hchain with
  | refl =>
    intro cj hcj
    rw [hci] at hcj
    injection hcj with hcj
    rw [← hcj]
  | tail hab hbc ih =>
    intro cj hcj
    obtain ⟨d, cb, hcb, hflag, hoff⟩ := hbc
    obtain ⟨k, kc, hoffk, hkc, _, hcolk⟩ := hInv.2.2 _ cb d hcb hflag
    rw [hoff] at hoffk
    injection hoffk with he
    subst he
    rw [hcj] at hkc
    injection hkc with he2
    subst he2
    rw [hcolk]
    exact ih cb hcb

/-- C2: Degree invariant (I1) — in every grid state reachable from a new
grid by any sequence of public operations, every cell has at most 2 of its
four connection flags set, and at most 1 if its `is_source` flag is set. -/
theorem degree_invariant {g : FlowGrid} (hg : FlowGrid.Reachable g) :
    ∀ (i : Nat) (c : FlowCell), g.cells[i]? = some c →
      c.numConnections ≤ 2 ∧ (c.isSource = true → c.numConnections ≤ 1) :=
  (reachable_inv hg).2.1

theorem degree_invariant_witness :
    ({ color := CellColor.empty 1, isSource := false, isConnectedUp := false,
       isConnectedDown := false, isConnectedLeft := false,
       isConnectedRight := true } : FlowCell).numConnections ≤ 2 ∧
      (({ color := CellColor.empty 1, isSource := false, isConnectedUp := false,
          isConnectedDown := false, isConnectedLeft := false,
          isConnectedRight := true } : FlowCell).isSource = true →
        ({ color := CellColor.empty 1, isSource := false, isConnectedUp := false,
           isConnectedDown := false, isConnectedLeft := false,
           isConnectedRight := true } : FlowCell).numConnections ≤ 1) :=
  degree_invariant rtG0_reachable 0 _ (by decide)

/-- C3: Symmetry invariant (I2) — in every reachable grid state, for every
in-bounds cell and direction with an in-bounds neighbor, the cell's flag
toward the direction is set exactly when the neighbor's flag toward the
opposite direction is set. -/
theorem symmetry_invariant {g : FlowGrid} (hg : FlowGrid.Reachable g) :
    ∀ (i j : Nat) (d : Direction) (ci cj : FlowCell),
      g.cells[i]? = some ci → g.offsetIndex i d = some j → g.cells[j]? = some cj →
      (ci.isDirectionConnected d = true ↔ cj.isDirectionConnected d.opposite = true) := by
  intro i j d ci cj hci hoff hcj
  have hSym := (reachable_inv hg).2.2
  constructor
  · intro hf
    obtain ⟨k, kc, hoffk, hkc, hbk, _⟩ := hSym i ci d hci hf
    rw [hoff] at hoffk
    injection hoffk with he
    subst he
    rw [hcj] at hkc
    injection hkc with he2
    subst he2
    exact hbk
  · intro hf
    obtain ⟨k, kc, hoffk, hkc, hbk, _⟩ := hSym j cj d.opposite hcj hf
    rw [FlowGrid.offsetIndex_symm hoff] at hoffk
    injection hoffk with he
    subst he
    rw [hci] at hkc
    injection hkc with he2
    subst he2
    rw [Direction.opposite_opposite] at hbk
    exact hbk

theorem symmetry_invariant_witness :
    (({ color := CellColor.empty 1, isSource := false, isConnectedUp := false,
        isConnectedDown := false, isConnectedLeft := false,
        isConnectedRight := true } : FlowCell).isDirectionConnected Direction.right = true ↔
      ({ color := CellColor.empty 1, isSource := false, isConnectedUp := false,
         isConnectedDown := false, isConnectedLeft := true,
         isConnectedRight := false } : FlowCell).isDirectionConnected
          Direction.right.opposite = true) :=
  symmetry_invariant rtG0_reachable 0 1 Direction.right _ _ (by decide) (by decide) (by decide)

/-- C1: Colour coherence invariant (I3) — in every grid state reachable from
a new grid by any sequence of public operations, any two cells joined by an
unbroken chain of connection flags carry equal `CellColor` values. -/
theorem color_coherence_invariant {g : FlowGrid} (hg : FlowGrid.Reachable g) :
    ∀ (i j : Nat) (ci cj : FlowCell), g.Chain i j →
      g.cells[i]? = some ci → g.cells[j]? = some cj → cj.color = ci.color :=
  chain_color_eq (reachable_inv hg)

theorem color_coherence_invariant_witness :
    ({ color := CellColor.empty 1, isSource := false, isConnectedUp := false,
       isConnectedDown := false, isConnectedLeft := true,
       isConnectedRight := false } : FlowCell).color =
      ({ color := CellColor.empty 1, isSource := false, isConnectedUp := false,
         isConnectedDown := false, isConnectedLeft := false,
         isConnectedRight := true } : FlowCell).color :=
  color_coherence_invariant rtG0_reachable 0 1 _ _
    (Relation.ReflTransGen.single ⟨Direction.right,
      { color := CellColor.empty 1, isSource := false, isConnectedUp := false,
        isConnectedDown := false, isConnectedLeft := false, isConnectedRight := true },
      by decide, by decide, by decide⟩)
    (by decide) (by decide)

/-- Post-state description of the connect flood pair used by `try_connect`:
the flood start cell gains the back flag and the anchor's colour, the anchor
gains the forward flag, and no connection flag anywhere is cleared. -/
theorem connect_pair_post {g gA gB : FlowGrid} {s p : Nat} {bd : Direction} {sc pc : FlowCell}
    (hInv : g.Inv)
    (hoi : g.offsetIndex s bd = some p)
    (hsc : g.cells[s]? = some sc) (hpc : g.cells[p]? = some pc)
    (hscf : sc.isDirectionConnected bd = false)
    (hpcf : pc.isDirectionConnected bd.opposite = false)
    (hsco : sc.hasOpenConnections = true) (hpco : pc.hasOpenConnections = true)
    (h1 : FlowGrid.connectCoreF (g.cells.length + 1) g s bd = CoreOut.ok gA)
    (h2 : FlowGrid.connectCoreF (gA.cells.length + 1) gA p bd.opposite = CoreOut.ok gB) :
    gB.cells[s]? = some ((sc.addConnection bd).setColor pc.color) ∧
    gB.cells[p]? = some (pc.addConnection bd.opposite) ∧
    (∀ (j : Nat) (cj bj : FlowCell) (d : Direction), g.cells[j]? = some cj →
      gB.cells[j]? = some bj → cj.isDirectionConnected d = true →
      bj.isDirectionConnected d = true) ∧
    gB.cells.length = g.cells.length ∧ gB.width = g.width ∧ gB.height = g.height := by
  obtain ⟨hLen, hDeg, hSym⟩ := hInv
  have hslt : s < g.cells.length := (FlowGrid.offsetIndex_lt hoi).1
  have hw : 0 < g.width := by
    by_contra hw0
    rw [hLen] at hslt
    have : g.width = 0 := by omega
    rw [this] at hslt
    simp at hslt
  have hps : p ≠ s := FlowGrid.offsetIndex_ne hw hoi
  obtain ⟨hso1, hso2⟩ := FlowCell.hasOpenConnections_spec hsco
  have spec1 : CoreSpec g gA s bd pc.color := by
    refine connectCore_master (g.cells.length + 1) g s bd p pc gA h1 hoi hpc hps hw ?_ ?_ ?_ ?_
    · intro j c d hc _ hf
      obtain ⟨k, kc, hk, hkc, hbk, _⟩ := hSym j c d hc hf
      exact ⟨k, kc, hk, hkc, hbk⟩
    · intro j c d k kc hc hf hk hkc
      right; right
      obtain ⟨k', kc', hk', hkc', _, hcol'⟩ := hSym j c d hc hf
      rw [hk] at hk'
      injection hk' with hk'
      subst hk'
      rw [hkc] at hkc'
      injection hkc' with hkc'
      subst hkc'
      exact hcol'
    · intro j c hc _
      exact (hDeg j c hc).1
    · intro sc' hsc'
      rw [hsc] at hsc'
      injection hsc' with hsc'
      subst hsc'
      rw [FlowCell.removeConnection_of_not_connected hscf]
      exact hso1
  have hgAs : gA.cells[s]? = some ((sc.addConnection bd).setColor pc.color) :=
    spec1.start sc hsc
  have hgAp : gA.cells[p]? = some pc := by
    rcases spec1.others p hps with heq | ⟨c, hc, hne, _⟩
    · rw [heq]
      exact hpc
    · rw [hpc] at hc
      injection hc with hc
      subst hc
      exact absurd rfl hne
  have hoffA : gA.offsetIndex p bd.opposite = some s := by
    rw [FlowGrid.offsetIndex_congr spec1.len_eq spec1.width_eq]
    exact FlowGrid.offsetIndex_symm hoi
  have h2' := connectCore_equal gA.cells.length hoffA hgAs hgAp rfl
  rw [h2'] at h2
  injection h2 with h2
  subst h2
  have hpltA : p < gA.cells.length := by
    rw [spec1.len_eq]
    exact getElem?_some_lt hpc
  have hcsP : (gA.cells.set p (pc.addConnection bd.opposite))[p]? =
      some (pc.addConnection bd.opposite) := List.getElem?_set_self hpltA
  have hcsE : ∀ i : Nat, i ≠ p → (gA.cells.set p (pc.addConnection bd.opposite))[i]? =
      gA.cells[i]? := fun i hi => List.getElem?_set_ne (Ne.symm hi)
  refine ⟨?_, hcsP, ?_, by simp [spec1.len_eq], spec1.width_eq, spec1.height_eq⟩
  · rw [show ({ gA with cells := gA.cells.set p (pc.addConnection bd.opposite) } :
      FlowGrid).cells[s]? = (gA.cells.set p (pc.addConnection bd.opposite))[s]? from rfl,
      hcsE s (Ne.symm hps)]
    exact hgAs
  · intro j cj bj d hcj hbj hf
    by_cases hjp : j = p
    · subst hjp
      rw [hcsP] at hbj
      injection hbj with hbj
      subst hbj
      rw [hpc] at hcj
      injection hcj with hcj
      subst hcj
      rw [FlowCell.addConnection_flag]
      simp [hf]
    · rw [hcsE j hjp] at hbj
      by_cases hjs : j = s
      · subst hjs
        rw [hgAs] at hbj
        injection hbj with hbj
        subst hbj
        rw [hsc] at hcj
        injection hcj with hcj
        subst hcj
        rw [FlowCell.setColor_flag, FlowCell.addConnection_flag]
        simp [hf]
      · rcases spec1.others j hjs with heq | ⟨c, hc, _, heq⟩
        · rw [heq, hcj] at hbj
          injection hbj with hbj
          subst hbj
          exact hf
        · rw [hc] at hcj
          injection hcj with hcj
          subst hcj
          rw [heq] at hbj
          injection hbj with hbj
          subst hbj
          rw [FlowCell.setColor_flag]
          exact hf

/-- A chain of connection flags survives any grid change that only adds
connection flags and keeps the dimensions. -/
theorem chain_mono {g g' : FlowGrid} (hlen : g'.cells.length = g.cells.length)
    (hw : g'.width = g.width)
    (hmono : ∀ (j : Nat) (cj bj : FlowCell) (d : Direction), g.cells[j]? = some cj →
      g'.cells[j]? = some bj → cj.isDirectionConnected d = true →
      bj.isDirectionConnected d = true)
    {i t : Nat} (hchain : g.Chain i t) : g'.Chain i t := by
  refine Relation.ReflTransGen.mono ?_ hchain
  intro a b hab
  obtain ⟨d, c, hc, hf, hoff⟩ := hab
  have halt : a < g'.cells.length := by
    rw [hlen]
    exact getElem?_some_lt hc
  obtain ⟨c', hc'⟩ : ∃ c', g'.cells[a]? = some c' := ⟨g'.cells[a], List.getElem?_eq_getElem halt⟩
  refine ⟨d, c', hc', hmono a c c' d hc hc' hf, ?_⟩
  rw [FlowGrid.offsetIndex_congr hlen hw]
  exact hoff

theorem prG1_reachable : FlowGrid.Reachable prG1 :=
  FlowGrid.Reachable.step (FlowGrid.Reachable.init 2 1)
    (FlowGrid.Step.setNewSource prG0 0 0 true prG1 (by decide))

/-- C4: Connect propagation direction — when `try_connect` succeeds, the
flood colour is the first endpoint's colour if it is `Colored`, otherwise
the second endpoint's colour (a deterministic choice fixed by parameter
order, which covers both the one-endpoint-`Colored` case and the
both-`Uncolored` case); after the call, every cell that was chain-connected
to the endpoint on the receiving side carries that colour. -/
theorem connect_propagation {g g' : FlowGrid} {row col i1 i2 : Nat} {dir : Direction}
    {cell1 cell2 : FlowCell}
    (hg : FlowGrid.Reachable g)
    (h : g.tryConnect row col dir = some (true, g'))
    (hi1 : g.getIndex row col = some i1) (hi2 : g.getOffsetIndex row col dir = some i2)
    (hc1 : g.cells[i1]? = some cell1) (hc2 : g.cells[i2]? = some cell2) :
    ∀ (t : Nat) (ct : FlowCell),
      g.Chain (match cell1.color with | CellColor.colored _ => i2 | _ => i1) t →
      g'.cells[t]? = some ct →
      ct.color = (match cell1.color with
        | CellColor.colored _ => cell1.color
        | _ => cell2.color) := by
  intro t ct hchain hct
  have hInv := reachable_inv hg
  have hLen := hInv.1
  have hg' : FlowGrid.Reachable g' :=
    FlowGrid.Reachable.step hg (FlowGrid.Step.connect g row col dir true g' h)
  have hInv' := reachable_inv hg'
  unfold FlowGrid.tryConnect at h
  split at h
  case h_2 => simp at h
  case h_1 cellA cellB hcA hcB =>
    have hxA : g.cells[i1]? = some cellA := by
      unfold FlowGrid.get at hcA
      rw [hi1] at hcA
      exact hcA
    rw [hc1] at hxA
    injection hxA with hxA
    subst hxA
    have hxB : g.cells[i2]? = some cellB := by
      unfold FlowGrid.offsetGet at hcB
      rw [hi2] at hcB
      exact hcB
    rw [hc2] at hxB
    injection hxB with hxB
    subst hxB
    split at h
    · simp at h
    rename_i hopen
    split at h
    · simp at h
    rename_i hflags
    split at h
    · simp at h
    rename_i hcolors
    split at h
    case h_2 => exact Option.noConfusion h
    case h_1 j1 j2 hj1 hj2 =>
      rw [hi1] at hj1
      injection hj1 with hj1
      subst hj1
      rw [hi2] at hj2
      injection hj2 with hj2
      subst hj2
      simp only [Bool.or_eq_true, Bool.not_eq_true', not_or, Bool.not_eq_false] at hopen
      simp only [Bool.or_eq_true, not_or, Bool.not_eq_true] at hflags
      have hoi12 : g.offsetIndex i1 dir = some i2 := by
        rw [← FlowGrid.getOffsetIndex_eq_offsetIndex hLen hi1]
        exact hi2
      simp only [] at h
      rcases hcc : cell1.color with cid | cid
      all_goals rw [hcc] at h
      all_goals simp only [] at h
      · split at h
        case h_2 => exact Option.noConfusion h
        case h_1 gA hfl1 =>
          split at h
          case h_2 => exact Option.noConfusion h
          case h_1 gB hfl2 =>
            simp only [Option.some.injEq, Prod.mk.injEq, true_and] at h
            subst h
            obtain ⟨hpostS, _, hmono, hlen, hwid, _⟩ := connect_pair_post hInv hoi12 hc1 hc2
              hflags.1 hflags.2 hopen.1 hopen.2 hfl1 hfl2
            have hstart : (match cell1.color with
                | CellColor.colored _ => i2 | _ => i1) = i1 := by rw [hcc]
            rw [hstart] at hchain
            have hchain' : gB.Chain i1 t := chain_mono hlen hwid hmono hchain
            have hcol := chain_color_eq hInv' i1 t _ ct hchain' hpostS hct
            rw [hcol, FlowCell.setColor_color]
      · split at h
        case h_2 => exact Option.noConfusion h
        case h_1 gA hfl1 =>
          split at h
          case h_2 => exact Option.noConfusion h
          case h_1 gB hfl2 =>
            simp only [Option.some.injEq, Prod.mk.injEq, true_and] at h
            subst h
            obtain ⟨hpostS, _, hmono, hlen, hwid, _⟩ := connect_pair_post hInv
              (FlowGrid.offsetIndex_symm hoi12) hc2 hc1 hflags.2
              (by rw [Direction.opposite_opposite]; exact hflags.1) hopen.2 hopen.1 hfl1
              (by rw [Direction.opposite_opposite]; exact hfl2)
            have hstart : (match cell1.color with
                | CellColor.colored _ => i2 | _ => i1) = i2 := by rw [hcc]
            rw [hstart] at hchain
            have hchain' : gB.Chain i2 t := chain_mono hlen hwid hmono hchain
            have hcol := chain_color_eq hInv' i2 t _ ct hchain' hpostS hct
            rw [hcol, FlowCell.setColor_color, hcc]

theorem connect_propagation_witness :
    ({ color := CellColor.colored 0, isSource := false, isConnectedUp := false,
       isConnectedDown := false, isConnectedLeft := true,
       isConnectedRight := false } : FlowCell).color =
      ({ color := CellColor.colored 0, isSource := true, isConnectedUp := false,
         isConnectedDown := false, isConnectedLeft := false,
         isConnectedRight := false } : FlowCell).color :=
  @connect_propagation prG1 prG2 0 0 0 1 Direction.right
    { color := CellColor.colored 0, isSource := true, isConnectedUp := false,
      isConnectedDown := false, isConnectedLeft := false, isConnectedRight := false }
    { color := CellColor.empty 1, isSource := false, isConnectedUp := false,
      isConnectedDown := false, isConnectedLeft := false, isConnectedRight := false }
    prG1_reachable (by decide) (by decide) (by decide) (by decide) (by decide) 1
    { color := CellColor.colored 0, isSource := false, isConnectedUp := false,
      isConnectedDown := false, isConnectedLeft := true, isConnectedRight := false }
    Relation.ReflTransGen.refl (by decide)

/-- C6 (amended): the five `try_*` mutators are atomic on failure — a
`false` return leaves the grid exactly as it was.  (`remove_tail` is the
exception, see the counterexample.) -/
theorem mutators_atomic_on_failure {g g' : FlowGrid} {row col colorId : Nat} {d : Direction} :
    (g.trySetNewSource row col = some (false, g') → g' = g) ∧
    (g.trySetMissingSource row col colorId = some (false, g') → g' = g) ∧
    (g.tryRemoveSource row col = some (false, g') → g' = g) ∧
    (g.tryConnect row col d = some (false, g') → g' = g) ∧
    (g.tryDisconnect row col d = some (false, g') → g' = g) :=
  ⟨trySetNewSource_false, trySetMissingSource_false, tryRemoveSource_false,
    tryConnect_false, tryDisconnect_false⟩

theorem mutators_atomic_on_failure_witness :
    FlowGrid.withSize 1 1 = FlowGrid.withSize 1 1 :=
  (@mutators_atomic_on_failure (FlowGrid.withSize 1 1) (FlowGrid.withSize 1 1) 5 5 0
    Direction.up).2.2.2.1 (by decide)

theorem FlowCell.remove_add (c : FlowCell) (d : Direction) :
    (c.addConnection d).removeConnection d = c.removeConnection d := by
  cases d <;> rfl

theorem FlowCell.setColor_removeConnection (c : FlowCell) (F : CellColor) (d : Direction) :
    (c.setColor F).removeConnection d = (c.removeConnection d).setColor F := by
  cases d <;> rfl

theorem FlowCell.setColor_setColor (c : FlowCell) (a b : CellColor) :
    (c.setColor a).setColor b = c.setColor b := rfl

theorem FlowGrid.getIndex_congr {g g' : FlowGrid} (hw : g'.width = g.width)
    (hh : g'.height = g.height) (r c : Nat) : g'.getIndex r c = g.getIndex r c := by
  unfold FlowGrid.getIndex
  rw [hw, hh]

theorem FlowGrid.getOffsetIndex_congr {g g' : FlowGrid} (hw : g'.width = g.width)
    (hh : g'.height = g.height) (r c : Nat) (d : Direction) :
    g'.getOffsetIndex r c d = g.getOffsetIndex r c d := by
  cases d <;> simp only [FlowGrid.getOffsetIndex, FlowGrid.getIndex_congr hw hh, hw, hh]

/-- Closed form of a successful `try_disconnect`: with both flags set, the
call clears the two symmetric flags and decolors each endpoint that is left
connection-free and not a source. -/
theorem tryDisconnect_eq {g : FlowGrid} {row col i1 i2 : Nat} {dir : Direction}
    {c1 c2 : FlowCell}
    (hi1 : g.getIndex row col = some i1) (hi2 : g.getOffsetIndex row col dir = some i2)
    (hc1 : g.cells[i1]? = some c1) (hc2 : g.cells[i2]? = some c2)
    (hne : i1 ≠ i2)
    (hf1 : c1.isDirectionConnected dir = true)
    (hf2 : c2.isDirectionConnected dir.opposite = true) :
    g.tryDisconnect row col dir =
      some (true, { g with cells := (g.cells.set i1 ((c1.removeConnection dir).decolorIfIsolated i1)).set i2 ((c2.removeConnection dir.opposite).decolorIfIsolated i2) }) := by
  unfold FlowGrid.tryDisconnect
  rw [hi1, hi2]
  simp only []
  rw [hc1, hc2]
  simp only [hf1, hf2, Bool.not_true, Bool.false_eq_true, if_false]
  rw [show ({ g with cells := g.cells.set i1 ((c1.removeConnection dir).decolorIfIsolated i1) } : FlowGrid).cells[i2]? = some c2 from by
    rw [show ({ g with cells := g.cells.set i1 ((c1.removeConnection dir).decolorIfIsolated i1) } : FlowGrid).cells = g.cells.set i1 ((c1.removeConnection dir).decolorIfIsolated i1) from rfl,
      List.getElem?_set_ne hne]
    exact hc2]

theorem FlowCell.decolorIfIsolated_of_source {c : FlowCell} (idx : Nat)
    (h : c.isSource = true) : c.decolorIfIsolated idx = c := by
  unfold FlowCell.decolorIfIsolated
  rw [if_neg]
  rintro ⟨_, hf⟩
  rw [h] at hf
  exact Bool.noConfusion hf

theorem FlowCell.decolorIfIsolated_of_isolated {c : FlowCell} (idx : Nat)
    (h0 : c.numConnections = 0) (hs : c.isSource = false) :
    c.decolorIfIsolated idx = c.setColor (CellColor.empty idx) := by
  unfold FlowCell.decolorIfIsolated
  rw [if_pos ⟨h0, hs⟩]

/-- C5 (amended): on a reachable grid, a successful `try_connect` followed
immediately by the matching `try_disconnect` succeeds, and both endpoint
cells are restored exactly whenever each endpoint is `restorable`: a source
carrying an explicit colour, or a connection-free non-source cell carrying
its own fresh `Empty` disambiguator.  (Without these side conditions the
round trip fails to restore colours — see the counterexample.) -/
theorem connect_disconnect_roundtrip_amended {g gB : FlowGrid} {row col i1 i2 : Nat}
    {dir : Direction} {cell1 cell2 : FlowCell}
    (hg : FlowGrid.Reachable g)
    (hi1 : g.getIndex row col = some i1) (hi2 : g.getOffsetIndex row col dir = some i2)
    (hc1 : g.cells[i1]? = some cell1) (hc2 : g.cells[i2]? = some cell2)
    (hr1 : cell1.restorable i1) (hr2 : cell2.restorable i2)
    (h : g.tryConnect row col dir = some (true, gB)) :
    ∃ gC, gB.tryDisconnect row col dir = some (true, gC) ∧
      gC.cells[i1]? = some cell1 ∧ gC.cells[i2]? = some cell2 := by
  have hInv := reachable_inv hg
  have hLen := hInv.1
  have hoi12 : g.offsetIndex i1 dir = some i2 := by
    rw [← FlowGrid.getOffsetIndex_eq_offsetIndex hLen hi1]
    exact hi2
  have hi1lt : i1 < g.cells.length := getElem?_some_lt hc1
  have hw : 0 < g.width := by
    rw [hLen] at hi1lt
    by_contra h0
    have : g.width = 0 := by omega
    rw [this] at hi1lt
    simp at hi1lt
  have hne : i1 ≠ i2 := Ne.symm (FlowGrid.offsetIndex_ne hw hoi12)
  unfold FlowGrid.tryConnect at h
  split at h
  case h_2 => simp at h
  case h_1 cellA cellB hcA hcB =>
    have hxA : g.cells[i1]? = some cellA := by
      unfold FlowGrid.get at hcA
      rw [hi1] at hcA
      exact hcA
    rw [hc1] at hxA
    injection hxA with hxA
    subst hxA
    have hxB : g.cells[i2]? = some cellB := by
      unfold FlowGrid.offsetGet at hcB
      rw [hi2] at hcB
      exact hcB
    rw [hc2] at hxB
    injection hxB with hxB
    subst hxB
    split at h
    · simp at h
    rename_i hopen
    split at h
    · simp at h
    rename_i hflags
    split at h
    · simp at h
    rename_i hcolors
    split at h
    case h_2 => exact Option.noConfusion h
    case h_1 j1 j2 hj1 hj2 =>
      rw [hi1] at hj1
      injection hj1 with hj1
      subst hj1
      rw [hi2] at hj2
      injection hj2 with hj2
      subst hj2
      simp only [Bool.or_eq_true, Bool.not_eq_true', not_or, Bool.not_eq_false] at hopen
      simp only [Bool.or_eq_true, not_or, Bool.not_eq_true] at hflags
      simp only [Bool.not_eq_true', Bool.not_eq_false] at hcolors
      simp only [] at h
      rcases hcc : cell1.color with cid | cid
      all_goals rw [hcc] at h
      all_goals simp only [] at h
      · -- cell1 uncoloured: flood starts at i1
        split at h
        case h_2 => exact Option.noConfusion h
        case h_1 gA hfl1 =>
          split at h
          case h_2 => exact Option.noConfusion h
          case h_1 gB2 hfl2 =>
            simp only [Option.some.injEq, Prod.mk.injEq, true_and] at h
            subst h
            obtain ⟨hpostS, hpostP, _, hlen, hwid, hhei⟩ := connect_pair_post hInv hoi12 hc1 hc2
              hflags.1 hflags.2 hopen.1 hopen.2 hfl1 hfl2
            have hfB1 : ((cell1.addConnection dir).setColor cell2.color).isDirectionConnected
                dir = true := by
              rw [FlowCell.setColor_flag, FlowCell.addConnection_flag]
              simp
            have hfB2 : (cell2.addConnection dir.opposite).isDirectionConnected
                dir.opposite = true := by
              rw [FlowCell.addConnection_flag]
              simp
            have hdis := tryDisconnect_eq
              (show gB2.getIndex row col = some i1 by
                rw [FlowGrid.getIndex_congr hwid hhei]; exact hi1)
              (show gB2.getOffsetIndex row col dir = some i2 by
                rw [FlowGrid.getOffsetIndex_congr hwid hhei]; exact hi2)
              hpostS hpostP hne hfB1 hfB2
            have hX : (((cell1.addConnection dir).setColor
                cell2.color).removeConnection dir).decolorIfIsolated i1 = cell1 := by
              rw [FlowCell.setColor_removeConnection, FlowCell.remove_add,
                FlowCell.removeConnection_of_not_connected hflags.1]
              rcases hr1 with ⟨hsrc1, n, hcoln⟩ | ⟨hsrc1, hnum0, hcole⟩
              · rw [hcc] at hcoln
                exact CellColor.noConfusion hcoln
              · rw [FlowCell.decolorIfIsolated_of_isolated i1
                  (by rw [FlowCell.setColor_num]; exact hnum0)
                  (by rw [FlowCell.setColor_isSource]; exact hsrc1),
                  FlowCell.setColor_setColor, ← hcole, FlowCell.setColor_self]
            have hY : ((cell2.addConnection dir.opposite).removeConnection
                dir.opposite).decolorIfIsolated i2 = cell2 := by
              rw [FlowCell.remove_add, FlowCell.removeConnection_of_not_connected hflags.2]
              rcases hr2 with ⟨hsrc2, m, hcolm⟩ | ⟨hsrc2, hnum20, hcole2⟩
              · exact FlowCell.decolorIfIsolated_of_source i2 hsrc2
              · rw [FlowCell.decolorIfIsolated_of_isolated i2 hnum20 hsrc2, ← hcole2,
                  FlowCell.setColor_self]
            rw [hX, hY] at hdis
            refine ⟨_, hdis, ?_, ?_⟩
            · show ((gB2.cells.set i1 cell1).set i2 cell2)[i1]? = some cell1
              rw [List.getElem?_set_ne hne.symm, List.getElem?_set_self]
              rw [hlen]
              exact getElem?_some_lt hc1
            · show ((gB2.cells.set i1 cell1).set i2 cell2)[i2]? = some cell2
              rw [List.getElem?_set_self]
              simp only [List.length_set]
              rw [hlen]
              exact getElem?_some_lt hc2
      · -- cell1 coloured: flood starts at i2
        split at h
        case h_2 => exact Option.noConfusion h
        case h_1 gA hfl1 =>
          split at h
          case h_2 => exact Option.noConfusion h
          case h_1 gB2 hfl2 =>
            simp only [Option.some.injEq, Prod.mk.injEq, true_and] at h
            subst h
            obtain ⟨hpostS, hpostP, _, hlen, hwid, hhei⟩ := connect_pair_post hInv
              (FlowGrid.offsetIndex_symm hoi12) hc2 hc1 hflags.2
              (by rw [Direction.opposite_opposite]; exact hflags.1) hopen.2 hopen.1 hfl1
              (by rw [Direction.opposite_opposite]; exact hfl2)
            rw [Direction.opposite_opposite] at hpostP
            have hfB1 : (cell1.addConnection dir).isDirectionConnected dir = true := by
              rw [FlowCell.addConnection_flag]
              simp
            have hfB2 : ((cell2.addConnection dir.opposite).setColor
                cell1.color).isDirectionConnected dir.opposite = true := by
              rw [FlowCell.setColor_flag, FlowCell.addConnection_flag]
              simp
            have hdis := tryDisconnect_eq
              (show gB2.getIndex row col = some i1 by
                rw [FlowGrid.getIndex_congr hwid hhei]; exact hi1)
              (show gB2.getOffsetIndex row col dir = some i2 by
                rw [FlowGrid.getOffsetIndex_congr hwid hhei]; exact hi2)
              hpostP hpostS hne hfB1 hfB2
            have hX : ((cell1.addConnection dir).removeConnection dir).decolorIfIsolated i1 =
                cell1 := by
              rw [FlowCell.remove_add, FlowCell.removeConnection_of_not_connected hflags.1]
              rcases hr1 with ⟨hsrc1, n, hcoln⟩ | ⟨hsrc1, hnum0, hcole⟩
              · exact FlowCell.decolorIfIsolated_of_source i1 hsrc1
              · rw [FlowCell.decolorIfIsolated_of_isolated i1 hnum0 hsrc1, ← hcole,
                  FlowCell.setColor_self]
            have hY : (((cell2.addConnection dir.opposite).setColor
                cell1.color).removeConnection dir.opposite).decolorIfIsolated i2 = cell2 := by
              rw [FlowCell.setColor_removeConnection, FlowCell.remove_add,
                FlowCell.removeConnection_of_not_connected hflags.2]
              rcases hr2 with ⟨hsrc2, m, hcolm⟩ | ⟨hsrc2, hnum20, hcole2⟩
              · rw [FlowCell.decolorIfIsolated_of_source i2
                  (by rw [FlowCell.setColor_isSource]; exact hsrc2)]
                rw [hcc, hcolm] at hcolors
                simp only [CellColor.canColorsConnect, beq_iff_eq] at hcolors
                rw [hcc, hcolors, ← hcolm, FlowCell.setColor_self]
              · rw [FlowCell.decolorIfIsolated_of_isolated i2
                  (by rw [FlowCell.setColor_num]; exact hnum20)
                  (by rw [FlowCell.setColor_isSource]; exact hsrc2),
                  FlowCell.setColor_setColor, ← hcole2, FlowCell.setColor_self]
            rw [hX, hY] at hdis
            refine ⟨_, hdis, ?_, ?_⟩
            · show ((gB2.cells.set i1 cell1).set i2 cell2)[i1]? = some cell1
              rw [List.getElem?_set_ne hne.symm, List.getElem?_set_self]
              rw [hlen]
              exact getElem?_some_lt hc1
            · show ((gB2.cells.set i1 cell1).set i2 cell2)[i2]? = some cell2
              rw [List.getElem?_set_self]
              simp only [List.length_set]
              rw [hlen]
              exact getElem?_some_lt hc2

theorem connect_disconnect_roundtrip_amended_witness :
    ∃ gC, prG2.tryDisconnect 0 0 Direction.right = some (true, gC) ∧
      gC.cells[0]? = some { color := CellColor.colored 0, isSource := true,
                            isConnectedUp := false, isConnectedDown := false,
                            isConnectedLeft := false, isConnectedRight := false } ∧
      gC.cells[1]? = some { color := CellColor.empty 1, isSource := false,
                            isConnectedUp := false, isConnectedDown := false,
                            isConnectedLeft := false, isConnectedRight := false } :=
  @connect_disconnect_roundtrip_amended prG1 prG2 0 0 0 1 Direction.right
    { color := CellColor.colored 0, isSource := true, isConnectedUp := false,
      isConnectedDown := false, isConnectedLeft := false, isConnectedRight := false }
    { color := CellColor.empty 1, isSource := false, isConnectedUp := false,
      isConnectedDown := false, isConnectedLeft := false, isConnectedRight := false }
    prG1_reachable (by decide) (by decide) (by decide) (by decide)
    (Or.inl ⟨rfl, 0, rfl⟩) (Or.inr ⟨rfl, rfl, rfl⟩) (by decide)

/-- The `connect_core` loop never touches the source registry or the colour
cursor. -/
theorem connectCoreF_aux :
    ∀ (fuel : Nat) (g : FlowGrid) (i : Nat) (d : Direction) (g' : FlowGrid),
      FlowGrid.connectCoreF fuel g i d = CoreOut.ok g' →
      g'.sourceIndex = g.sourceIndex ∧ g'.nextColorId = g.nextColorId := by
  intro fuel
  induction fuel with
  | zero =>
    intro g i d g' h
    exact CoreOut.noConfusion h
  | succ fuel ih =>
    intro g i d g' h
    unfold FlowGrid.connectCoreF at h
    split at h
    case h_1 => exact CoreOut.noConfusion h
    case h_2 p hp =>
      split at h
      case h_2 => exact CoreOut.noConfusion h
      case h_1 pc c hpc hc =>
        simp only [] at h
        split at h
        · injection h with h
          rw [← h]
          exact ⟨rfl, rfl⟩
        · split at h
          case h_1 => exact CoreOut.noConfusion h
          case h_2 =>
            injection h with h
            rw [← h]
            exact ⟨rfl, rfl⟩
          case h_3 ni nd hns =>
            obtain ⟨hsi, hnx⟩ := ih _ ni nd g' h
            exact ⟨by rw [hsi], by rw [hnx]⟩

/-- `setMissingFlood` never touches the source registry or the cursor, and
always reports success. -/
theorem setMissingFlood_aux {g2 g' : FlowGrid} {index : Nat} {cellS : FlowCell} {b : Bool}
    (h : FlowGrid.setMissingFlood g2 index cellS = some (b, g')) :
    g'.sourceIndex = g2.sourceIndex ∧ g'.nextColorId = g2.nextColorId := by
  unfold FlowGrid.setMissingFlood at h
  iterate 5 (all_goals try split at h)
  all_goals
    first
      | exact Option.noConfusion h
      | (obtain ⟨_, hok⟩ := coreToOp_some h
         exact connectCoreF_aux _ _ _ _ _ hok)
      | (simp only [Option.some.injEq, Prod.mk.injEq] at h
         rw [← h.2]
         exact ⟨rfl, rfl⟩)

/-- `decolorFlood` never touches the source registry or the cursor. -/
theorem decolorFlood_aux {g4 g' : FlowGrid} {index : Nat} {cellD1 : FlowCell} {b : Bool}
    (h : FlowGrid.decolorFlood g4 index cellD1 = some (b, g')) :
    g'.sourceIndex = g4.sourceIndex ∧ g'.nextColorId = g4.nextColorId := by
  unfold FlowGrid.decolorFlood at h
  iterate 5 (all_goals try split at h)
  all_goals
    first
      | exact Option.noConfusion h
      | (obtain ⟨_, hok⟩ := coreToOp_some h
         exact connectCoreF_aux _ _ _ _ _ hok)
      | (simp only [Option.some.injEq, Prod.mk.injEq] at h
         rw [← h.2]
         exact ⟨rfl, rfl⟩)

/-- `try_disconnect` never touches the source registry or the cursor. -/
theorem tryDisconnect_aux {g g' : FlowGrid} {row col : Nat} {d : Direction} {b : Bool}
    (h : g.tryDisconnect row col d = some (b, g')) :
    g'.sourceIndex = g.sourceIndex ∧ g'.nextColorId = g.nextColorId := by
  unfold FlowGrid.tryDisconnect at h
  iterate 6
    (all_goals try split at h
     all_goals try simp only [] at h)
  all_goals
    first
      | exact Option.noConfusion h
      | (simp only [Option.some.injEq, Prod.mk.injEq] at h
         rw [← h.2]
         exact ⟨rfl, rfl⟩)

/-- `try_connect` never touches the source registry or the cursor. -/
theorem tryConnect_aux {g g' : FlowGrid} {row col : Nat} {d : Direction} {b : Bool}
    (h : g.tryConnect row col d = some (b, g')) :
    g'.sourceIndex = g.sourceIndex ∧ g'.nextColorId = g.nextColorId := by
  unfold FlowGrid.tryConnect at h
  split at h
  case h_2 =>
    simp only [Option.some.injEq, Prod.mk.injEq] at h
    rw [← h.2]
    exact ⟨rfl, rfl⟩
  case h_1 c1 c2 hc1 hc2 =>
    split at h
    · simp only [Option.some.injEq, Prod.mk.injEq] at h
      rw [← h.2]
      exact ⟨rfl, rfl⟩
    split at h
    · simp only [Option.some.injEq, Prod.mk.injEq] at h
      rw [← h.2]
      exact ⟨rfl, rfl⟩
    split at h
    · simp only [Option.some.injEq, Prod.mk.injEq] at h
      rw [← h.2]
      exact ⟨rfl, rfl⟩
    split at h
    case h_2 => exact Option.noConfusion h
    case h_1 i1 i2 hi1 hi2 =>
      simp only [] at h
      iterate 3 (all_goals try split at h)
      all_goals
        first
          | exact Option.noConfusion h
          | (rename_i o1 gA hfl1 o2 gB hfl2
             simp only [Option.some.injEq, Prod.mk.injEq] at h
             rw [← h.2]
             obtain ⟨hsiA, hnxA⟩ := connectCoreF_aux _ _ _ _ _ hfl1
             obtain ⟨hsiB, hnxB⟩ := connectCoreF_aux _ _ _ _ _ hfl2
             exact ⟨by rw [hsiB, hsiA], by rw [hnxB, hnxA]⟩)

/-- The `remove_tail` loop never touches the source registry or the cursor. -/
theorem removeTailLoop_aux :
    ∀ (fuel : Nat) (g : FlowGrid) (baseRow baseCol tailRow tailCol : Nat) (b : Bool)
      (g' : FlowGrid),
      FlowGrid.removeTailLoop fuel g baseRow baseCol tailRow tailCol = some (b, g') →
      g'.sourceIndex = g.sourceIndex ∧ g'.nextColorId = g.nextColorId := by
  intro fuel
  induction fuel with
  | zero =>
    intro g _ _ _ _ b g' h
    exact Option.noConfusion h
  | succ fuel ih =>
    intro g baseRow baseCol tailRow tailCol b g' h
    unfold FlowGrid.removeTailLoop at h
    split at h
    · simp only [Option.some.injEq, Prod.mk.injEq] at h
      rw [← h.2]
      exact ⟨rfl, rfl⟩
    split at h
    case h_1 => exact Option.noConfusion h
    case h_2 tail htail =>
      simp only [] at h
      split at h
      case h_1 =>
        simp only [Option.some.injEq, Prod.mk.injEq] at h
        rw [← h.2]
        exact ⟨rfl, rfl⟩
      case h_2 direction hdir =>
        split at h
        case h_1 => exact Option.noConfusion h
        case h_2 gU hdis =>
          simp only [Option.some.injEq, Prod.mk.injEq] at h
          rw [← h.2]
          exact tryDisconnect_aux hdis
        case h_3 g1 hdis =>
          split at h
          case h_1 => exact Option.noConfusion h
          case h_2 tr tc hoff =>
            obtain ⟨hsi1, hnx1⟩ := ih g1 baseRow baseCol tr tc b g' h
            obtain ⟨hsi2, hnx2⟩ := tryDisconnect_aux hdis
            exact ⟨by rw [hsi1, hsi2], by rw [hnx1, hnx2]⟩

/-- `remove_tail` never touches the source registry or the cursor. -/
theorem removeTail_aux {g g' : FlowGrid} {baseRow baseCol tailRow tailCol : Nat} {b : Bool}
    (h : g.removeTail baseRow baseCol tailRow tailCol = some (b, g')) :
    g'.sourceIndex = g.sourceIndex ∧ g'.nextColorId = g.nextColorId := by
  unfold FlowGrid.removeTail at h
  iterate 4 (all_goals try split at h)
  all_goals
    first
      | exact Option.noConfusion h
      | (simp only [Option.some.injEq, Prod.mk.injEq] at h
         rw [← h.2]
         exact ⟨rfl, rfl⟩)
      | exact removeTailLoop_aux _ g baseRow baseCol tailRow tailCol b g' h

/-- Every colour id strictly below the value the cursor advances to has a
fully registered source pair. -/
theorem advanceFromF_full :
    ∀ (fuel : Nat) (si : List (Option Nat × Option Nat)) (n m : Nat),
      n ≤ m → m < advanceFromF fuel si n → ∃ a b, si[m]? = some (some a, some b) := by
  intro fuel
  induction fuel with
  | zero =>
    intro si n m hle hlt
    unfold advanceFromF at hlt
    omega
  | succ fuel ih =>
    intro si n m hle hlt
    unfold advanceFromF at hlt
    split at hlt
    case h_1 a b hsn =>
      by_cases hm : m = n
      · subst hm
        exact ⟨a, b, hsn⟩
      · exact ih si (n + 1) m (by omega) hlt
    case h_2 hother =>
      omega

/-- `try_set_missing_source` keeps the cursor where it is, and every colour
id below the cursor that had a full source pair still has one. -/
theorem trySetMissingSource_J {g g' : FlowGrid} {row col colorId : Nat} {b : Bool}
    (h : g.trySetMissingSource row col colorId = some (b, g'))
    (hJ : ∀ id : Nat, id < g.nextColorId → g.idFull id) :
    g'.nextColorId = g.nextColorId ∧ ∀ id : Nat, id < g.nextColorId → g'.idFull id := by
  cases b with
  | false =>
    rw [trySetMissingSource_false h]
    exact ⟨rfl, hJ⟩
  | true =>
    unfold FlowGrid.trySetMissingSource at h
    split at h
    case h_1 => simp at h
    case h_2 index hidx =>
      split at h
      case h_1 => exact Option.noConfusion h
      case h_2 cell hcell =>
        split at h
        · simp at h
        rename_i hsrc
        split at h
        · simp at h
        rename_i hnum
        split at h
        · simp at h
        rename_i hcan
        have hlook : ∀ si2 : List (Option Nat × Option Nat),
            ({ g with sourceIndex := si2 } : FlowGrid).cells[index]? = some cell :=
          fun _ => hcell
        simp only [] at h
        rw [hlook] at h
        simp only [] at h
        split at h
        case h_1 prev1 prev2 hreg =>
          split at h
          · rename_i hp1
            obtain ⟨hsi, hnx⟩ := setMissingFlood_aux h
            refine ⟨hnx.trans rfl, ?_⟩
            intro id hid
            obtain ⟨a, b2, hab⟩ := hJ id hid
            have hneq : colorId ≠ id := by
              intro he
              subst he
              rw [hreg] at hab
              injection hab with hab
              rw [Prod.mk.injEq] at hab
              rw [hp1] at hab
              exact Option.noConfusion hab.1.symm
            refine ⟨a, b2, ?_⟩
            rw [hsi]
            exact (List.getElem?_set_ne hneq).trans hab
          · rename_i hp1
            split at h
            · rename_i hp2
              obtain ⟨hsi, hnx⟩ := setMissingFlood_aux h
              refine ⟨hnx.trans rfl, ?_⟩
              intro id hid
              obtain ⟨a, b2, hab⟩ := hJ id hid
              have hneq : colorId ≠ id := by
                intro he
                subst he
                rw [hreg] at hab
                injection hab with hab
                rw [Prod.mk.injEq] at hab
                rw [hp2] at hab
                exact Option.noConfusion hab.2.symm
              refine ⟨a, b2, ?_⟩
              rw [hsi]
              exact (List.getElem?_set_ne hneq).trans hab
            · rename_i hp2
              obtain ⟨hsi, hnx⟩ := setMissingFlood_aux h
              refine ⟨hnx.trans rfl, ?_⟩
              intro id hid
              obtain ⟨a, b2, hab⟩ := hJ id hid
              by_cases heq : colorId = id
              · subst heq
                rcases hp2' : prev2 with _ | x
                · exact absurd hp2' hp2
                · refine ⟨x, index, ?_⟩
                  rw [hsi]
                  have hclt : colorId < g.sourceIndex.length := getElem?_some_lt hreg
                  exact (List.getElem?_set_self hclt).trans (by rw [hp2'])
              · refine ⟨a, b2, ?_⟩
                rw [hsi]
                exact (List.getElem?_set_ne heq).trans hab
        case h_2 hreg =>
          obtain ⟨hsi, hnx⟩ := setMissingFlood_aux h
          refine ⟨hnx.trans rfl, ?_⟩
          intro id hid
          obtain ⟨a, b2, hab⟩ := hJ id hid
          have hlt : id < g.sourceIndex.length := getElem?_some_lt hab
          refine ⟨a, b2, ?_⟩
          rw [hsi]
          exact ((List.getElem?_append_left (by simp; omega)).trans
            (List.getElem?_append_left hlt)).trans hab

/-- After `try_set_new_source`, every colour id below the (possibly
advanced) cursor has a full source pair, assuming the same held before. -/
theorem trySetNewSource_J {g g' : FlowGrid} {row col : Nat} {b : Bool}
    (h : g.trySetNewSource row col = some (b, g'))
    (hJ : ∀ id : Nat, id < g.nextColorId → g.idFull id) :
    ∀ id : Nat, id < g'.nextColorId → g'.idFull id := by
  unfold FlowGrid.trySetNewSource at h
  split at h
  case h_1 g1 hinner =>
    simp only [Option.some.injEq, Prod.mk.injEq] at h
    rw [← h.2]
    obtain ⟨hnx1, hJ1⟩ := trySetMissingSource_J hinner hJ
    intro id hid
    have hid' : id < advanceFromF (g1.sourceIndex.length + 1) g1.sourceIndex g1.nextColorId :=
      hid
    by_cases hlo : id < g1.nextColorId
    · rw [hnx1] at hlo
      obtain ⟨a, b2, hab⟩ := hJ1 id hlo
      exact ⟨a, b2, hab⟩
    · obtain ⟨a, b2, hab⟩ := advanceFromF_full (g1.sourceIndex.length + 1) g1.sourceIndex
        g1.nextColorId id (by omega) hid'
      exact ⟨a, b2, hab⟩
  case h_2 g1 hinner =>
    simp only [Option.some.injEq, Prod.mk.injEq] at h
    rw [← h.2]
    obtain ⟨hnx1, hJ1⟩ := trySetMissingSource_J hinner hJ
    intro id hid
    rw [hnx1] at hid
    exact hJ1 id hid
  case h_3 => exact Option.noConfusion h

/-- After `try_remove_source`, every colour id below the (possibly rewound)
cursor has a full source pair, assuming the same held before. -/
theorem tryRemoveSource_J {g g' : FlowGrid} {row col : Nat} {b : Bool}
    (h : g.tryRemoveSource row col = some (b, g'))
    (hJ : ∀ id : Nat, id < g.nextColorId → g.idFull id) :
    ∀ id : Nat, id < g'.nextColorId → g'.idFull id := by
  cases b with
  | false =>
    rw [tryRemoveSource_false h]
    exact hJ
  | true =>
    unfold FlowGrid.tryRemoveSource at h
    split at h
    case h_1 => simp at h
    case h_2 index hidx =>
      split at h
      case h_1 => exact Option.noConfusion h
      case h_2 cell hcell =>
        split at h
        · simp at h
        rename_i hsrc
        split at h
        case h_1 => exact Option.noConfusion h
        case h_2 colorId hcol =>
          simp only [] at h
          split at h
          case h_1 => exact Option.noConfusion h
          case h_2 entry hentry =>
            have hclose2 : ∀ {q : FlowGrid},
                (∀ id : Nat, colorId ≠ id → q.sourceIndex[id]? = g.sourceIndex[id]?) →
                q.nextColorId =
                  (if colorId < g.nextColorId then colorId else g.nextColorId) →
                ∀ id : Nat, id < q.nextColorId → q.idFull id := by
              intro q hsi hnx id hid
              rw [hnx] at hid
              have hneq : colorId ≠ id := by
                by_cases hcn : colorId < g.nextColorId
                · rw [if_pos hcn] at hid
                  omega
                · rw [if_neg hcn] at hid
                  omega
              have hidn : id < g.nextColorId := by
                by_cases hcn : colorId < g.nextColorId
                · rw [if_pos hcn] at hid
                  omega
                · rw [if_neg hcn] at hid
                  omega
              obtain ⟨a, b2, hab⟩ := hJ id hidn
              refine ⟨a, b2, ?_⟩
              rw [hsi id hneq]
              exact hab
            try simp only [] at h
            iterate 8
              (all_goals try split at h
               all_goals try simp only [] at h)
            all_goals
              first
                | exact Option.noConfusion h
                | (simp only [Option.some.injEq, Prod.mk.injEq, true_and] at h
                   rw [← h]
                   exact hclose2 (fun id hne => List.getElem?_set_ne hne)
                     (by first
                       | rfl
                       | rw [if_pos (by assumption)]
                       | rw [if_neg (by assumption)]))
                | (obtain ⟨hsi4, hnx4⟩ := decolorFlood_aux h
                   exact hclose2
                     (fun id hne => by rw [hsi4]; exact List.getElem?_set_ne hne)
                     (hnx4.trans (by first
                       | rfl
                       | rw [if_pos (by assumption)]
                       | rw [if_neg (by assumption)])))

/-- C8 (amended): in every reachable grid state, every colour id strictly
below `next_color_id` has two registered sources in `source_index` — the
cursor is a lower bound on the free colour ids, advanced on placement by
`try_set_new_source` and rewound on removal.  (It is not in general the
smallest such id — see the counterexample.) -/
theorem color_cursor_lower_bound {g : FlowGrid} (hg : FlowGrid.Reachable g) :
    ∀ id : Nat, id < g.nextColorId → g.idFull id := by
  induction hg with
  | init width height =>
    intro id hid
    exact absurd (show id < 0 from hid) (by omega)
  | step hr hs ih =>
    cases hs with
    | setNewSource a1 a2 a3 a4 hop => exact trySetNewSource_J hop ih
    | setMissingSource a1 a2 a3 a4 a5 hop =>
      intro id hid
      obtain ⟨hnx, hJ⟩ := trySetMissingSource_J hop ih
      rw [hnx] at hid
      exact hJ id hid
    | removeSource a1 a2 a3 a4 hop => exact tryRemoveSource_J hop ih
    | connect a1 a2 a3 a4 a5 hop =>
      obtain ⟨hsi, hnx⟩ := tryConnect_aux hop
      intro id hid
      rw [hnx] at hid
      obtain ⟨a, b2, hab⟩ := ih id hid
      exact ⟨a, b2, by rw [hsi]; exact hab⟩
    | disconnect a1 a2 a3 a4 a5 hop =>
      obtain ⟨hsi, hnx⟩ := tryDisconnect_aux hop
      intro id hid
      rw [hnx] at hid
      obtain ⟨a, b2, hab⟩ := ih id hid
      exact ⟨a, b2, by rw [hsi]; exact hab⟩
    | removeTail a1 a2 a3 a4 a5 a6 hop =>
      obtain ⟨hsi, hnx⟩ := removeTail_aux hop
      intro id hid
      rw [hnx] at hid
      obtain ⟨a, b2, hab⟩ := ih id hid
      exact ⟨a, b2, by rw [hsi]; exact hab⟩

theorem curW2_reachable : FlowGrid.Reachable curW2 :=
  FlowGrid.Reachable.step
    (FlowGrid.Reachable.step (FlowGrid.Reachable.init 1 2)
      (FlowGrid.Step.setNewSource curW0 0 0 true curW1 (by decide)))
    (FlowGrid.Step.setNewSource curW1 1 0 true curW2 (by decide))

theorem color_cursor_lower_bound_witness : curW2.idFull 0 :=
  color_cursor_lower_bound curW2_reachable 0 (by decide)
